import Mathlib

/-!
KryptX VPN: connection lifecycle, kill switch and DNS manager.

A shallow embedding of `internal/network/wireguard.go`, `internal/network/killswitch.go`
and `internal/network/dns.go`.

* Go strings are Lean `String`s; the `strings` helpers used by the code are defined below.
* Every interaction with the operating system (`exec.Command(..).Run()`, `os.ReadFile`,
  `os.WriteFile`) is a `Cmd` executed against an explicit `Host`.  The host carries an
  `oracle` (the outcomes of the next operations, `false` = the operation fails; an exhausted
  oracle means success), so that every theorem quantified over hosts is quantified over all
  outcomes of the commands.  An operation that fails leaves the host unchanged.
* What a successful command does to the host (`effect`) is a model of the tools the program
  drives (iptables, pfctl, netsh, networksetup, cp, mv, ip, wg-quick); it is not part of the
  program.  A command whose precondition fails (a missing source file, an interface that
  already exists) fails whatever the oracle says.
* `Host.calls` is an observation log: `Activate`, `Deactivate`, `Configure`, `Restore`,
  `applyWireGuardConfig` and `removeWireGuardInterface` record their invocation in it.
* Methods with a pointer receiver return the updated receiver next to the error
  (`none` is Go's `nil` error).  The logger is left out.
-/

namespace KryptX

/-! ## Go `strings` helpers -/

/-- Go `unicode.IsSpace`. -/
def isSpace (c : Char) : Bool :=
  c.toNat = 0x09 || c.toNat = 0x0A || c.toNat = 0x0B || c.toNat = 0x0C || c.toNat = 0x0D ||
  c.toNat = 0x20 || c.toNat = 0x85 || c.toNat = 0xA0 || c.toNat = 0x1680 ||
  (0x2000 ≤ c.toNat && c.toNat ≤ 0x200A) || c.toNat = 0x2028 || c.toNat = 0x2029 ||
  c.toNat = 0x202F || c.toNat = 0x205F || c.toNat = 0x3000

/-- Worker of `Fields`: `cur` is the current field, reversed. -/
def fieldsAux : List Char → List Char → List String
  | [], cur => if cur.isEmpty then [] else [String.mk cur.reverse]
  | c :: cs, cur =>
    if isSpace c then
      if cur.isEmpty then fieldsAux cs [] else String.mk cur.reverse :: fieldsAux cs []
    else fieldsAux cs (c :: cur)

/-- Go `strings.Fields`: the maximal runs of non-space characters. -/
def Fields (s : String) : List String := fieldsAux s.toList []

/-- Worker of `SplitLines`: `cur` is the current line, reversed. -/
def splitAux : List Char → List Char → List String
  | [], cur => [String.mk cur.reverse]
  | c :: cs, cur =>
    if c = '\n' then String.mk cur.reverse :: splitAux cs [] else splitAux cs (c :: cur)

/-- Go `strings.Split(s, "\n")`. -/
def SplitLines (s : String) : List String := splitAux s.toList []

/-- Go `strings.TrimSpace`. -/
def TrimSpace (s : String) : String :=
  String.mk ((s.toList.dropWhile isSpace).reverse.dropWhile isSpace).reverse

/-- Go `strings.HasPrefix`. -/
def HasPrefix (s p : String) : Bool := p.toList.isPrefixOf s.toList

/-- Go `strings.Join`. -/
def Join (l : List String) (sep : String) : String := sep.intercalate l

/-! ## The host -/

/-- The value of `runtime.GOOS`. -/
inductive OS
  | linux
  | darwin
  | windows
  | other
  deriving DecidableEq, Repr

/-- An operating-system operation issued by the program. -/
inductive Cmd
  /-- `exec.Command(argv...)` with an optional standard input, then `Run()` or `Output()`. -/
  | run (argv : List String) (stdin : Option String)
  /-- `os.ReadFile(path)`. -/
  | readFile (path : String)
  /-- `os.WriteFile(path, content, ..)`. -/
  | writeFile (path : String) (content : String)
  deriving DecidableEq, Repr

/-- The component-level calls made by the orchestrator, recorded in `Host.calls`. -/
inductive Call
  | ksActivate
  | dnsConfigure
  | tunnelApply
  | tunnelRemove
  | dnsRestore
  | ksDeactivate
  deriving DecidableEq, Repr

/-- The part of the machine the program reads and writes.  An iptables rule is the list of
its rule-specification arguments (for example `["-o", "lo", "-j", "ACCEPT"]`); a chain lists
its rules first to last, which is the order in which the kernel evaluates them. -/
structure Host where
  /-- The value of `runtime.GOOS`. -/
  os : OS
  /-- Outcomes of the next operations; `false` is a failure, exhausted means success. -/
  oracle : List Bool
  /-- Every operation issued so far with its outcome, oldest first. -/
  log : List (Cmd × Bool)
  /-- Every component call made so far, oldest first. -/
  calls : List Call
  /-- The IPv4 `OUTPUT` chain. -/
  chain4 : List (List String)
  /-- The IPv6 `OUTPUT` chain. -/
  chain6 : List (List String)
  /-- The rule set loaded into pf (macOS). -/
  pfRules : Option String
  /-- Whether pf is enabled (macOS). -/
  pfEnabled : Bool
  /-- Names of the Windows firewall rules, in the order they were added. -/
  winRules : List String
  /-- Content of `/etc/resolv.conf`, when the file exists. -/
  resolvConf : Option String
  /-- Content of `/etc/resolv.conf.kryptx.backup`, when the file exists. -/
  resolvBackup : Option String
  /-- Content of `/tmp/resolv.conf.kryptx`, when the file exists. -/
  tmpFile : Option String
  /-- Static DNS servers of the macOS `Wi-Fi` service; `[]` is automatic (DHCP). -/
  macDNS : List String
  /-- Static DNS servers of the Windows connection; `none` is automatic (DHCP). -/
  winDNS : Option (List String)
  /-- Names of the network interfaces that exist. -/
  ifaces : List String
  deriving DecidableEq, Repr

/-- The rule name a `netsh advfirewall firewall add rule` command line adds. -/
def netshAddName (r : String) : Option String :=
  if r = "netsh advfirewall firewall add rule name=\"KryptX_Block_All\" dir=out action=block" then
    some "KryptX_Block_All"
  else if r = "netsh advfirewall firewall add rule name=\"KryptX_Allow_Loopback\" dir=out action=allow localip=127.0.0.1" then
    some "KryptX_Allow_Loopback"
  else if r = "netsh advfirewall firewall add rule name=\"KryptX_Allow_VPN\" dir=out action=allow interface=\"kryptx\"" then
    some "KryptX_Allow_VPN"
  else none

/-- The rule name a `netsh advfirewall firewall delete rule` command line deletes. -/
def netshDeleteName (r : String) : Option String :=
  if r = "netsh advfirewall firewall delete rule name=\"KryptX_Block_All\"" then
    some "KryptX_Block_All"
  else if r = "netsh advfirewall firewall delete rule name=\"KryptX_Allow_Loopback\"" then
    some "KryptX_Allow_Loopback"
  else if r = "netsh advfirewall firewall delete rule name=\"KryptX_Allow_VPN\"" then
    some "KryptX_Allow_VPN"
  else none

/-- Output of `networksetup -getdnsservers Wi-Fi`: one server per line, or a message when
no static server is set. -/
def getdnsserversOutput (servers : List String) : String :=
  if servers.isEmpty then "There aren't any DNS Servers set on Wi-Fi.\n"
  else String.join (servers.map (fun s => s ++ "\n"))

/-- Recognise `sudo iptables|ip6tables -I|-D OUTPUT <spec>`: whether it is the IPv6 tool,
whether it inserts, and the rule specification. -/
def asIptables : List String → Option (Bool × Bool × List String)
  | s :: tool :: op :: chain :: spec =>
    if s = "sudo" ∧ (tool = "iptables" ∨ tool = "ip6tables") ∧ (op = "-I" ∨ op = "-D") ∧
        chain = "OUTPUT" then
      some (decide (tool = "ip6tables"), decide (op = "-I"), spec)
    else none
  | _ => none

/-- Recognise `cmd /C <command line>`. -/
def asCmdC : List String → Option String
  | [c, s, r] => if c = "cmd" ∧ s = "/C" then some r else none
  | _ => none

/-- Recognise `networksetup -setdnsservers Wi-Fi <servers>`. -/
def asSetDNSServers : List String → Option (List String)
  | a :: b :: c :: servers =>
    if a = "networksetup" ∧ b = "-setdnsservers" ∧ c = "Wi-Fi" then some servers else none
  | _ => none

/-- Recognise `netsh interface ipv4 set dns name="Local Area Connection" source=static <addr>`
and, with `add` for `set` and no `source=static`, the command adding a further server:
whether it is `set`, and the address argument. -/
def asNetshDNS : List String → Option (Bool × String)
  | [a, b, c, d, e, f, g, addr] =>
    if a = "netsh" ∧ b = "interface" ∧ c = "ipv4" ∧ d = "set" ∧ e = "dns" ∧
        f = "name=\"Local Area Connection\"" ∧ g = "source=static" then some (true, addr)
    else none
  | [a, b, c, d, e, f, addr] =>
    if a = "netsh" ∧ b = "interface" ∧ c = "ipv4" ∧ d = "add" ∧ e = "dns" ∧
        f = "name=\"Local Area Connection\"" then some (false, addr)
    else none
  | _ => none

/-- Recognise `sudo ip link add dev <name> type wireguard`. -/
def asIpLinkAdd : List String → Option String
  | [a, b, c, d, e, name, f, g] =>
    if a = "sudo" ∧ b = "ip" ∧ c = "link" ∧ d = "add" ∧ e = "dev" ∧ f = "type" ∧
        g = "wireguard" then some name
    else none
  | _ => none

/-- Recognise `sudo wg-quick down <name>`. -/
def asWgQuickDown : List String → Option String
  | [a, b, c, name] => if a = "sudo" ∧ b = "wg-quick" ∧ c = "down" then some name else none
  | _ => none

/-- Effect of `iptables -I OUTPUT` (insertion at the head of the chain) and of
`iptables -D OUTPUT` (deletion of the first rule with this specification; an error when there
is none), on the IPv4 or the IPv6 chain. -/
def iptablesEffect (v6 ins : Bool) (spec : List String) (h : Host) : Option (String × Host) :=
  match v6, ins with
  | false, true => some ("", { h with chain4 := spec :: h.chain4 })
  | false, false =>
    if spec ∈ h.chain4 then some ("", { h with chain4 := h.chain4.erase spec }) else none
  | true, true => some ("", { h with chain6 := spec :: h.chain6 })
  | true, false =>
    if spec ∈ h.chain6 then some ("", { h with chain6 := h.chain6.erase spec }) else none

/-- Effect of a `netsh advfirewall firewall` command line run through `cmd /C`. -/
def netshRuleEffect (r : String) (h : Host) : Option (String × Host) :=
  match netshAddName r, netshDeleteName r with
  | some n, _ => some ("", { h with winRules := h.winRules ++ [n] })
  | none, some n =>
    if n ∈ h.winRules then some ("", { h with winRules := h.winRules.filter (fun m => m ≠ n) })
    else none
  | none, none => some ("", h)

/-- Effect of `networksetup -setdnsservers Wi-Fi <servers>`: `empty` clears the static
servers; no server at all is a usage error. -/
def setDNSServersEffect (servers : List String) (h : Host) : Option (String × Host) :=
  if servers = [] then none
  else if servers = ["empty"] then some ("", { h with macDNS := [] })
  else some ("", { h with macDNS := servers })

/-- Effect of the `netsh interface ipv4 set|add dns` commands; the address argument is
`addr=<server>`. -/
def netshDNSEffect (set : Bool) (addr : String) (h : Host) : Option (String × Host) :=
  if set then some ("", { h with winDNS := some [addr.drop 5] })
  else some ("", { h with winDNS := some ((h.winDNS.getD []) ++ [addr.drop 5]) })

/-- The commands without a variable argument. -/
inductive FixedCmd
  | pfctlLoad
  | pfctlEnable
  | pfctlDisable
  | cpResolvConf
  | mvTmpFile
  | mvBackup
  | getDNSServers
  | netshDHCP
  deriving DecidableEq, Repr

/-- Recognise the commands without a variable argument. -/
def asFixedCmd (argv : List String) : Option FixedCmd :=
  if argv = ["sudo", "pfctl", "-f", "-"] then some .pfctlLoad
  else if argv = ["sudo", "pfctl", "-e"] then some .pfctlEnable
  else if argv = ["sudo", "pfctl", "-d"] then some .pfctlDisable
  else if argv = ["sudo", "cp", "/etc/resolv.conf", "/etc/resolv.conf.kryptx.backup"] then
    some .cpResolvConf
  else if argv = ["sudo", "mv", "/tmp/resolv.conf.kryptx", "/etc/resolv.conf"] then
    some .mvTmpFile
  else if argv = ["sudo", "mv", "/etc/resolv.conf.kryptx.backup", "/etc/resolv.conf"] then
    some .mvBackup
  else if argv = ["networksetup", "-getdnsservers", "Wi-Fi"] then some .getDNSServers
  else if argv = ["netsh", "interface", "ipv4", "set", "dns",
      "name=\"Local Area Connection\"", "source=dhcp"] then
    some .netshDHCP
  else none

/-- Effect of the commands without a variable argument: `pfctl -f -` loads the rule set read
from standard input, `cp` and `mv` need their source file. -/
def fixedEffect (c : FixedCmd) (stdin : Option String) (h : Host) : Option (String × Host) :=
  match c with
  | .pfctlLoad => stdin.map (fun cfg => ("", { h with pfRules := some cfg }))
  | .pfctlEnable => some ("", { h with pfEnabled := true })
  | .pfctlDisable => some ("", { h with pfEnabled := false })
  | .cpResolvConf => h.resolvConf.map (fun c => ("", { h with resolvBackup := some c }))
  | .mvTmpFile => h.tmpFile.map (fun c => ("", { h with resolvConf := some c, tmpFile := none }))
  | .mvBackup =>
    h.resolvBackup.map (fun c => ("", { h with resolvConf := some c, resolvBackup := none }))
  | .getDNSServers => some (getdnsserversOutput h.macDNS, h)
  | .netshDHCP => some ("", { h with winDNS := none })

/-- Effect of `ip link add dev <name> type wireguard`: an error when the interface exists. -/
def ipLinkAddEffect (name : String) (h : Host) : Option (String × Host) :=
  if name ∈ h.ifaces then none else some ("", { h with ifaces := name :: h.ifaces })

/-- Effect of `wg-quick down <name>`: an error when there is no such interface. -/
def wgQuickDownEffect (name : String) (h : Host) : Option (String × Host) :=
  if name ∈ h.ifaces then some ("", { h with ifaces := h.ifaces.filter (fun m => m ≠ name) })
  else none

/-- What a shell command does to the host when it succeeds: its output and the new host, or
`none` when the command cannot succeed on this host.  Commands the host model does not
track succeed without effect. -/
def shellEffect (argv : List String) (stdin : Option String) (h : Host) :
    Option (String × Host) :=
  match asFixedCmd argv with
  | some c => fixedEffect c stdin h
  | none =>
  match asIptables argv with
  | some (v6, ins, spec) => iptablesEffect v6 ins spec h
  | none =>
  match asCmdC argv with
  | some r => netshRuleEffect r h
  | none =>
  match asSetDNSServers argv with
  | some servers => setDNSServersEffect servers h
  | none =>
  match asNetshDNS argv with
  | some (set, addr) => netshDNSEffect set addr h
  | none =>
  match asIpLinkAdd argv with
  | some name => ipLinkAddEffect name h
  | none =>
  match asWgQuickDown argv with
  | some name => wgQuickDownEffect name h
  | none => some ("", h)

/-- What an operation does to the host when it succeeds. -/
def effect (c : Cmd) (h : Host) : Option (String × Host) :=
  match c with
  | .run argv stdin => shellEffect argv stdin h
  | .readFile path =>
    if path = "/etc/resolv.conf" then h.resolvConf.map (fun s => (s, h)) else none
  | .writeFile path content =>
    if path = "/tmp/resolv.conf.kryptx" then some ("", { h with tmpFile := some content })
    else some ("", h)

/-- Issue one operation: the next oracle entry decides whether it may succeed; the result is
the output on success (`none` is an error) and the new host.  The operation and its outcome
are appended to the log. -/
def Host.exec (h : Host) (c : Cmd) : Option String × Host :=
  let h0 := { h with oracle := h.oracle.tail }
  if h.oracle.headD true then
    match effect c h0 with
    | some (out, h1) => (some out, { h1 with log := h1.log ++ [(c, true)] })
    | none => (none, { h0 with log := h0.log ++ [(c, false)] })
  else (none, { h0 with log := h0.log ++ [(c, false)] })

/-- Record a component call. -/
def Host.call (h : Host) (c : Call) : Host := { h with calls := h.calls ++ [c] }

/-! ## Errors -/

/-- A Go `error` value. -/
inductive Err
  /-- An error made by `fmt.Errorf` from a text alone. -/
  | msg (text : String)
  /-- The error returned by a failed operating-system operation. -/
  | os (c : Cmd)
  /-- An error made by `fmt.Errorf("<text>: %w", inner)`. -/
  | wrap (text : String) (inner : Err)
  deriving DecidableEq, Repr

/-! ## `internal/config/config.go` -/

structure ServerConfig where
  Endpoint : String
  PublicKey : String
  Port : Int
  deriving DecidableEq, Repr

structure NetworkConfig where
  Interface : String
  PrivateKey : String
  Address : String
  DNS : List String
  AllowedIPs : List String
  MTU : Int
  deriving DecidableEq, Repr

structure SecurityConfig where
  KillSwitch : Bool
  DNSLeak : Bool
  EncryptConfig : Bool
  VaultPassword : String
  deriving DecidableEq, Repr

structure Config where
  Server : ServerConfig
  Network : NetworkConfig
  Security : SecurityConfig
  deriving DecidableEq, Repr

/-! ## `internal/network/killswitch.go` -/

structure KillSwitch where
  active : Bool
  backupRules : List String
  deriving DecidableEq, Repr

def NewKillSwitch : KillSwitch := { active := false, backupRules := [] }

/-- The `rules` of `activateLinux`. -/
def activateLinuxRules : List String :=
  [ "iptables -I OUTPUT -o lo -j ACCEPT",
    "iptables -I OUTPUT -o kryptx+ -j ACCEPT",
    "iptables -I OUTPUT -j DROP",
    "ip6tables -I OUTPUT -o lo -j ACCEPT",
    "ip6tables -I OUTPUT -o kryptx+ -j ACCEPT",
    "ip6tables -I OUTPUT -j DROP" ]

/-- The `rules` of `deactivateLinux`. -/
def deactivateLinuxRules : List String :=
  [ "iptables -D OUTPUT -j DROP",
    "iptables -D OUTPUT -o kryptx+ -j ACCEPT",
    "iptables -D OUTPUT -o lo -j ACCEPT",
    "ip6tables -D OUTPUT -j DROP",
    "ip6tables -D OUTPUT -o kryptx+ -j ACCEPT",
    "ip6tables -D OUTPUT -o lo -j ACCEPT" ]

/-- The `rules` of `activateWindows`. -/
def activateWindowsRules : List String :=
  [ "netsh advfirewall firewall add rule name=\"KryptX_Block_All\" dir=out action=block",
    "netsh advfirewall firewall add rule name=\"KryptX_Allow_Loopback\" dir=out action=allow localip=127.0.0.1",
    "netsh advfirewall firewall add rule name=\"KryptX_Allow_VPN\" dir=out action=allow interface=\"kryptx\"" ]

/-- The `rules` of `deactivateWindows`. -/
def deactivateWindowsRules : List String :=
  [ "netsh advfirewall firewall delete rule name=\"KryptX_Block_All\"",
    "netsh advfirewall firewall delete rule name=\"KryptX_Allow_Loopback\"",
    "netsh advfirewall firewall delete rule name=\"KryptX_Allow_VPN\"" ]

/-- The `pfConfig` of `activateMacOS`. -/
def pfConfig : String := "\nblock out all\npass out on lo0 all\npass out on kryptx0 all\n"

/-- The command `activateLinux` and `deactivateLinux` build from a rule. -/
def sudoRule (rule : String) : Cmd := .run ("sudo" :: Fields rule) none

/-- The command `activateWindows` and `deactivateWindows` build from a rule. -/
def cmdRule (rule : String) : Cmd := .run ["cmd", "/C", rule] none

/-- The loop of `activateLinux`: run the rules in order, return at the first failure. -/
def activateLinuxLoop : List String → Host → Option Err × Host
  | [], h => (none, h)
  | rule :: rest, h =>
    match h.exec (sudoRule rule) with
    | (none, h1) => (some (.wrap ("failed to apply rule " ++ rule) (.os (sudoRule rule))), h1)
    | (some _, h1) => activateLinuxLoop rest h1

/-- The loop of `deactivateLinux`: run every rule, ignoring errors. -/
def deactivateLinuxLoop : List String → Host → Host
  | [], h => h
  | rule :: rest, h => deactivateLinuxLoop rest (h.exec (sudoRule rule)).2

/-- The loop of `activateWindows`: run the rules in order, return at the first failure. -/
def activateWindowsLoop : List String → Host → Option Err × Host
  | [], h => (none, h)
  | rule :: rest, h =>
    match h.exec (cmdRule rule) with
    | (none, h1) => (some (.wrap "failed to apply rule" (.os (cmdRule rule))), h1)
    | (some _, h1) => activateWindowsLoop rest h1

/-- The loop of `deactivateWindows`: run every rule, ignoring errors. -/
def deactivateWindowsLoop : List String → Host → Host
  | [], h => h
  | rule :: rest, h => deactivateWindowsLoop rest (h.exec (cmdRule rule)).2

def KillSwitch.activateLinux (k : KillSwitch) (h : Host) : Option Err × KillSwitch × Host :=
  match activateLinuxLoop activateLinuxRules h with
  | (some e, h1) => (some e, k, h1)
  | (none, h1) => (none, { k with active := true }, h1)

def KillSwitch.deactivateLinux (k : KillSwitch) (h : Host) : Option Err × KillSwitch × Host :=
  (none, { k with active := false }, deactivateLinuxLoop deactivateLinuxRules h)

def KillSwitch.activateMacOS (k : KillSwitch) (h : Host) : Option Err × KillSwitch × Host :=
  match h.exec (.run ["sudo", "pfctl", "-f", "-"] (some pfConfig)) with
  | (none, h1) =>
    (some (.wrap "failed to configure pfctl"
      (.os (.run ["sudo", "pfctl", "-f", "-"] (some pfConfig)))), k, h1)
  | (some _, h1) =>
    match h1.exec (.run ["sudo", "pfctl", "-e"] none) with
    | (none, h2) =>
      (some (.wrap "failed to enable pfctl" (.os (.run ["sudo", "pfctl", "-e"] none))), k, h2)
    | (some _, h2) => (none, { k with active := true }, h2)

def KillSwitch.deactivateMacOS (k : KillSwitch) (h : Host) : Option Err × KillSwitch × Host :=
  (none, { k with active := false }, (h.exec (.run ["sudo", "pfctl", "-d"] none)).2)

def KillSwitch.activateWindows (k : KillSwitch) (h : Host) : Option Err × KillSwitch × Host :=
  match activateWindowsLoop activateWindowsRules h with
  | (some e, h1) => (some e, k, h1)
  | (none, h1) => (none, { k with active := true }, h1)

def KillSwitch.deactivateWindows (k : KillSwitch) (h : Host) : Option Err × KillSwitch × Host :=
  (none, { k with active := false }, deactivateWindowsLoop deactivateWindowsRules h)

def KillSwitch.Activate (k : KillSwitch) (h : Host) : Option Err × KillSwitch × Host :=
  let h := h.call .ksActivate
  if k.active then (none, k, h)
  else
    match h.os with
    | .linux => k.activateLinux h
    | .darwin => k.activateMacOS h
    | .windows => k.activateWindows h
    | .other => (some (.msg "unsupported OS for kill switch"), k, h)

def KillSwitch.Deactivate (k : KillSwitch) (h : Host) : Option Err × KillSwitch × Host :=
  let h := h.call .ksDeactivate
  if !k.active then (none, k, h)
  else
    match h.os with
    | .linux => k.deactivateLinux h
    | .darwin => k.deactivateMacOS h
    | .windows => k.deactivateWindows h
    | .other => (some (.msg "unsupported OS for kill switch"), k, h)

def KillSwitch.IsActive (k : KillSwitch) : Bool := k.active

/-! ## `internal/network/dns.go` -/

structure DNSManager where
  vpnDNS : List String
  originalDNS : List String
  configured : Bool
  deriving DecidableEq, Repr

def NewDNSManager (vpnDNS : List String) : DNSManager :=
  { vpnDNS := vpnDNS, originalDNS := [], configured := false }

/-- The nameserver extraction loop of `backupLinuxDNS`: the entries appended to
`originalDNS`, one for each line that, trimmed, starts with `nameserver` and has at least
two fields. -/
def parseNameservers : List String → List String
  | [] => []
  | line :: rest =>
    let line := TrimSpace line
    if HasPrefix line "nameserver" then
      match Fields line with
      | _ :: p1 :: _ => p1 :: parseNameservers rest
      | _ => parseNameservers rest
    else parseNameservers rest

def DNSManager.backupLinuxDNS (d : DNSManager) (h : Host) : Option Err × DNSManager × Host :=
  match h.exec (.readFile "/etc/resolv.conf") with
  | (none, h1) => (some (.os (.readFile "/etc/resolv.conf")), d, h1)
  | (some data, h1) =>
    let d1 := { d with originalDNS := d.originalDNS ++ parseNameservers (SplitLines data) }
    let c := Cmd.run ["sudo", "cp", "/etc/resolv.conf", "/etc/resolv.conf.kryptx.backup"] none
    match h1.exec c with
    | (none, h2) => (some (.os c), d1, h2)
    | (some _, h2) => (none, d1, h2)

/-- The resolv.conf text built by `setLinuxDNS`. -/
def linuxDNSContent (vpnDNS : List String) : String :=
  vpnDNS.foldl (fun content dns => content ++ ("nameserver " ++ dns ++ "\n")) "# KryptX VPN DNS\n"

def DNSManager.setLinuxDNS (d : DNSManager) (h : Host) : Option Err × DNSManager × Host :=
  let content := linuxDNSContent d.vpnDNS
  let tmpFile := "/tmp/resolv.conf.kryptx"
  match h.exec (.writeFile tmpFile content) with
  | (none, h1) => (some (.os (.writeFile tmpFile content)), d, h1)
  | (some _, h1) =>
    let c := Cmd.run ["sudo", "mv", tmpFile, "/etc/resolv.conf"] none
    match h1.exec c with
    | (none, h2) => (some (.os c), d, h2)
    | (some _, h2) => (none, d, h2)

def DNSManager.restoreLinuxDNS (d : DNSManager) (h : Host) : Option Err × DNSManager × Host :=
  let c := Cmd.run ["sudo", "mv", "/etc/resolv.conf.kryptx.backup", "/etc/resolv.conf"] none
  match h.exec c with
  | (none, h1) => (some (.os c), d, h1)
  | (some _, h1) => (none, d, h1)

def DNSManager.backupMacOSDNS (d : DNSManager) (h : Host) : Option Err × DNSManager × Host :=
  let c := Cmd.run ["networksetup", "-getdnsservers", "Wi-Fi"] none
  match h.exec c with
  | (none, h1) => (some (.os c), d, h1)
  | (some output, h1) => (none, { d with originalDNS := Fields output }, h1)

def DNSManager.setMacOSDNS (d : DNSManager) (h : Host) : Option Err × DNSManager × Host :=
  let args := ["-setdnsservers", "Wi-Fi"] ++ d.vpnDNS
  let c := Cmd.run ("networksetup" :: args) none
  match h.exec c with
  | (none, h1) => (some (.os c), d, h1)
  | (some _, h1) => (none, d, h1)

def DNSManager.restoreMacOSDNS (d : DNSManager) (h : Host) : Option Err × DNSManager × Host :=
  if d.originalDNS.length = 0 then
    let c := Cmd.run ["networksetup", "-setdnsservers", "Wi-Fi", "empty"] none
    match h.exec c with
    | (none, h1) => (some (.os c), d, h1)
    | (some _, h1) => (none, d, h1)
  else
    let args := ["-setdnsservers", "Wi-Fi"] ++ d.originalDNS
    let c := Cmd.run ("networksetup" :: args) none
    match h.exec c with
    | (none, h1) => (some (.os c), d, h1)
    | (some _, h1) => (none, d, h1)

def DNSManager.backupWindowsDNS (d : DNSManager) (h : Host) : Option Err × DNSManager × Host :=
  let c := Cmd.run ["netsh", "interface", "ipv4", "show", "dnsservers"] none
  match h.exec c with
  | (none, h1) => (some (.os c), d, h1)
  | (some _, h1) => (none, d, h1)

/-- The second half of `setWindowsDNS`: the secondary DNS. -/
def DNSManager.setWindowsSecondary (d : DNSManager) (h : Host) :
    Option Err × DNSManager × Host :=
  match d.vpnDNS with
  | _ :: dns1 :: _ =>
    let c := Cmd.run ["netsh", "interface", "ipv4", "add", "dns",
      "name=\"Local Area Connection\"", "addr=" ++ dns1] none
    match h.exec c with
    | (none, h1) => (some (.os c), d, h1)
    | (some _, h1) => (none, d, h1)
  | _ => (none, d, h)

def DNSManager.setWindowsDNS (d : DNSManager) (h : Host) : Option Err × DNSManager × Host :=
  match d.vpnDNS with
  | dns0 :: _ =>
    let c := Cmd.run ["netsh", "interface", "ipv4", "set", "dns",
      "name=\"Local Area Connection\"", "source=static", "addr=" ++ dns0] none
    match h.exec c with
    | (none, h1) => (some (.os c), d, h1)
    | (some _, h1) => d.setWindowsSecondary h1
  | [] => d.setWindowsSecondary h

def DNSManager.restoreWindowsDNS (d : DNSManager) (h : Host) : Option Err × DNSManager × Host :=
  let c := Cmd.run ["netsh", "interface", "ipv4", "set", "dns",
    "name=\"Local Area Connection\"", "source=dhcp"] none
  match h.exec c with
  | (none, h1) => (some (.os c), d, h1)
  | (some _, h1) => (none, d, h1)

def DNSManager.backupDNS (d : DNSManager) (h : Host) : Option Err × DNSManager × Host :=
  match h.os with
  | .linux => d.backupLinuxDNS h
  | .darwin => d.backupMacOSDNS h
  | .windows => d.backupWindowsDNS h
  | .other => (some (.msg "unsupported OS"), d, h)

def DNSManager.setVPNDNS (d : DNSManager) (h : Host) : Option Err × DNSManager × Host :=
  match h.os with
  | .linux => d.setLinuxDNS h
  | .darwin => d.setMacOSDNS h
  | .windows => d.setWindowsDNS h
  | .other => (some (.msg "unsupported OS"), d, h)

def DNSManager.restoreDNS (d : DNSManager) (h : Host) : Option Err × DNSManager × Host :=
  match h.os with
  | .linux => d.restoreLinuxDNS h
  | .darwin => d.restoreMacOSDNS h
  | .windows => d.restoreWindowsDNS h
  | .other => (some (.msg "unsupported OS"), d, h)

def DNSManager.Configure (d : DNSManager) (h : Host) : Option Err × DNSManager × Host :=
  let h := h.call .dnsConfigure
  if d.configured then (none, d, h)
  else
    match d.backupDNS h with
    | (some e, d1, h1) => (some (.wrap "backing up DNS" e), d1, h1)
    | (none, d1, h1) =>
      match d1.setVPNDNS h1 with
      | (some e, d2, h2) => (some (.wrap "setting VPN DNS" e), d2, h2)
      | (none, d2, h2) => (none, { d2 with configured := true }, h2)

def DNSManager.Restore (d : DNSManager) (h : Host) : Option Err × DNSManager × Host :=
  let h := h.call .dnsRestore
  if !d.configured then (none, d, h)
  else
    match d.restoreDNS h with
    | (some e, d1, h1) => (some (.wrap "restoring DNS" e), d1, h1)
    | (none, d1, h1) => (none, { d1 with configured := false }, h1)

/-! ## `internal/network/wireguard.go` -/

structure VPNClient where
  config : Config
  connected : Bool
  /-- A `nil` pointer is `none`. -/
  killSwitch : Option KillSwitch
  /-- A `nil` pointer is `none`. -/
  dnsManager : Option DNSManager
  deriving DecidableEq, Repr

def NewVPNClient (cfg : Config) : VPNClient :=
  { config := cfg
    connected := false
    killSwitch := if cfg.Security.KillSwitch then some NewKillSwitch else none
    dnsManager := if cfg.Security.DNSLeak then some (NewDNSManager cfg.Network.DNS) else none }

def VPNClient.generateWireGuardConfig (v : VPNClient) : String :=
  "[Interface]\nPrivateKey = " ++ v.config.Network.PrivateKey ++
  "\nAddress = " ++ v.config.Network.Address ++
  "\nDNS = " ++ Join v.config.Network.DNS ", " ++
  "\nMTU = " ++ toString v.config.Network.MTU ++
  "\n\n[Peer]\nPublicKey = " ++ v.config.Server.PublicKey ++
  "\nEndpoint = " ++ v.config.Server.Endpoint ++ ":" ++ toString v.config.Server.Port ++
  "\nAllowedIPs = " ++ Join v.config.Network.AllowedIPs ", " ++
  "\nPersistentKeepalive = 25\n"

def VPNClient.applyLinuxConfig (v : VPNClient) (configContent : String) (h : Host) :
    Option Err × Host :=
  let interfaceName := v.config.Network.Interface
  let c1 := Cmd.run ["sudo", "ip", "link", "add", "dev", interfaceName, "type", "wireguard"] none
  match h.exec c1 with
  | (none, h1) => (some (.wrap "creating interface" (.os c1)), h1)
  | (some _, h1) =>
    let c2 := Cmd.run ["sudo", "wg-quick", "up", "/dev/stdin"] (some configContent)
    match h1.exec c2 with
    | (none, h2) => (some (.wrap "applying config" (.os c2)), h2)
    | (some _, h2) => (none, h2)

def VPNClient.applyWindowsConfig (_v : VPNClient) (_configContent : String) (h : Host) :
    Option Err × Host :=
  (some (.msg "Windows implementation requires WireGuard service integration"), h)

def VPNClient.applyMacOSConfig (v : VPNClient) (configContent : String) (h : Host) :
    Option Err × Host :=
  v.applyLinuxConfig configContent h

def VPNClient.applyWireGuardConfig (v : VPNClient) (configContent : String) (h : Host) :
    Option Err × Host :=
  let h := h.call .tunnelApply
  match h.os with
  | .windows => v.applyWindowsConfig configContent h
  | .darwin => v.applyMacOSConfig configContent h
  | .linux => v.applyLinuxConfig configContent h
  | .other => (some (.msg "unsupported operating system"), h)

def VPNClient.removeWireGuardInterface (v : VPNClient) (h : Host) : Option Err × Host :=
  let h := h.call .tunnelRemove
  let interfaceName := v.config.Network.Interface
  match h.os with
  | .linux | .darwin =>
    let c := Cmd.run ["sudo", "wg-quick", "down", interfaceName] none
    match h.exec c with
    | (none, h1) => (some (.os c), h1)
    | (some _, h1) => (none, h1)
  | .windows => (none, h)
  | .other => (some (.msg "unsupported OS"), h)

/-- Go `net.InterfaceByName(v.config.Network.Interface)` returns no error. -/
def VPNClient.isInterfaceUp (v : VPNClient) (h : Host) : Bool :=
  decide (v.config.Network.Interface ∈ h.ifaces)

/-- The kill-switch step of `Connect` (a `nil` kill switch is skipped). -/
def VPNClient.connectKillSwitch (v : VPNClient) (h : Host) : Option Err × VPNClient × Host :=
  match v.killSwitch with
  | none => (none, v, h)
  | some k =>
    match k.Activate h with
    | (e, k1, h1) => (e, { v with killSwitch := some k1 }, h1)

/-- The DNS step of `Connect` (a `nil` DNS manager is skipped). -/
def VPNClient.connectDNS (v : VPNClient) (h : Host) : Option Err × VPNClient × Host :=
  match v.dnsManager with
  | none => (none, v, h)
  | some d =>
    match d.Configure h with
    | (e, d1, h1) => (e, { v with dnsManager := some d1 }, h1)

/-- `VPNClient.Connect`.  The monitor goroutine it starts on success is not run here: its
ticks are `VPNClient.monitorTick`. -/
def VPNClient.Connect (v : VPNClient) (h : Host) : Option Err × VPNClient × Host :=
  if v.connected then (some (.msg "already connected"), v, h)
  else
    match v.connectKillSwitch h with
    | (some e, v1, h1) => (some (.wrap "activating kill switch" e), v1, h1)
    | (none, v1, h1) =>
      match v1.connectDNS h1 with
      | (some e, v2, h2) => (some (.wrap "configuring DNS" e), v2, h2)
      | (none, v2, h2) =>
        let configContent := v2.generateWireGuardConfig
        match v2.applyWireGuardConfig configContent h2 with
        | (some e, h3) => (some (.wrap "applying WireGuard config" e), v2, h3)
        | (none, h3) => (none, { v2 with connected := true }, h3)

/-- The DNS step of `Disconnect`: the error is logged and dropped. -/
def VPNClient.disconnectDNS (v : VPNClient) (h : Host) : VPNClient × Host :=
  match v.dnsManager with
  | none => (v, h)
  | some d =>
    match d.Restore h with
    | (_, d1, h1) => ({ v with dnsManager := some d1 }, h1)

/-- The kill-switch step of `Disconnect`: the error is logged and dropped. -/
def VPNClient.disconnectKillSwitch (v : VPNClient) (h : Host) : VPNClient × Host :=
  match v.killSwitch with
  | none => (v, h)
  | some k =>
    match k.Deactivate h with
    | (_, k1, h1) => ({ v with killSwitch := some k1 }, h1)

def VPNClient.Disconnect (v : VPNClient) (h : Host) : Option Err × VPNClient × Host :=
  if !v.connected then (none, v, h)
  else
    let h1 := (v.removeWireGuardInterface h).2
    match v.disconnectDNS h1 with
    | (v2, h2) =>
      match v2.disconnectKillSwitch h2 with
      | (v3, h3) => (none, { v3 with connected := false }, h3)

def VPNClient.IsConnected (v : VPNClient) : Bool := v.connected

/-- One firing of the ticker branch of `monitorConnection`. -/
def VPNClient.monitorTick (v : VPNClient) (h : Host) : VPNClient :=
  if !v.isInterfaceUp h then { v with connected := false } else v

/-! ## The lifecycle as a transition system -/

/-- The client together with the host it runs on. -/
structure Sys where
  client : VPNClient
  host : Host
  deriving DecidableEq, Repr

/-- The events of the lifecycle: the public operations, a monitor tick, and the host
losing the tunnel interface behind the program's back (what the monitor watches for). -/
inductive Op
  | connect
  | disconnect
  | tick
  | ifaceLost
  deriving DecidableEq, Repr

def Sys.step (s : Sys) : Op → Sys
  | .connect =>
    match s.client.Connect s.host with
    | (_, v, h) => { client := v, host := h }
  | .disconnect =>
    match s.client.Disconnect s.host with
    | (_, v, h) => { client := v, host := h }
  | .tick => { s with client := s.client.monitorTick s.host }
  | .ifaceLost =>
    { s with host := { s.host with
        ifaces := s.host.ifaces.filter (fun m => m ≠ s.client.config.Network.Interface) } }

/-- Run a sequence of events. -/
def Sys.run (s : Sys) (ops : List Op) : Sys := ops.foldl Sys.step s

/-- A host on which nothing has been installed or issued yet: the given platform, command
outcomes and resolver state, empty firewall, no tunnel interface. -/
def freshHost (os : OS) (oracle : List Bool) (resolvConf : Option String)
    (macDNS : List String) (winDNS : Option (List String)) : Host :=
  { os := os, oracle := oracle, log := [], calls := [], chain4 := [], chain6 := [],
    pfRules := none, pfEnabled := false, winRules := [], resolvConf := resolvConf,
    resolvBackup := none, tmpFile := none, macDNS := macDNS, winDNS := winDNS, ifaces := [] }

/-! ## Auxiliary notions used by the statements -/

/-- Whether a command is one of the two that create or remove a network interface. -/
def touchesIfaces : Cmd → Bool
  | .run argv _ => (asIpLinkAdd argv).isSome || (asWgQuickDown argv).isSome
  | .readFile _ => false
  | .writeFile _ _ => false

/-- The host `h'` is the host `h` some operations later: same platform, the log extended. -/
def Host.Ext (h h' : Host) : Prop := h'.os = h.os ∧ ∃ l, h'.log = h.log ++ l

/-- The host `h'` is the host `h` some operations later, none of which created or removed a
network interface, and with no component call in between. -/
def Host.Frame (h h' : Host) : Prop := h.Ext h' ∧ h'.ifaces = h.ifaces ∧ h'.calls = h.calls

/-- Every operation issued so far succeeded. -/
def Host.allOk (h : Host) : Prop := ∀ e ∈ h.log, e.2 = true

instance (h : Host) : Decidable h.allOk := by
  unfold Host.allOk
  infer_instance

/-- Whether the kill switch exists and is engaged. -/
def VPNClient.ksEngaged (v : VPNClient) : Bool :=
  match v.killSwitch with
  | some k => k.active
  | none => false

/-- Whether the DNS manager exists and is engaged. -/
def VPNClient.dnsEngaged (v : VPNClient) : Bool :=
  match v.dnsManager with
  | some d => d.configured
  | none => false

/-- A sample profile: kill switch and DNS leak protection enabled, interface `kryptx0`,
DNS list `["10.0.0.1"]`. -/
def sampleConfig : Config :=
  { Server := { Endpoint := "vpn.example.com", PublicKey := "c2VydmVy", Port := 51820 }
    Network :=
      { Interface := "kryptx0", PrivateKey := "Y2xpZW50", Address := "10.0.0.2/24",
        DNS := ["10.0.0.1"], AllowedIPs := ["0.0.0.0/0"], MTU := 1420 }
    Security :=
      { KillSwitch := true, DNSLeak := true, EncryptConfig := false, VaultPassword := "" } }

/-- A fresh Linux host whose `/etc/resolv.conf` lists `1.1.1.1` and `8.8.8.8`, with the
given command outcomes. -/
def sampleLinux (oracle : List Bool) : Host :=
  freshHost .linux oracle (some "nameserver 1.1.1.1\nnameserver 8.8.8.8\n") [] none

/-- The lifecycle starts from a fresh client on some host. -/
def Sys.init (cfg : Config) (h : Host) : Sys := { client := NewVPNClient cfg, host := h }

/-- `Connect` of a fresh client with the sample profile on the sample Linux host, where the
kill switch (six commands) and the DNS configuration (four operations) succeed and the
creation of the tunnel interface fails. -/
def connectTunnelFails : Option Err × VPNClient × Host :=
  (NewVPNClient sampleConfig).Connect (sampleLinux (List.replicate 10 true ++ [false]))

/-- The invariant behind P5: the kill switch exists, and it is engaged whenever the client
reports connected. -/
def VPNClient.guarded (v : VPNClient) : Prop :=
  v.killSwitch ≠ none ∧ (v.connected = true → v.ksEngaged = true)

/-- The interface-removal command of `removeWireGuardInterface`. -/
def removalCmd (cfg : Config) : Cmd := .run ["sudo", "wg-quick", "down", cfg.Network.Interface] none

/-- The invariant behind the amended I1, for the profile `cfg`: the client keeps its profile
and its kill switch; on a platform without tunnel support the interface does not exist; and
unless an interface-removal command has failed, the interface exists only while the kill
switch is engaged. -/
def Sys.covered (cfg : Config) (s : Sys) : Prop :=
  s.client.config = cfg ∧ s.client.killSwitch ≠ none ∧
    ((s.host.os = .windows ∨ s.host.os = .other) → cfg.Network.Interface ∉ s.host.ifaces) ∧
    ((removalCmd cfg, false) ∉ s.host.log → cfg.Network.Interface ∈ s.host.ifaces →
      s.client.ksEngaged = true)

/-- The lifecycle in which the kill switch, the DNS configuration and the tunnel come up
(twelve operations) and then, on `Disconnect`, the interface-removal command fails. -/
def removalFails : Sys :=
  (Sys.init sampleConfig (sampleLinux (List.replicate 12 true ++ [false]))).run
    [.connect, .disconnect]

/-- The rule specification of the drop-all-outbound rule. -/
def dropAll : List String := ["-j", "DROP"]

/-- The rule specification of the allow-loopback rule. -/
def allowLoopback : List String := ["-o", "lo", "-j", "ACCEPT"]

/-- The rule specification of the allow-tunnel-interface rule. -/
def allowTunnel : List String := ["-o", "kryptx+", "-j", "ACCEPT"]

/-- Whether an `-o` pattern matches an interface name: a pattern ending in `+` matches every
name that starts with what precedes the `+`. -/
def ifaceMatches (pat iface : String) : Bool :=
  if pat.toList.getLast? = some '+' then pat.toList.dropLast.isPrefixOf iface.toList
  else pat = iface

/-- Whether a rule applies to a packet leaving through `iface`: a rule with `-o <pattern>`
applies when the pattern matches, a rule without it applies to every packet. -/
def ruleMatches (spec : List String) (iface : String) : Bool :=
  match spec with
  | o :: pat :: _ => if o = "-o" then ifaceMatches pat iface else true
  | _ => true

/-- The target of a rule: the argument after `-j`. -/
def ruleTarget : List String → Option String
  | [] => none
  | [_] => none
  | j :: t :: rest => if j = "-j" then some t else ruleTarget (t :: rest)

/-- The fate of a packet leaving through `iface`: the target of the first rule of the chain
that applies to it (`none`: no rule applies, the chain policy decides). -/
def verdict : List (List String) → String → Option String
  | [], _ => none
  | spec :: rest, iface => if ruleMatches spec iface then ruleTarget spec else verdict rest iface

/-- A fresh Linux host on which every command succeeds. -/
def freshLinux : Host := freshHost .linux [] none [] none

/-- A resolver list as the host reports it: every entry is non-empty and free of white space,
and the list is not the single word `empty`. -/
def cleanResolvers (l : List String) : Prop :=
  (∀ s ∈ l, s ≠ "" ∧ ∀ c ∈ s.toList, isSpace c = false) ∧ l ≠ ["empty"]

instance (l : List String) : Decidable (cleanResolvers l) := by
  unfold cleanResolvers
  infer_instance

/-- A fresh Windows host with the static resolvers `1.1.1.1` and `8.8.8.8`, on which every
command succeeds. -/
def windowsStatic : Host := freshHost .windows [] none [] (some ["1.1.1.1", "8.8.8.8"])

/-- A fresh macOS host with the static resolvers `1.1.1.1` and `8.8.8.8`, on which every
command succeeds. -/
def darwinStatic : Host := freshHost .darwin [] none ["1.1.1.1", "8.8.8.8"] none

/-- The command that would write an empty static resolver list on macOS. -/
def emptyStaticCmd : Cmd := .run ["networksetup", "-setdnsservers", "Wi-Fi"] none

/-- The command of `restoreMacOSDNS` for an empty backup. -/
def restoreAutomaticCmd : Cmd := .run ["networksetup", "-setdnsservers", "Wi-Fi", "empty"] none

/-- The command of `restoreWindowsDNS`. -/
def restoreDHCPCmd : Cmd :=
  .run ["netsh", "interface", "ipv4", "set", "dns", "name=\"Local Area Connection\"",
    "source=dhcp"] none

/-- The command of `restoreLinuxDNS`. -/
def restoreBackupCmd : Cmd :=
  .run ["sudo", "mv", "/etc/resolv.conf.kryptx.backup", "/etc/resolv.conf"] none


/-- The entries of a list joined by `", "` as the specification words it: nothing for no
entry, the entry itself for a single one, and otherwise the first entry, a comma and a blank,
then the remaining entries joined the same way. -/
def specJoined : List String → String
  | [] => ""
  | [a] => a
  | a :: b :: rest => a ++ ", " ++ specJoined (b :: rest)

/-- The lines of the native configuration as the specification lists them: the section
`[Interface]` with `PrivateKey`, `Address`, `DNS` and `MTU`, a blank line, the section
`[Peer]` with `PublicKey`, `Endpoint`, `AllowedIPs` and `PersistentKeepalive = 25`. -/
def specConfigLines (cfg : Config) : List String :=
  [ "[Interface]",
    "PrivateKey = " ++ cfg.Network.PrivateKey,
    "Address = " ++ cfg.Network.Address,
    "DNS = " ++ specJoined cfg.Network.DNS,
    "MTU = " ++ toString cfg.Network.MTU,
    "",
    "[Peer]",
    "PublicKey = " ++ cfg.Server.PublicKey,
    "Endpoint = " ++ cfg.Server.Endpoint ++ ":" ++ toString cfg.Server.Port,
    "AllowedIPs = " ++ specJoined cfg.Network.AllowedIPs,
    "PersistentKeepalive = 25" ]

/-- The native configuration as the specification describes it: the lines of
`specConfigLines`, each terminated by a newline, and nothing else. -/
def specRenderedConfig (cfg : Config) : String :=
  String.join ((specConfigLines cfg).map (fun line => line ++ "\n"))

/-- A connected client whose tunnel interface has just been lost: the sample profile after a
successful `Connect` on the sample Linux host, then the loss of the interface. -/
def connectedThenLost : Sys :=
  (Sys.init sampleConfig (sampleLinux [])).run [.connect, .ifaceLost]

/-- The firewall rule a command installs, when it installs one: for
`sudo iptables|ip6tables -I OUTPUT <spec>` the tool followed by the rule specification, for
a `netsh advfirewall firewall add rule` line run through `cmd /C` the name of the rule. -/
def installsRule : Cmd → Option (List String)
  | .run argv _ =>
    match asIptables argv with
    | some (v6, ins, spec) =>
      if ins then some ((if v6 then "ip6tables" else "iptables") :: spec) else none
    | none =>
      match asCmdC argv with
      | some r => (netshAddName r).map (fun n => [n])
      | none => none
  | .readFile _ => none
  | .writeFile _ _ => none

/-- The firewall rule a command removes, when it removes one: for
`sudo iptables|ip6tables -D OUTPUT <spec>` the tool followed by the rule specification, for
a `netsh advfirewall firewall delete rule` line run through `cmd /C` the name of the rule. -/
def removesRule : Cmd → Option (List String)
  | .run argv _ =>
    match asIptables argv with
    | some (v6, ins, spec) =>
      if ins then none else some ((if v6 then "ip6tables" else "iptables") :: spec)
    | none =>
      match asCmdC argv with
      | some r => (netshDeleteName r).map (fun n => [n])
      | none => none
  | .readFile _ => none
  | .writeFile _ _ => none

/-- The rules installed by the commands of `activateLinux`, in the order of installation. -/
def installedLinux : List (List String) :=
  (activateLinuxRules.map sudoRule).filterMap installsRule

/-- The rules removed by the commands of `deactivateLinux`, in the order of removal. -/
def removedLinux : List (List String) :=
  (deactivateLinuxRules.map sudoRule).filterMap removesRule

/-- The rules installed by the commands of `activateWindows`, in the order of
installation. -/
def installedWindows : List (List String) :=
  (activateWindowsRules.map cmdRule).filterMap installsRule

/-- The rules removed by the commands of `deactivateWindows`, in the order of removal. -/
def removedWindows : List (List String) :=
  (deactivateWindowsRules.map cmdRule).filterMap removesRule

/-- A fresh Windows host on which every command succeeds. -/
def freshWindows : Host := freshHost .windows [] none [] none

/-- An engaged kill switch. -/
def engagedSwitch : KillSwitch := { active := true, backupRules := [] }

/-- A fresh Linux host on which the first command succeeds and the second one fails. -/
def secondRuleFails : Host := freshHost .linux [true, false] none [] none

/-- A DNS manager for a profile with three resolvers. -/
def threeResolvers : DNSManager := NewDNSManager ["10.0.0.1", "10.0.0.2", "10.0.0.3"]

/-- A fresh macOS host whose `Wi-Fi` service has no static DNS server (automatic
resolution), on which every command succeeds. -/
def darwinAutomatic : Host := freshHost .darwin [] none [] none

/-- The words of the message `networksetup -getdnsservers` prints when no static server is
set. -/
def messageWords : List String :=
  ["There", "aren't", "any", "DNS", "Servers", "set", "on", "Wi-Fi."]

/-- The argument vector of a shell command (empty for a file operation). -/
def Cmd.argv : Cmd → List String
  | .run argv _ => argv
  | .readFile _ => []
  | .writeFile _ _ => []

/-! ## The host: basic facts -/

theorem fixedEffect_frame {c : FixedCmd} {stdin : Option String} {h h' : Host} {out : String}
    (he : fixedEffect c stdin h = some (out, h')) :
    h'.os = h.os ∧ h'.oracle = h.oracle ∧ h'.log = h.log ∧ h'.calls = h.calls ∧
      h'.ifaces = h.ifaces := by
  unfold fixedEffect at he
  split at he
  all_goals
    simp [Option.map_eq_some'] at he
    obtain ⟨_, _, -, rfl⟩ := he
    simp

theorem iptablesEffect_frame {v6 ins : Bool} {spec : List String} {h h' : Host} {out : String}
    (he : iptablesEffect v6 ins spec h = some (out, h')) :
    h'.os = h.os ∧ h'.oracle = h.oracle ∧ h'.log = h.log ∧ h'.calls = h.calls ∧
      h'.ifaces = h.ifaces := by
  unfold iptablesEffect at he
  split at he <;> (try split at he) <;> simp at he <;> (obtain ⟨-, rfl⟩ := he) <;> simp

theorem netshRuleEffect_frame {r : String} {h h' : Host} {out : String}
    (he : netshRuleEffect r h = some (out, h')) :
    h'.os = h.os ∧ h'.oracle = h.oracle ∧ h'.log = h.log ∧ h'.calls = h.calls ∧
      h'.ifaces = h.ifaces := by
  unfold netshRuleEffect at he
  split at he <;> (try split at he) <;> simp at he <;> (obtain ⟨-, rfl⟩ := he) <;> simp

theorem setDNSServersEffect_frame {l : List String} {h h' : Host} {out : String}
    (he : setDNSServersEffect l h = some (out, h')) :
    h'.os = h.os ∧ h'.oracle = h.oracle ∧ h'.log = h.log ∧ h'.calls = h.calls ∧
      h'.ifaces = h.ifaces := by
  unfold setDNSServersEffect at he
  split at he <;> (try split at he) <;> simp at he <;> (obtain ⟨-, rfl⟩ := he) <;> simp

theorem netshDNSEffect_frame {b : Bool} {a : String} {h h' : Host} {out : String}
    (he : netshDNSEffect b a h = some (out, h')) :
    h'.os = h.os ∧ h'.oracle = h.oracle ∧ h'.log = h.log ∧ h'.calls = h.calls ∧
      h'.ifaces = h.ifaces := by
  unfold netshDNSEffect at he
  split at he <;> simp at he <;> (obtain ⟨-, rfl⟩ := he) <;> simp

theorem shellEffect_frame {argv : List String} {stdin : Option String} {h h' : Host}
    {out : String} (he : shellEffect argv stdin h = some (out, h')) :
    h'.os = h.os ∧ h'.oracle = h.oracle ∧ h'.log = h.log ∧ h'.calls = h.calls ∧
      (asIpLinkAdd argv = none → asWgQuickDown argv = none → h'.ifaces = h.ifaces) := by
  unfold shellEffect at he
  split at he
  · obtain ⟨a, b, c, d, e⟩ := fixedEffect_frame he; simp [*]
  split at he
  · obtain ⟨a, b, c, d, e⟩ := iptablesEffect_frame he; simp [*]
  split at he
  · obtain ⟨a, b, c, d, e⟩ := netshRuleEffect_frame he; simp [*]
  split at he
  · obtain ⟨a, b, c, d, e⟩ := setDNSServersEffect_frame he; simp [*]
  split at he
  · obtain ⟨a, b, c, d, e⟩ := netshDNSEffect_frame he; simp [*]
  split at he
  · rename_i hx; simp [hx]
    unfold ipLinkAddEffect at he
    split at he <;> simp at he; obtain ⟨-, rfl⟩ := he; simp
  split at he
  · rename_i hx; simp [hx]
    unfold wgQuickDownEffect at he
    split at he <;> simp at he; obtain ⟨-, rfl⟩ := he; simp
  · simp at he; obtain ⟨-, rfl⟩ := he; simp

theorem effect_frame {c : Cmd} {h h' : Host} {out : String}
    (he : effect c h = some (out, h')) :
    h'.os = h.os ∧ h'.oracle = h.oracle ∧ h'.log = h.log ∧ h'.calls = h.calls ∧
      (touchesIfaces c = false → h'.ifaces = h.ifaces) := by
  cases c with
  | run argv stdin =>
    obtain ⟨a, b, c, d, e⟩ := shellEffect_frame (show shellEffect argv stdin h = _ from he)
    refine ⟨a, b, c, d, fun ht => ?_⟩
    simp [touchesIfaces] at ht
    exact e ht.1 ht.2
  | readFile path =>
    simp only [effect] at he
    split at he
    · simp [Option.map_eq_some'] at he
      obtain ⟨_, _, -, rfl⟩ := he
      simp
    · simp at he
  | writeFile path content =>
    simp only [effect] at he
    split at he <;> simp at he <;> (obtain ⟨-, rfl⟩ := he) <;> simp

/-- The three possible results of issuing an operation. -/
theorem exec_cases (h : Host) (c : Cmd) :
    (∃ out h1, effect c { h with oracle := h.oracle.tail } = some (out, h1) ∧
        h.oracle.headD true = true ∧
        h.exec c = (some out, { h1 with log := h1.log ++ [(c, true)] })) ∨
      h.exec c = (none, { h with oracle := h.oracle.tail, log := h.log ++ [(c, false)] }) := by
  by_cases ho : h.oracle.headD true = true
  · cases he : effect c { h with oracle := h.oracle.tail } with
    | none =>
      right
      unfold Host.exec
      simp only [ho, if_true, he]
    | some r =>
      left
      refine ⟨r.1, r.2, rfl, ho, ?_⟩
      unfold Host.exec
      simp only [ho, if_true, he]
  · right
    unfold Host.exec
    simp only [ho, if_false]
    rfl

theorem exec_os (h : Host) (c : Cmd) : (h.exec c).2.os = h.os := by
  rcases exec_cases h c with ⟨out, h1, he, -, hx⟩ | hx
  · rw [hx]; exact (effect_frame he).1
  · rw [hx]

theorem exec_calls (h : Host) (c : Cmd) : (h.exec c).2.calls = h.calls := by
  rcases exec_cases h c with ⟨out, h1, he, -, hx⟩ | hx
  · rw [hx]; exact (effect_frame he).2.2.2.1
  · rw [hx]

theorem exec_oracle (h : Host) (c : Cmd) : (h.exec c).2.oracle = h.oracle.tail := by
  rcases exec_cases h c with ⟨out, h1, he, -, hx⟩ | hx
  · rw [hx]; exact (effect_frame he).2.1
  · rw [hx]

theorem exec_log (h : Host) (c : Cmd) :
    (h.exec c).2.log = h.log ++ [(c, (h.exec c).1.isSome)] := by
  rcases exec_cases h c with ⟨out, h1, he, -, hx⟩ | hx
  · rw [hx]; simp [(effect_frame he).2.2.1]
  · rw [hx]; simp

theorem exec_ifaces (h : Host) {c : Cmd} (hc : touchesIfaces c = false) :
    (h.exec c).2.ifaces = h.ifaces := by
  rcases exec_cases h c with ⟨out, h1, he, -, hx⟩ | hx
  · rw [hx]; exact (effect_frame he).2.2.2.2 hc
  · rw [hx]

theorem Host.Ext.same (h : Host) : h.Ext h := ⟨rfl, [], by simp⟩

theorem Host.Ext.andThen {a b c : Host} (h1 : a.Ext b) (h2 : b.Ext c) : a.Ext c := by
  obtain ⟨o1, l1, e1⟩ := h1
  obtain ⟨o2, l2, e2⟩ := h2
  exact ⟨o2.trans o1, l1 ++ l2, by rw [e2, e1, List.append_assoc]⟩

theorem Host.Frame.unchanged (h : Host) : h.Frame h := ⟨Host.Ext.same h, rfl, rfl⟩

theorem Host.Frame.followedBy {a b c : Host} (h1 : a.Frame b) (h2 : b.Frame c) : a.Frame c :=
  ⟨h1.1.andThen h2.1, h2.2.1.trans h1.2.1, h2.2.2.trans h1.2.2⟩

theorem ext_exec (h : Host) (c : Cmd) : h.Ext (h.exec c).2 :=
  ⟨exec_os h c, _, exec_log h c⟩

theorem frame_exec (h : Host) {c : Cmd} (hc : touchesIfaces c = false) : h.Frame (h.exec c).2 :=
  ⟨ext_exec h c, exec_ifaces h hc, exec_calls h c⟩

theorem ext_call (h : Host) (c : Call) : h.Ext (h.call c) := ⟨rfl, [], by simp [Host.call]⟩

theorem Host.allOk.of_ext {h h' : Host} (he : h.Ext h') (ok : h'.allOk) : h.allOk := by
  obtain ⟨-, l, hl⟩ := he
  intro e hm
  exact ok e (by rw [hl]; exact List.mem_append_left _ hm)

theorem exec_isSome_of_allOk (h : Host) (c : Cmd) (ok : (h.exec c).2.allOk) :
    ∃ out, (h.exec c).1 = some out := by
  have hl := exec_log h c
  cases hx : (h.exec c).1 with
  | some out => exact ⟨out, rfl⟩
  | none =>
    rw [hx] at hl
    have := ok (c, false) (by rw [hl]; simp)
    simp at this

theorem touchesIfaces_of_head {argv : List String} (stdin : Option String)
    (hh : argv.head? ≠ some "sudo") : touchesIfaces (.run argv stdin) = false := by
  have h1 : asIpLinkAdd argv = none := by
    unfold asIpLinkAdd
    split
    · rename_i a b c d e name f g
      have : a ≠ "sudo" := by simpa using hh
      simp [this]
    · rfl
  have h2 : asWgQuickDown argv = none := by
    unfold asWgQuickDown
    split
    · rename_i a b c name
      have : a ≠ "sudo" := by simpa using hh
      simp [this]
    · rfl
  simp [touchesIfaces, h1, h2]

theorem touchesIfaces_cmdRule (r : String) : touchesIfaces (cmdRule r) = false :=
  touchesIfaces_of_head none (by simp)

theorem touchesIfaces_activateLinuxRules :
    ∀ r ∈ activateLinuxRules, touchesIfaces (sudoRule r) = false := by decide

theorem touchesIfaces_deactivateLinuxRules :
    ∀ r ∈ deactivateLinuxRules, touchesIfaces (sudoRule r) = false := by decide

theorem activateLinuxLoop_frame (rules : List String) (h : Host)
    (hr : ∀ r ∈ rules, touchesIfaces (sudoRule r) = false) :
    h.Frame (activateLinuxLoop rules h).2 := by
  induction rules generalizing h with
  | nil => exact Host.Frame.unchanged h
  | cons r rest ih =>
    have hf := frame_exec h (hr r (List.mem_cons_self _ _))
    rcases hx : h.exec (sudoRule r) with ⟨_ | out, h1⟩
    · simpa [activateLinuxLoop, hx] using hf
    · rw [hx] at hf
      simpa [activateLinuxLoop, hx] using
        hf.followedBy (ih h1 (fun r hm => hr r (List.mem_cons_of_mem _ hm)))

theorem deactivateLinuxLoop_frame (rules : List String) (h : Host)
    (hr : ∀ r ∈ rules, touchesIfaces (sudoRule r) = false) :
    h.Frame (deactivateLinuxLoop rules h) := by
  induction rules generalizing h with
  | nil => exact Host.Frame.unchanged h
  | cons r rest ih =>
    have hf := frame_exec h (hr r (List.mem_cons_self _ _))
    simpa [deactivateLinuxLoop] using
      hf.followedBy (ih _ (fun r hm => hr r (List.mem_cons_of_mem _ hm)))

theorem activateWindowsLoop_frame (rules : List String) (h : Host) :
    h.Frame (activateWindowsLoop rules h).2 := by
  induction rules generalizing h with
  | nil => exact Host.Frame.unchanged h
  | cons r rest ih =>
    have hf := frame_exec h (touchesIfaces_cmdRule r)
    rcases hx : h.exec (cmdRule r) with ⟨_ | out, h1⟩
    · simpa [activateWindowsLoop, hx] using hf
    · rw [hx] at hf
      simpa [activateWindowsLoop, hx] using hf.followedBy (ih h1)

theorem deactivateWindowsLoop_frame (rules : List String) (h : Host) :
    h.Frame (deactivateWindowsLoop rules h) := by
  induction rules generalizing h with
  | nil => exact Host.Frame.unchanged h
  | cons r rest ih =>
    have hf := frame_exec h (touchesIfaces_cmdRule r)
    simpa [deactivateWindowsLoop] using hf.followedBy (ih _)

theorem activateMacOS_frame (k : KillSwitch) (h : Host) : h.Frame (k.activateMacOS h).2.2 := by
  unfold KillSwitch.activateMacOS
  have hf1 := frame_exec h (c := .run ["sudo", "pfctl", "-f", "-"] (some pfConfig)) (by decide)
  rcases hx : h.exec (.run ["sudo", "pfctl", "-f", "-"] (some pfConfig)) with ⟨_ | out, h1⟩
  · simpa [hx] using hf1
  · rw [hx] at hf1
    have hf2 := frame_exec h1 (c := .run ["sudo", "pfctl", "-e"] none) (by decide)
    rcases hy : h1.exec (.run ["sudo", "pfctl", "-e"] none) with ⟨_ | out2, h2⟩
    · rw [hy] at hf2; simpa [hy] using hf1.followedBy hf2
    · rw [hy] at hf2; simpa [hy] using hf1.followedBy hf2

theorem Activate_frame (k : KillSwitch) (h : Host) :
    (h.call .ksActivate).Frame (k.Activate h).2.2 := by
  unfold KillSwitch.Activate
  simp only []
  split
  · exact Host.Frame.unchanged _
  · split
    · unfold KillSwitch.activateLinux
      have := activateLinuxLoop_frame activateLinuxRules (h.call .ksActivate)
        touchesIfaces_activateLinuxRules
      split <;> simp_all
    · exact activateMacOS_frame _ _
    · unfold KillSwitch.activateWindows
      have := activateWindowsLoop_frame activateWindowsRules (h.call .ksActivate)
      split <;> simp_all
    · exact Host.Frame.unchanged _

theorem Deactivate_frame (k : KillSwitch) (h : Host) :
    (h.call .ksDeactivate).Frame (k.Deactivate h).2.2 := by
  unfold KillSwitch.Deactivate
  simp only []
  split
  · exact Host.Frame.unchanged _
  · split
    · exact deactivateLinuxLoop_frame _ _ touchesIfaces_deactivateLinuxRules
    · exact frame_exec _ (by decide)
    · exact deactivateWindowsLoop_frame _ _
    · exact Host.Frame.unchanged _

theorem backupLinuxDNS_frame (d : DNSManager) (h : Host) : h.Frame (d.backupLinuxDNS h).2.2 := by
  unfold DNSManager.backupLinuxDNS
  dsimp only
  have hf1 := frame_exec h (c := .readFile "/etc/resolv.conf") rfl
  rcases hx : h.exec (.readFile "/etc/resolv.conf") with ⟨_ | out, h1⟩
  · simpa [hx] using hf1
  · rw [hx] at hf1
    have hf2 := frame_exec h1
      (c := .run ["sudo", "cp", "/etc/resolv.conf", "/etc/resolv.conf.kryptx.backup"] none)
      (by decide)
    rcases hy : h1.exec
      (.run ["sudo", "cp", "/etc/resolv.conf", "/etc/resolv.conf.kryptx.backup"] none)
      with ⟨_ | out2, h2⟩
    · rw [hy] at hf2; simpa [hy] using hf1.followedBy hf2
    · rw [hy] at hf2; simpa [hy] using hf1.followedBy hf2

theorem setLinuxDNS_frame (d : DNSManager) (h : Host) : h.Frame (d.setLinuxDNS h).2.2 := by
  unfold DNSManager.setLinuxDNS
  dsimp only
  have hf1 := frame_exec h
    (c := .writeFile "/tmp/resolv.conf.kryptx" (linuxDNSContent d.vpnDNS)) rfl
  rcases hx : h.exec (.writeFile "/tmp/resolv.conf.kryptx" (linuxDNSContent d.vpnDNS))
    with ⟨_ | out, h1⟩
  · simpa [hx] using hf1
  · rw [hx] at hf1
    have hf2 := frame_exec h1
      (c := .run ["sudo", "mv", "/tmp/resolv.conf.kryptx", "/etc/resolv.conf"] none) (by decide)
    rcases hy : h1.exec (.run ["sudo", "mv", "/tmp/resolv.conf.kryptx", "/etc/resolv.conf"] none)
      with ⟨_ | out2, h2⟩
    · rw [hy] at hf2; simpa [hy] using hf1.followedBy hf2
    · rw [hy] at hf2; simpa [hy] using hf1.followedBy hf2

theorem restoreLinuxDNS_frame (d : DNSManager) (h : Host) :
    h.Frame (d.restoreLinuxDNS h).2.2 := by
  unfold DNSManager.restoreLinuxDNS
  dsimp only
  have hf1 := frame_exec h
    (c := .run ["sudo", "mv", "/etc/resolv.conf.kryptx.backup", "/etc/resolv.conf"] none)
    (by decide)
  rcases hx : h.exec
    (.run ["sudo", "mv", "/etc/resolv.conf.kryptx.backup", "/etc/resolv.conf"] none)
    with ⟨_ | out, h1⟩
  · simpa [hx] using hf1
  · simpa [hx] using hf1

theorem backupMacOSDNS_frame (d : DNSManager) (h : Host) :
    h.Frame (d.backupMacOSDNS h).2.2 := by
  unfold DNSManager.backupMacOSDNS
  dsimp only
  have hf1 := frame_exec h (c := .run ["networksetup", "-getdnsservers", "Wi-Fi"] none)
    (by decide)
  rcases hx : h.exec (.run ["networksetup", "-getdnsservers", "Wi-Fi"] none) with ⟨_ | out, h1⟩
  · simpa [hx] using hf1
  · simpa [hx] using hf1

theorem frame_setdnsservers (l : List String) (h : Host) :
    h.Frame (h.exec (.run ("networksetup" :: "-setdnsservers" :: "Wi-Fi" :: l) none)).2 :=
  frame_exec h (touchesIfaces_of_head none (by simp))

theorem setMacOSDNS_frame (d : DNSManager) (h : Host) : h.Frame (d.setMacOSDNS h).2.2 := by
  unfold DNSManager.setMacOSDNS
  dsimp only
  have hf1 := frame_setdnsservers d.vpnDNS h
  rcases hx : h.exec (.run ("networksetup" :: "-setdnsservers" :: "Wi-Fi" :: d.vpnDNS) none)
    with ⟨_ | out, h1⟩
  · simpa [hx] using hf1
  · simpa [hx] using hf1

theorem restoreMacOSDNS_frame (d : DNSManager) (h : Host) :
    h.Frame (d.restoreMacOSDNS h).2.2 := by
  unfold DNSManager.restoreMacOSDNS
  dsimp only
  split
  · have hf1 := frame_setdnsservers ["empty"] h
    rcases hx : h.exec (.run ["networksetup", "-setdnsservers", "Wi-Fi", "empty"] none)
      with ⟨_ | out, h1⟩
    · simpa [hx] using hf1
    · simpa [hx] using hf1
  · have hf1 := frame_setdnsservers d.originalDNS h
    rcases hx : h.exec
      (.run ("networksetup" :: "-setdnsservers" :: "Wi-Fi" :: d.originalDNS) none)
      with ⟨_ | out, h1⟩
    · simpa [hx] using hf1
    · simpa [hx] using hf1

theorem backupWindowsDNS_frame (d : DNSManager) (h : Host) :
    h.Frame (d.backupWindowsDNS h).2.2 := by
  unfold DNSManager.backupWindowsDNS
  dsimp only
  have hf1 := frame_exec h (c := .run ["netsh", "interface", "ipv4", "show", "dnsservers"] none)
    (by decide)
  rcases hx : h.exec (.run ["netsh", "interface", "ipv4", "show", "dnsservers"] none)
    with ⟨_ | out, h1⟩
  · simpa [hx] using hf1
  · simpa [hx] using hf1

theorem setWindowsSecondary_frame (d : DNSManager) (h : Host) :
    h.Frame (d.setWindowsSecondary h).2.2 := by
  unfold DNSManager.setWindowsSecondary
  split
  · rename_i x0 dns1 tl hv
    dsimp only
    have hf1 := frame_exec h (c := .run ["netsh", "interface", "ipv4", "add", "dns",
      "name=\"Local Area Connection\"", "addr=" ++ dns1] none)
      (touchesIfaces_of_head none (by simp))
    rcases hx : h.exec (.run ["netsh", "interface", "ipv4", "add", "dns",
      "name=\"Local Area Connection\"", "addr=" ++ dns1] none) with ⟨_ | out, h1⟩
    · simpa [hx] using hf1
    · simpa [hx] using hf1
  · exact Host.Frame.unchanged h

theorem setWindowsDNS_frame (d : DNSManager) (h : Host) : h.Frame (d.setWindowsDNS h).2.2 := by
  unfold DNSManager.setWindowsDNS
  split
  · rename_i dns0 tl hv
    dsimp only
    have hf1 := frame_exec h (c := .run ["netsh", "interface", "ipv4", "set", "dns",
      "name=\"Local Area Connection\"", "source=static", "addr=" ++ dns0] none)
      (touchesIfaces_of_head none (by simp))
    rcases hx : h.exec (.run ["netsh", "interface", "ipv4", "set", "dns",
      "name=\"Local Area Connection\"", "source=static", "addr=" ++ dns0] none)
      with ⟨_ | out, h1⟩
    · simpa [hx] using hf1
    · rw [hx] at hf1
      simpa [hx] using hf1.followedBy (setWindowsSecondary_frame d h1)
  · exact setWindowsSecondary_frame d h

theorem restoreWindowsDNS_frame (d : DNSManager) (h : Host) :
    h.Frame (d.restoreWindowsDNS h).2.2 := by
  unfold DNSManager.restoreWindowsDNS
  dsimp only
  have hf1 := frame_exec h (c := .run ["netsh", "interface", "ipv4", "set", "dns",
    "name=\"Local Area Connection\"", "source=dhcp"] none) (by decide)
  rcases hx : h.exec (.run ["netsh", "interface", "ipv4", "set", "dns",
    "name=\"Local Area Connection\"", "source=dhcp"] none) with ⟨_ | out, h1⟩
  · simpa [hx] using hf1
  · simpa [hx] using hf1

theorem backupDNS_frame (d : DNSManager) (h : Host) : h.Frame (d.backupDNS h).2.2 := by
  unfold DNSManager.backupDNS
  split
  · exact backupLinuxDNS_frame d h
  · exact backupMacOSDNS_frame d h
  · exact backupWindowsDNS_frame d h
  · exact Host.Frame.unchanged h

theorem setVPNDNS_frame (d : DNSManager) (h : Host) : h.Frame (d.setVPNDNS h).2.2 := by
  unfold DNSManager.setVPNDNS
  split
  · exact setLinuxDNS_frame d h
  · exact setMacOSDNS_frame d h
  · exact setWindowsDNS_frame d h
  · exact Host.Frame.unchanged h

theorem restoreDNS_frame (d : DNSManager) (h : Host) : h.Frame (d.restoreDNS h).2.2 := by
  unfold DNSManager.restoreDNS
  split
  · exact restoreLinuxDNS_frame d h
  · exact restoreMacOSDNS_frame d h
  · exact restoreWindowsDNS_frame d h
  · exact Host.Frame.unchanged h

theorem Configure_frame (d : DNSManager) (h : Host) :
    (h.call .dnsConfigure).Frame (d.Configure h).2.2 := by
  unfold DNSManager.Configure
  dsimp only
  split
  · exact Host.Frame.unchanged _
  · have hb := backupDNS_frame d (h.call .dnsConfigure)
    rcases hx : d.backupDNS (h.call .dnsConfigure) with ⟨_ | e, d1, h1⟩
    · rw [hx] at hb
      have hs := setVPNDNS_frame d1 h1
      rcases hy : d1.setVPNDNS h1 with ⟨_ | e, d2, h2⟩
      · rw [hy] at hs; simpa [hy] using hb.followedBy hs
      · rw [hy] at hs; simpa [hy] using hb.followedBy hs
    · rw [hx] at hb; simpa using hb

theorem Restore_frame (d : DNSManager) (h : Host) :
    (h.call .dnsRestore).Frame (d.Restore h).2.2 := by
  unfold DNSManager.Restore
  dsimp only
  split
  · exact Host.Frame.unchanged _
  · have hb := restoreDNS_frame d (h.call .dnsRestore)
    rcases hx : d.restoreDNS (h.call .dnsRestore) with ⟨_ | e, d1, h1⟩
    · rw [hx] at hb; simpa using hb
    · rw [hx] at hb; simpa using hb

/-! ## The guards: what a call returns -/

theorem activateLinux_result (k : KillSwitch) (h : Host) :
    ((k.activateLinux h).1 = none ∧ (k.activateLinux h).2.1 = { k with active := true }) ∨
      ((k.activateLinux h).1 ≠ none ∧ (k.activateLinux h).2.1 = k) := by
  unfold KillSwitch.activateLinux
  split <;> simp

theorem activateWindows_result (k : KillSwitch) (h : Host) :
    ((k.activateWindows h).1 = none ∧ (k.activateWindows h).2.1 = { k with active := true }) ∨
      ((k.activateWindows h).1 ≠ none ∧ (k.activateWindows h).2.1 = k) := by
  unfold KillSwitch.activateWindows
  split <;> simp

theorem activateMacOS_result (k : KillSwitch) (h : Host) :
    ((k.activateMacOS h).1 = none ∧ (k.activateMacOS h).2.1 = { k with active := true }) ∨
      ((k.activateMacOS h).1 ≠ none ∧ (k.activateMacOS h).2.1 = k) := by
  unfold KillSwitch.activateMacOS
  split
  · simp
  · split <;> simp

/-- `Activate` either succeeds and leaves the switch engaged, or fails and leaves the
(disengaged) switch as it was. -/
theorem Activate_result (k : KillSwitch) (h : Host) :
    ((k.Activate h).1 = none ∧ (k.Activate h).2.1.active = true) ∨
      ((k.Activate h).1 ≠ none ∧ (k.Activate h).2.1 = k ∧ k.active = false) := by
  unfold KillSwitch.Activate
  dsimp only
  split
  · left; simpa
  · rename_i hk
    have hk' : k.active = false := by simpa using hk
    split
    · rcases activateLinux_result k (h.call .ksActivate) with ⟨a, b⟩ | ⟨a, b⟩
      · left; exact ⟨a, by rw [b]⟩
      · right; exact ⟨a, b, hk'⟩
    · rcases activateMacOS_result k (h.call .ksActivate) with ⟨a, b⟩ | ⟨a, b⟩
      · left; exact ⟨a, by rw [b]⟩
      · right; exact ⟨a, b, hk'⟩
    · rcases activateWindows_result k (h.call .ksActivate) with ⟨a, b⟩ | ⟨a, b⟩
      · left; exact ⟨a, by rw [b]⟩
      · right; exact ⟨a, b, hk'⟩
    · right; simp [hk']

theorem Activate_of_active {k : KillSwitch} (h : Host) (hk : k.active = true) :
    k.Activate h = (none, k, h.call .ksActivate) := by
  simp [KillSwitch.Activate, hk]

/-- On a supported platform `Deactivate` leaves the switch disengaged. -/
theorem Deactivate_active (k : KillSwitch) (h : Host) (hos : h.os ≠ .other) :
    (k.Deactivate h).2.1.active = false := by
  unfold KillSwitch.Deactivate
  dsimp only
  split
  · rename_i hk; simpa using hk
  · split
    · rfl
    · rfl
    · rfl
    · rename_i ho; exact absurd ho hos

theorem Deactivate_of_inactive {k : KillSwitch} (h : Host) (hk : k.active = false) :
    k.Deactivate h = (none, k, h.call .ksDeactivate) := by
  simp [KillSwitch.Deactivate, hk]

theorem backupDNS_fields (d : DNSManager) (h : Host) :
    (d.backupDNS h).2.1.configured = d.configured ∧ (d.backupDNS h).2.1.vpnDNS = d.vpnDNS := by
  unfold DNSManager.backupDNS DNSManager.backupLinuxDNS DNSManager.backupMacOSDNS
    DNSManager.backupWindowsDNS
  dsimp only
  split
  · split
    · simp
    · split <;> simp
  · split <;> simp
  · split <;> simp
  · simp

theorem setWindowsSecondary_self (d : DNSManager) (h : Host) :
    (d.setWindowsSecondary h).2.1 = d := by
  unfold DNSManager.setWindowsSecondary
  split
  · dsimp only
    split <;> rfl
  · rfl

theorem setVPNDNS_self (d : DNSManager) (h : Host) : (d.setVPNDNS h).2.1 = d := by
  unfold DNSManager.setVPNDNS DNSManager.setLinuxDNS DNSManager.setMacOSDNS
    DNSManager.setWindowsDNS
  dsimp only
  split
  · split
    · rfl
    · split <;> rfl
  · split <;> rfl
  · split
    · split
      · rfl
      · exact setWindowsSecondary_self _ _
    · exact setWindowsSecondary_self _ _
  · rfl

theorem restoreDNS_self (d : DNSManager) (h : Host) : (d.restoreDNS h).2.1 = d := by
  unfold DNSManager.restoreDNS DNSManager.restoreLinuxDNS DNSManager.restoreMacOSDNS
    DNSManager.restoreWindowsDNS
  dsimp only
  split
  · split <;> rfl
  · split
    · split <;> rfl
    · split <;> rfl
  · split <;> rfl
  · rfl

/-- `Configure` either succeeds and leaves the guard engaged, or fails and leaves it
disengaged. -/
theorem Configure_result (d : DNSManager) (h : Host) :
    ((d.Configure h).1 = none ∧ (d.Configure h).2.1.configured = true) ∨
      ((d.Configure h).1 ≠ none ∧ (d.Configure h).2.1.configured = false ∧
        d.configured = false) := by
  unfold DNSManager.Configure
  dsimp only
  split
  · left; simpa
  · rename_i hc
    have hc' : d.configured = false := by simpa using hc
    have hb := (backupDNS_fields d (h.call .dnsConfigure)).1
    rcases hx : d.backupDNS (h.call .dnsConfigure) with ⟨_ | e, d1, h1⟩
    · rw [hx] at hb
      have hs := setVPNDNS_self d1 h1
      rcases hy : d1.setVPNDNS h1 with ⟨_ | e, d2, h2⟩
      · left; simp [hy]
      · right
        rw [hy] at hs
        simp only [] at hs hb
        simp [hy, hs, hb, hc']
    · right
      rw [hx] at hb
      simp only [] at hb
      simp [hb, hc']

theorem Configure_of_configured {d : DNSManager} (h : Host) (hd : d.configured = true) :
    d.Configure h = (none, d, h.call .dnsConfigure) := by
  simp [DNSManager.Configure, hd]

/-- `Restore` never touches the backup; when it succeeds the guard is disengaged, when it
fails the guard is unchanged. -/
theorem Restore_result (d : DNSManager) (h : Host) :
    ((d.Restore h).1 = none ∧ (d.Restore h).2.1 = { d with configured := false }) ∨
      ((d.Restore h).1 ≠ none ∧ (d.Restore h).2.1 = d) := by
  unfold DNSManager.Restore
  dsimp only
  split
  · rename_i hc
    left
    have hc' : d.configured = false := by simpa using hc
    refine ⟨rfl, ?_⟩
    cases d
    simp_all
  · have hs := restoreDNS_self d (h.call .dnsRestore)
    rcases hx : d.restoreDNS (h.call .dnsRestore) with ⟨_ | e, d1, h1⟩
    · left
      rw [hx] at hs
      simp only [] at hs
      simp [hs]
    · right
      rw [hx] at hs
      simp only [] at hs
      simp [hs]

/-! ## `Connect` and `Disconnect`: the steps -/

theorem connectKillSwitch_result (v : VPNClient) (h : Host) :
    (v.connectKillSwitch h).2.1.connected = v.connected ∧
      (v.connectKillSwitch h).2.1.config = v.config ∧
      (v.connectKillSwitch h).2.1.dnsManager = v.dnsManager ∧
      ((v.connectKillSwitch h).2.1.killSwitch = none ↔ v.killSwitch = none) ∧
      (((v.connectKillSwitch h).1 = none ∧
          (v.killSwitch ≠ none → (v.connectKillSwitch h).2.1.ksEngaged = true)) ∨
        ((v.connectKillSwitch h).1 ≠ none ∧ (v.connectKillSwitch h).2.1 = v ∧
          v.ksEngaged = false)) := by
  unfold VPNClient.connectKillSwitch
  cases hk : v.killSwitch with
  | none => simp [hk]
  | some k =>
    dsimp only
    refine ⟨rfl, rfl, rfl, by simp, ?_⟩
    rcases Activate_result k h with ⟨a, b⟩ | ⟨a, b, c⟩
    · left; exact ⟨a, fun _ => by simpa [VPNClient.ksEngaged] using b⟩
    · right
      refine ⟨a, ?_, by simp [VPNClient.ksEngaged, hk, c]⟩
      rw [b, ← hk]

theorem connectDNS_result (v : VPNClient) (h : Host) :
    (v.connectDNS h).2.1.connected = v.connected ∧
      (v.connectDNS h).2.1.config = v.config ∧
      (v.connectDNS h).2.1.killSwitch = v.killSwitch ∧
      ((v.connectDNS h).2.1.dnsManager = none ↔ v.dnsManager = none) ∧
      (((v.connectDNS h).1 = none ∧
          (v.dnsManager ≠ none → (v.connectDNS h).2.1.dnsEngaged = true)) ∨
        ((v.connectDNS h).1 ≠ none ∧ (v.connectDNS h).2.1.dnsEngaged = false)) := by
  unfold VPNClient.connectDNS
  cases hd : v.dnsManager with
  | none => simp [hd]
  | some d =>
    dsimp only
    refine ⟨rfl, rfl, rfl, by simp, ?_⟩
    rcases Configure_result d h with ⟨a, b⟩ | ⟨a, b, -⟩
    · left; exact ⟨a, fun _ => by simpa [VPNClient.dnsEngaged] using b⟩
    · right; exact ⟨a, by simpa [VPNClient.dnsEngaged] using b⟩

/-- `Connect` on a client that is not connected, spelled out on the results of its steps. -/
theorem Connect_eq (v : VPNClient) (h : Host) (hv : v.connected = false) :
    v.Connect h =
      match (v.connectKillSwitch h).1 with
      | some e => (some (.wrap "activating kill switch" e), (v.connectKillSwitch h).2)
      | none =>
        match ((v.connectKillSwitch h).2.1.connectDNS (v.connectKillSwitch h).2.2).1 with
        | some e => (some (.wrap "configuring DNS" e),
            ((v.connectKillSwitch h).2.1.connectDNS (v.connectKillSwitch h).2.2).2)
        | none =>
          let v2 := ((v.connectKillSwitch h).2.1.connectDNS (v.connectKillSwitch h).2.2).2.1
          let h2 := ((v.connectKillSwitch h).2.1.connectDNS (v.connectKillSwitch h).2.2).2.2
          match (v2.applyWireGuardConfig v2.generateWireGuardConfig h2).1 with
          | some e => (some (.wrap "applying WireGuard config" e), v2,
              (v2.applyWireGuardConfig v2.generateWireGuardConfig h2).2)
          | none => (none, { v2 with connected := true },
              (v2.applyWireGuardConfig v2.generateWireGuardConfig h2).2) := by
  unfold VPNClient.Connect
  simp only [hv, Bool.false_eq_true, if_false]
  rcases hx : v.connectKillSwitch h with ⟨_ | e, v1, h1⟩
  · dsimp only
    rcases hy : v1.connectDNS h1 with ⟨_ | e, v2, h2⟩
    · dsimp only
      rcases hz : v2.applyWireGuardConfig v2.generateWireGuardConfig h2 with ⟨_ | e, h3⟩ <;> rfl
    · rfl
  · rfl

theorem Connect_of_connected {v : VPNClient} (h : Host) (hv : v.connected = true) :
    v.Connect h = (some (.msg "already connected"), v, h) := by
  simp [VPNClient.Connect, hv]

/-- What `Connect` leaves behind, step by step, on a client that is not connected. -/
theorem Connect_outcome (v : VPNClient) (h : Host) (hv : v.connected = false) :
    ((v.Connect h).2.1.killSwitch = none ↔ v.killSwitch = none) ∧
    ((v.Connect h).2.1.dnsManager = none ↔ v.dnsManager = none) ∧
    (v.Connect h).2.1.config = v.config ∧
    (((v.Connect h).1 = none ∧ (v.Connect h).2.1.connected = true ∧
        (v.killSwitch ≠ none → (v.Connect h).2.1.ksEngaged = true) ∧
        (v.dnsManager ≠ none → (v.Connect h).2.1.dnsEngaged = true)) ∨
      ((v.Connect h).2.1.connected = false ∧
        ((∃ e, (v.Connect h).1 = some (.wrap "activating kill switch" e) ∧
            (v.Connect h).2.1 = v ∧ v.ksEngaged = false) ∨
          (∃ e, (v.Connect h).1 = some (.wrap "configuring DNS" e) ∧
            (v.killSwitch ≠ none → (v.Connect h).2.1.ksEngaged = true) ∧
            (v.Connect h).2.1.dnsEngaged = false) ∨
          (∃ e, (v.Connect h).1 = some (.wrap "applying WireGuard config" e) ∧
            (v.killSwitch ≠ none → (v.Connect h).2.1.ksEngaged = true) ∧
            (v.dnsManager ≠ none → (v.Connect h).2.1.dnsEngaged = true))))) := by
  rw [Connect_eq v h hv]
  obtain ⟨a1, a2, a3, a4, a5⟩ := connectKillSwitch_result v h
  generalize v.connectKillSwitch h = r1 at *
  obtain ⟨e1, v1, h1⟩ := r1
  dsimp only at a1 a2 a3 a4 a5 ⊢
  obtain ⟨b1, b2, b3, b4, b5⟩ := connectDNS_result v1 h1
  generalize v1.connectDNS h1 = r2 at *
  obtain ⟨e2, v2, h2⟩ := r2
  dsimp only at b1 b2 b3 b4 b5 ⊢
  have hks : v2.ksEngaged = v1.ksEngaged := by simp [VPNClient.ksEngaged, b3]
  cases e1 with
  | some e =>
    dsimp only
    refine ⟨a4, by rw [a3], a2, Or.inr ⟨by rw [a1, hv], Or.inl ⟨e, rfl, ?_⟩⟩⟩
    simpa using a5
  | none =>
    have a5' : v.killSwitch ≠ none → v1.ksEngaged = true := by simpa using a5
    cases e2 with
    | some e =>
      dsimp only
      refine ⟨by rw [b3]; exact a4, by rw [b4, a3], by rw [b2, a2],
        Or.inr ⟨by rw [b1, a1, hv], Or.inr (Or.inl ⟨e, rfl, ?_, ?_⟩)⟩⟩
      · intro hk; rw [hks]; exact a5' hk
      · simpa using b5
    | none =>
      have b5' : v1.dnsManager ≠ none → v2.dnsEngaged = true := by simpa using b5
      dsimp only
      generalize v2.applyWireGuardConfig v2.generateWireGuardConfig h2 = r3
      obtain ⟨e3, h3⟩ := r3
      cases e3 with
      | some e =>
        dsimp only
        refine ⟨by rw [b3]; exact a4, by rw [b4, a3], by rw [b2, a2],
          Or.inr ⟨by rw [b1, a1, hv], Or.inr (Or.inr ⟨e, rfl, ?_, ?_⟩)⟩⟩
        · intro hk; rw [hks]; exact a5' hk
        · intro hd; exact b5' (by rw [a3]; exact hd)
      | none =>
        dsimp only
        refine ⟨by rw [b3]; exact a4, by rw [b4, a3], by rw [b2, a2],
          Or.inl ⟨rfl, rfl, ?_, ?_⟩⟩
        · intro hk
          have := a5' hk
          rw [← hks] at this
          simpa [VPNClient.ksEngaged] using this
        · intro hd
          have := b5' (by rw [a3]; exact hd)
          simpa [VPNClient.dnsEngaged] using this

theorem Connect_connected_of_ok (v : VPNClient) (h : Host) (hok : (v.Connect h).1 = none) :
    (v.Connect h).2.1.connected = true := by
  cases hv : v.connected with
  | true => rw [Connect_of_connected h hv] at hok; simp at hok
  | false =>
    rcases (Connect_outcome v h hv).2.2.2 with ⟨-, c, -⟩ | ⟨-, ⟨e, he, -⟩ | ⟨e, he, -⟩ | ⟨e, he, -⟩⟩
    · exact c
    all_goals rw [he] at hok; simp at hok

/-! ## C1: a failing `Connect` does not roll back -/

/-- C1, counterexample to rollback completeness: on Linux, with the kill switch and the DNS
configuration succeeding and the creation of the tunnel interface failing, `Connect` returns
the error of the tunnel stage and leaves the kill switch engaged (flag set, the six rules
still installed) and the DNS guard engaged (flag set, the VPN resolvers still in
`/etc/resolv.conf`). -/
theorem C1_rollback_counterexample :
    connectTunnelFails.1 = some (.wrap "applying WireGuard config" (.wrap "creating interface"
        (.os (.run ["sudo", "ip", "link", "add", "dev", "kryptx0", "type", "wireguard"] none)))) ∧
      connectTunnelFails.2.1.connected = false ∧
      connectTunnelFails.2.1.ksEngaged = true ∧
      connectTunnelFails.2.1.dnsEngaged = true ∧
      connectTunnelFails.2.2.chain4 =
        [["-j", "DROP"], ["-o", "kryptx+", "-j", "ACCEPT"], ["-o", "lo", "-j", "ACCEPT"]] ∧
      connectTunnelFails.2.2.resolvConf = some "# KryptX VPN DNS\nnameserver 10.0.0.1\n" := by
  decide

/-- C1, amended: when a step of `Connect` fails on a client that is not connected, `Connect`
returns the error wrapped with the name of the step and the client stays not connected, and
nothing is rolled back: after a failed kill-switch activation the client is unchanged with
the kill switch disengaged; after a failed DNS configuration the kill switch (when
configured) is engaged and the DNS guard is disengaged; after a failed tunnel step both
guards (when configured) are engaged. -/
theorem C1_connect_failure_no_rollback (v : VPNClient) (h : Host) (hv : v.connected = false)
    (hf : (v.Connect h).1 ≠ none) :
    (v.Connect h).2.1.connected = false ∧
      ((∃ e, (v.Connect h).1 = some (.wrap "activating kill switch" e) ∧
          (v.Connect h).2.1 = v ∧ v.ksEngaged = false) ∨
        (∃ e, (v.Connect h).1 = some (.wrap "configuring DNS" e) ∧
          (v.killSwitch ≠ none → (v.Connect h).2.1.ksEngaged = true) ∧
          (v.Connect h).2.1.dnsEngaged = false) ∨
        (∃ e, (v.Connect h).1 = some (.wrap "applying WireGuard config" e) ∧
          (v.killSwitch ≠ none → (v.Connect h).2.1.ksEngaged = true) ∧
          (v.dnsManager ≠ none → (v.Connect h).2.1.dnsEngaged = true))) := by
  rcases (Connect_outcome v h hv).2.2.2 with ⟨a, -⟩ | hr
  · exact absurd a hf
  · exact hr

/-- C1, the amended statement at the sample profile with the tunnel step failing. -/
theorem C1_connect_failure_no_rollback_witness :
    (NewVPNClient sampleConfig).connected = false ∧
      ((NewVPNClient sampleConfig).Connect
        (sampleLinux (List.replicate 10 true ++ [false]))).1 ≠ none ∧
      ((NewVPNClient sampleConfig).Connect
        (sampleLinux (List.replicate 10 true ++ [false]))).2.1.connected = false :=
  ⟨by decide, by decide,
    (C1_connect_failure_no_rollback (NewVPNClient sampleConfig)
      (sampleLinux (List.replicate 10 true ++ [false])) (by decide) (by decide)).1⟩

/-! ## C2: `Disconnect` converges -/

theorem disconnectDNS_fields (v : VPNClient) (h : Host) :
    (v.disconnectDNS h).1.connected = v.connected ∧ (v.disconnectDNS h).1.config = v.config ∧
      (v.disconnectDNS h).1.killSwitch = v.killSwitch ∧
      ((v.disconnectDNS h).1.dnsManager = none ↔ v.dnsManager = none) := by
  unfold VPNClient.disconnectDNS
  cases hd : v.dnsManager with
  | none => simp [hd]
  | some d => simp

theorem disconnectKillSwitch_fields (v : VPNClient) (h : Host) :
    (v.disconnectKillSwitch h).1.connected = v.connected ∧
      (v.disconnectKillSwitch h).1.config = v.config ∧
      (v.disconnectKillSwitch h).1.dnsManager = v.dnsManager ∧
      ((v.disconnectKillSwitch h).1.killSwitch = none ↔ v.killSwitch = none) := by
  unfold VPNClient.disconnectKillSwitch
  cases hd : v.killSwitch with
  | none => simp [hd]
  | some d => simp

theorem Disconnect_of_not_connected {v : VPNClient} (h : Host) (hv : v.connected = false) :
    v.Disconnect h = (none, v, h) := by
  simp [VPNClient.Disconnect, hv]

/-- `Disconnect` on a connected client, spelled out on its steps. -/
theorem Disconnect_eq (v : VPNClient) (h : Host) (hv : v.connected = true) :
    v.Disconnect h =
      (none,
        { ((v.disconnectDNS (v.removeWireGuardInterface h).2).1.disconnectKillSwitch
            (v.disconnectDNS (v.removeWireGuardInterface h).2).2).1 with connected := false },
        ((v.disconnectDNS (v.removeWireGuardInterface h).2).1.disconnectKillSwitch
            (v.disconnectDNS (v.removeWireGuardInterface h).2).2).2) := by
  simp [VPNClient.Disconnect, hv]

theorem Disconnect_result (v : VPNClient) (h : Host) :
    (v.Disconnect h).1 = none ∧ (v.Disconnect h).2.1.connected = false := by
  cases hv : v.connected with
  | false => rw [Disconnect_of_not_connected h hv]; exact ⟨rfl, hv⟩
  | true => rw [Disconnect_eq v h hv]; exact ⟨rfl, rfl⟩

/-- C2, disconnect convergence: for every client state and every outcome of the commands,
`Disconnect` returns `nil` and leaves the client not connected. -/
theorem C2_disconnect_converges (v : VPNClient) (h : Host) :
    (v.Disconnect h).1 = none ∧ (v.Disconnect h).2.1.connected = false :=
  Disconnect_result v h

/-! ## C6: a second `Connect` -/

/-- Two calls in a row: when `Connect` has succeeded, a `Connect` issued right after it
returns the already-connected error and changes neither the client nor the host. -/
theorem Connect_twice (v : VPNClient) (h : Host) (hok : (v.Connect h).1 = none) :
    (v.Connect h).2.1.Connect (v.Connect h).2.2 =
      (some (.msg "already connected"), (v.Connect h).2.1, (v.Connect h).2.2) :=
  Connect_of_connected _ (Connect_connected_of_ok v h hok)

/-! ## `Connect` and `Disconnect`: what happens to the host -/

theorem connectKillSwitch_host (v : VPNClient) (h : Host) :
    h.Ext (v.connectKillSwitch h).2.2 ∧ (v.connectKillSwitch h).2.2.ifaces = h.ifaces := by
  unfold VPNClient.connectKillSwitch
  cases v.killSwitch with
  | none => exact ⟨Host.Ext.same h, rfl⟩
  | some k =>
    have hf := Activate_frame k h
    exact ⟨(ext_call h _).andThen hf.1, hf.2.1⟩

theorem connectDNS_host (v : VPNClient) (h : Host) :
    h.Ext (v.connectDNS h).2.2 ∧ (v.connectDNS h).2.2.ifaces = h.ifaces := by
  unfold VPNClient.connectDNS
  cases v.dnsManager with
  | none => exact ⟨Host.Ext.same h, rfl⟩
  | some d =>
    have hf := Configure_frame d h
    exact ⟨(ext_call h _).andThen hf.1, hf.2.1⟩

theorem disconnectDNS_host (v : VPNClient) (h : Host) :
    h.Ext (v.disconnectDNS h).2 ∧ (v.disconnectDNS h).2.ifaces = h.ifaces := by
  unfold VPNClient.disconnectDNS
  cases v.dnsManager with
  | none => exact ⟨Host.Ext.same h, rfl⟩
  | some d =>
    have hf := Restore_frame d h
    exact ⟨(ext_call h _).andThen hf.1, hf.2.1⟩

theorem disconnectKillSwitch_host (v : VPNClient) (h : Host) :
    h.Ext (v.disconnectKillSwitch h).2 ∧ (v.disconnectKillSwitch h).2.ifaces = h.ifaces := by
  unfold VPNClient.disconnectKillSwitch
  cases v.killSwitch with
  | none => exact ⟨Host.Ext.same h, rfl⟩
  | some k =>
    have hf := Deactivate_frame k h
    exact ⟨(ext_call h _).andThen hf.1, hf.2.1⟩

theorem applyLinuxConfig_ext (v : VPNClient) (c : String) (h : Host) :
    h.Ext (v.applyLinuxConfig c h).2 := by
  unfold VPNClient.applyLinuxConfig
  dsimp only
  have e1 := ext_exec h
    (.run ["sudo", "ip", "link", "add", "dev", v.config.Network.Interface, "type", "wireguard"]
      none)
  rcases hx : h.exec
    (.run ["sudo", "ip", "link", "add", "dev", v.config.Network.Interface, "type", "wireguard"]
      none) with ⟨_ | out, h1⟩
  · simpa [hx] using e1
  · rw [hx] at e1
    have e2 := ext_exec h1 (.run ["sudo", "wg-quick", "up", "/dev/stdin"] (some c))
    rcases hy : h1.exec (.run ["sudo", "wg-quick", "up", "/dev/stdin"] (some c))
      with ⟨_ | out2, h2⟩
    · rw [hy] at e2; simpa [hy] using e1.andThen e2
    · rw [hy] at e2; simpa [hy] using e1.andThen e2

theorem applyWireGuardConfig_ext (v : VPNClient) (c : String) (h : Host) :
    h.Ext (v.applyWireGuardConfig c h).2 := by
  unfold VPNClient.applyWireGuardConfig
  dsimp only
  split
  · exact ext_call h _
  · exact (ext_call h _).andThen (applyLinuxConfig_ext v c _)
  · exact (ext_call h _).andThen (applyLinuxConfig_ext v c _)
  · exact ext_call h _

theorem applyWireGuardConfig_ifaces (v : VPNClient) (c : String) (h : Host)
    (hos : h.os = .windows ∨ h.os = .other) :
    (v.applyWireGuardConfig c h).2.ifaces = h.ifaces := by
  unfold VPNClient.applyWireGuardConfig
  dsimp only
  split
  · rfl
  · rename_i ho; simp [Host.call] at ho; rcases hos with hos | hos <;> simp [hos] at ho
  · rename_i ho; simp [Host.call] at ho; rcases hos with hos | hos <;> simp [hos] at ho
  · rfl

/-- After `removeWireGuardInterface` the host is some operations later, and either the
interface is gone, or the removal command has failed and the interfaces are untouched, or
the platform has no tunnel support and the interfaces are untouched. -/
theorem removeWireGuardInterface_host (v : VPNClient) (h : Host) :
    h.Ext (v.removeWireGuardInterface h).2 ∧
      (v.config.Network.Interface ∉ (v.removeWireGuardInterface h).2.ifaces ∨
        ((removalCmd v.config, false) ∈ (v.removeWireGuardInterface h).2.log ∧
          (v.removeWireGuardInterface h).2.ifaces = h.ifaces) ∨
        ((h.os = .windows ∨ h.os = .other) ∧
          (v.removeWireGuardInterface h).2.ifaces = h.ifaces)) := by
  have key : ∀ g : Host, g.Ext (g.exec (removalCmd v.config)).2 ∧
      (v.config.Network.Interface ∉ (g.exec (removalCmd v.config)).2.ifaces ∨
        ((removalCmd v.config, false) ∈ (g.exec (removalCmd v.config)).2.log ∧
          (g.exec (removalCmd v.config)).2.ifaces = g.ifaces)) := by
    intro g
    refine ⟨ext_exec g _, ?_⟩
    rcases exec_cases g (removalCmd v.config) with ⟨out, g1, he, -, hx⟩ | hx
    · left
      rw [hx]
      have he' : wgQuickDownEffect v.config.Network.Interface
          { g with oracle := g.oracle.tail } = some (out, g1) := by
        simpa [effect, removalCmd, shellEffect, asFixedCmd, asIptables, asCmdC, asSetDNSServers,
          asNetshDNS, asIpLinkAdd, asWgQuickDown] using he
      unfold wgQuickDownEffect at he'
      split at he'
      · simp at he'
        obtain ⟨-, rfl⟩ := he'
        simp
      · simp at he'
    · right
      rw [hx]
      simp
  have main : ∀ r : Option String × Host,
      (h.call .tunnelRemove).exec (removalCmd v.config) = r →
      h.Ext r.2 ∧ (v.config.Network.Interface ∉ r.2.ifaces ∨
        ((removalCmd v.config, false) ∈ r.2.log ∧ r.2.ifaces = h.ifaces) ∨
        ((h.os = .windows ∨ h.os = .other) ∧ r.2.ifaces = h.ifaces)) := by
    intro r hr
    have := key (h.call .tunnelRemove)
    rw [hr] at this
    exact ⟨(ext_call h _).andThen this.1, this.2.elim Or.inl (fun x => Or.inr (Or.inl x))⟩
  unfold VPNClient.removeWireGuardInterface
  dsimp only
  split
  · rcases hx : (h.call .tunnelRemove).exec (removalCmd v.config) with ⟨_ | out, h1⟩
    · have := main _ hx
      simp only [removalCmd] at hx
      simp only [hx]
      exact this
    · have := main _ hx
      simp only [removalCmd] at hx
      simp only [hx]
      exact this
  · rcases hx : (h.call .tunnelRemove).exec (removalCmd v.config) with ⟨_ | out, h1⟩
    · have := main _ hx
      simp only [removalCmd] at hx
      simp only [hx]
      exact this
    · have := main _ hx
      simp only [removalCmd] at hx
      simp only [hx]
      exact this
  · rename_i ho
    exact ⟨ext_call h _, Or.inr (Or.inr ⟨Or.inl (by simpa [Host.call] using ho), rfl⟩)⟩
  · rename_i ho
    exact ⟨ext_call h _, Or.inr (Or.inr ⟨Or.inr (by simpa [Host.call] using ho), rfl⟩)⟩

/-! ## C4: connected implies kill switch engaged -/

theorem Disconnect_fields (v : VPNClient) (h : Host) :
    (v.Disconnect h).2.1.config = v.config ∧
      ((v.Disconnect h).2.1.killSwitch = none ↔ v.killSwitch = none) := by
  cases hv : v.connected with
  | false => rw [Disconnect_of_not_connected h hv]; simp
  | true =>
    rw [Disconnect_eq v h hv]
    obtain ⟨-, a2, a3, -⟩ := disconnectDNS_fields v (v.removeWireGuardInterface h).2
    obtain ⟨-, b2, -, b4⟩ := disconnectKillSwitch_fields
      (v.disconnectDNS (v.removeWireGuardInterface h).2).1
      (v.disconnectDNS (v.removeWireGuardInterface h).2).2
    exact ⟨b2.trans a2, by rw [← a3]; exact b4⟩

theorem monitorTick_fields (v : VPNClient) (h : Host) :
    (v.monitorTick h).config = v.config ∧ (v.monitorTick h).killSwitch = v.killSwitch ∧
      (v.monitorTick h).dnsManager = v.dnsManager ∧
      ((v.monitorTick h).connected = true → v.connected = true) := by
  unfold VPNClient.monitorTick
  split <;> simp

theorem guarded_step (s : Sys) (op : Op) (hs : s.client.guarded) : (s.step op).client.guarded := by
  obtain ⟨hk, hc⟩ := hs
  cases op with
  | connect =>
    show (s.client.Connect s.host).2.1.guarded
    cases hv : s.client.connected with
    | true => rw [Connect_of_connected _ hv]; exact ⟨hk, hc⟩
    | false =>
      obtain ⟨a1, -, -, a4⟩ := Connect_outcome s.client s.host hv
      refine ⟨fun hn => hk (a1.1 hn), fun hcon => ?_⟩
      rcases a4 with ⟨-, -, b, -⟩ | ⟨b, -⟩
      · exact b hk
      · rw [b] at hcon; cases hcon
  | disconnect =>
    show (s.client.Disconnect s.host).2.1.guarded
    refine ⟨fun hn => hk ((Disconnect_fields s.client s.host).2.1 hn), fun hcon => ?_⟩
    rw [(Disconnect_result s.client s.host).2] at hcon
    cases hcon
  | tick =>
    show (s.client.monitorTick s.host).guarded
    obtain ⟨-, a2, -, a4⟩ := monitorTick_fields s.client s.host
    refine ⟨by rw [a2]; exact hk, fun hcon => ?_⟩
    have := hc (a4 hcon)
    simpa [VPNClient.ksEngaged, a2] using this
  | ifaceLost => exact ⟨hk, hc⟩

theorem guarded_run (ops : List Op) (s : Sys) (hs : s.client.guarded) :
    (s.run ops).client.guarded := by
  induction ops generalizing s with
  | nil => exact hs
  | cons op rest ih => exact ih (s.step op) (guarded_step s op hs)

/-- C4, guard ordering invariant P5: after any sequence of `Connect`, `Disconnect`, monitor
ticks and losses of the interface, with any outcomes of the commands, on a client with the
kill switch configured, a client that reports connected has its kill switch engaged. -/
theorem C4_connected_implies_engaged (cfg : Config) (h : Host) (ops : List Op)
    (hk : cfg.Security.KillSwitch = true)
    (hc : ((Sys.init cfg h).run ops).client.connected = true) :
    ((Sys.init cfg h).run ops).client.ksEngaged = true := by
  have h0 : (Sys.init cfg h).client.guarded := by
    simp [Sys.init, NewVPNClient, VPNClient.guarded, hk]
  exact (guarded_run ops _ h0).2 hc

/-- C4 at the sample profile after a successful `Connect` and a monitor tick. -/
theorem C4_connected_implies_engaged_witness :
    sampleConfig.Security.KillSwitch = true ∧
      ((Sys.init sampleConfig (sampleLinux [])).run [.connect, .tick]).client.connected = true ∧
      ((Sys.init sampleConfig (sampleLinux [])).run [.connect, .tick]).client.ksEngaged = true :=
  ⟨by decide, by decide,
    C4_connected_implies_engaged sampleConfig (sampleLinux []) [.connect, .tick] (by decide)
      (by decide)⟩

/-! ## C3: the tunnel interface and the kill switch -/

theorem not_mem_log_of_ext {h h' : Host} (he : h.Ext h') {e : Cmd × Bool} (hn : e ∉ h'.log) :
    e ∉ h.log := by
  obtain ⟨-, l, hl⟩ := he
  intro hm
  exact hn (by rw [hl]; exact List.mem_append_left _ hm)

/-- What `Connect` does to the host on a client that is not connected and has a kill switch:
unless the kill switch ends engaged, no interface was touched and the client is unchanged. -/
theorem Connect_host (v : VPNClient) (h : Host) (hv : v.connected = false)
    (hk : v.killSwitch ≠ none) :
    h.Ext (v.Connect h).2.2 ∧
      ((h.os = .windows ∨ h.os = .other) → (v.Connect h).2.2.ifaces = h.ifaces) ∧
      ((v.Connect h).2.1.ksEngaged = true ∨
        ((v.Connect h).2.2.ifaces = h.ifaces ∧ (v.Connect h).2.1 = v)) := by
  rw [Connect_eq v h hv]
  obtain ⟨-, -, -, -, a5⟩ := connectKillSwitch_result v h
  obtain ⟨x1, x2⟩ := connectKillSwitch_host v h
  generalize v.connectKillSwitch h = r1 at *
  obtain ⟨e1, v1, h1⟩ := r1
  dsimp only at a5 x1 x2 ⊢
  obtain ⟨-, -, b3, -, -⟩ := connectDNS_result v1 h1
  obtain ⟨y1, y2⟩ := connectDNS_host v1 h1
  generalize v1.connectDNS h1 = r2 at *
  obtain ⟨e2, v2, h2⟩ := r2
  dsimp only at b3 y1 y2 ⊢
  have hks : v2.ksEngaged = v1.ksEngaged := by simp [VPNClient.ksEngaged, b3]
  cases e1 with
  | some e =>
    dsimp only
    refine ⟨x1, fun _ => x2, Or.inr ⟨x2, ?_⟩⟩
    have a5' : v1 = v ∧ v.ksEngaged = false := by simpa using a5
    exact a5'.1
  | none =>
    have a5' : v1.ksEngaged = true := by simpa [hk] using a5
    cases e2 with
    | some e =>
      dsimp only
      exact ⟨x1.andThen y1, fun _ => y2.trans x2, Or.inl (hks.trans a5')⟩
    | none =>
      dsimp only
      have z1 := applyWireGuardConfig_ext v2 v2.generateWireGuardConfig h2
      have z2 := applyWireGuardConfig_ifaces v2 v2.generateWireGuardConfig h2
      generalize v2.applyWireGuardConfig v2.generateWireGuardConfig h2 = r3 at *
      obtain ⟨e3, h3⟩ := r3
      have hos : h2.os = h.os := y1.1.trans x1.1
      cases e3 with
      | some e =>
        dsimp only at z1 z2 ⊢
        exact ⟨x1.andThen (y1.andThen z1), fun ho => (z2 (by rw [hos]; exact ho)).trans (y2.trans x2),
          Or.inl (hks.trans a5')⟩
      | none =>
        dsimp only at z1 z2 ⊢
        refine ⟨x1.andThen (y1.andThen z1),
          fun ho => (z2 (by rw [hos]; exact ho)).trans (y2.trans x2), Or.inl ?_⟩
        have := hks.trans a5'
        simpa [VPNClient.ksEngaged] using this

/-- What `Disconnect` does to the host on a connected client: afterwards the interface is
gone unless the removal command has failed. -/
theorem Disconnect_host (v : VPNClient) (h : Host) (hv : v.connected = true) :
    h.Ext (v.Disconnect h).2.2 ∧
      (v.config.Network.Interface ∉ (v.Disconnect h).2.2.ifaces ∨
        ((removalCmd v.config, false) ∈ (v.Disconnect h).2.2.log ∧
          (v.Disconnect h).2.2.ifaces = h.ifaces) ∨
        ((h.os = .windows ∨ h.os = .other) ∧ (v.Disconnect h).2.2.ifaces = h.ifaces)) := by
  rw [Disconnect_eq v h hv]
  obtain ⟨x1, x2⟩ := removeWireGuardInterface_host v h
  obtain ⟨y1, y2⟩ := disconnectDNS_host v (v.removeWireGuardInterface h).2
  obtain ⟨z1, z2⟩ := disconnectKillSwitch_host
    (v.disconnectDNS (v.removeWireGuardInterface h).2).1
    (v.disconnectDNS (v.removeWireGuardInterface h).2).2
  dsimp only
  refine ⟨x1.andThen (y1.andThen z1), ?_⟩
  rw [z2, y2]
  rcases x2 with a | ⟨a, b⟩ | ⟨a, b⟩
  · exact Or.inl a
  · right; left
    refine ⟨?_, b⟩
    by_contra hn
    exact not_mem_log_of_ext (y1.andThen z1) hn a
  · exact Or.inr (Or.inr ⟨a, b⟩)

theorem covered_step (cfg : Config) (s : Sys) (op : Op) (hs : s.covered cfg) :
    (s.step op).covered cfg := by
  obtain ⟨hcfg, hk, hw, hi⟩ := hs
  cases op with
  | connect =>
    show Sys.covered cfg ⟨(s.client.Connect s.host).2.1, (s.client.Connect s.host).2.2⟩
    cases hv : s.client.connected with
    | true => rw [Connect_of_connected _ hv]; exact ⟨hcfg, hk, hw, hi⟩
    | false =>
      obtain ⟨a1, -, a3, -⟩ := Connect_outcome s.client s.host hv
      obtain ⟨b1, b2, b3⟩ := Connect_host s.client s.host hv hk
      refine ⟨a3.trans hcfg, fun hn => hk (a1.1 hn), fun ho => ?_, fun hl hm => ?_⟩
      · dsimp only at ho ⊢
        rw [b1.1] at ho
        rw [b2 ho]
        exact hw ho
      · dsimp only at hl hm ⊢
        rcases b3 with b3 | ⟨b3, b4⟩
        · exact b3
        · rw [b4]
          rw [b3] at hm
          exact hi (not_mem_log_of_ext b1 hl) hm
  | disconnect =>
    show Sys.covered cfg ⟨(s.client.Disconnect s.host).2.1, (s.client.Disconnect s.host).2.2⟩
    cases hv : s.client.connected with
    | false => rw [Disconnect_of_not_connected _ hv]; exact ⟨hcfg, hk, hw, hi⟩
    | true =>
      obtain ⟨a1, a2⟩ := Disconnect_fields s.client s.host
      obtain ⟨b1, b2⟩ := Disconnect_host s.client s.host hv
      rw [hcfg] at b2
      refine ⟨a1.trans hcfg, fun hn => hk (a2.1 hn), fun ho => ?_, fun hl hm => ?_⟩
      · dsimp only at ho ⊢
        rw [b1.1] at ho
        rcases b2 with b | ⟨-, b⟩ | ⟨-, b⟩
        · exact b
        · rw [b]; exact hw ho
        · rw [b]; exact hw ho
      · dsimp only at hl hm ⊢
        rcases b2 with b | ⟨b, -⟩ | ⟨c, b⟩
        · exact absurd hm b
        · exact absurd b hl
        · rw [b] at hm
          exact absurd hm (hw c)
  | tick =>
    show Sys.covered cfg ⟨s.client.monitorTick s.host, s.host⟩
    obtain ⟨a1, a2, -, -⟩ := monitorTick_fields s.client s.host
    refine ⟨a1.trans hcfg, by rw [a2]; exact hk, hw, fun hl hm => ?_⟩
    have := hi hl hm
    simpa [VPNClient.ksEngaged, a2] using this
  | ifaceLost =>
    have hgone : cfg.Network.Interface ∉
        s.host.ifaces.filter (fun m => m ≠ s.client.config.Network.Interface) := by
      simp [hcfg]
    exact ⟨hcfg, hk, fun _ => hgone, fun _ hm => absurd hm hgone⟩

theorem covered_run (cfg : Config) (ops : List Op) (s : Sys) (hs : s.covered cfg) :
    (s.run ops).covered cfg := by
  induction ops generalizing s with
  | nil => exact hs
  | cons op rest ih => exact ih (s.step op) (covered_step cfg s op hs)

/-- C3, counterexample to invariant I1: on Linux, after a successful `Connect` and a
`Disconnect` whose interface-removal command fails (every other command succeeding), the
tunnel interface is up while the kill switch is disengaged. -/
theorem C3_interface_up_unprotected_counterexample :
    removalFails.client.isInterfaceUp removalFails.host = true ∧
      removalFails.client.ksEngaged = false ∧
      removalFails.host.chain4 = [] ∧
      (removalCmd sampleConfig, false) ∈ removalFails.host.log := by
  decide

/-- C3, amended: from a fresh client with the kill switch configured, on a host where the
tunnel interface does not exist, after any sequence of `Connect`, `Disconnect`, monitor
ticks and losses of the interface with any outcomes of the commands, as long as no
interface-removal command has failed, the tunnel interface is never up while the kill
switch is disengaged. -/
theorem C3_interface_up_implies_engaged (cfg : Config) (h : Host) (ops : List Op)
    (hk : cfg.Security.KillSwitch = true) (h0 : cfg.Network.Interface ∉ h.ifaces)
    (hrem : (removalCmd cfg, false) ∉ ((Sys.init cfg h).run ops).host.log)
    (hup : ((Sys.init cfg h).run ops).client.isInterfaceUp ((Sys.init cfg h).run ops).host
      = true) :
    ((Sys.init cfg h).run ops).client.ksEngaged = true := by
  have hinit : (Sys.init cfg h).covered cfg := by
    refine ⟨rfl, ?_, fun _ => h0, fun _ hm => absurd hm h0⟩
    simp [Sys.init, NewVPNClient, hk]
  obtain ⟨c1, -, -, c4⟩ := covered_run cfg ops _ hinit
  refine c4 hrem ?_
  have := hup
  simp only [VPNClient.isInterfaceUp, decide_eq_true_eq, c1] at this
  exact this

/-- C3, the amended statement at the sample profile after a `Connect` whose second tunnel
command fails: the interface exists and the kill switch is engaged. -/
theorem C3_interface_up_implies_engaged_witness :
    sampleConfig.Security.KillSwitch = true ∧
      sampleConfig.Network.Interface ∉ (sampleLinux (List.replicate 11 true ++ [false])).ifaces ∧
      (removalCmd sampleConfig, false) ∉
        ((Sys.init sampleConfig (sampleLinux (List.replicate 11 true ++ [false]))).run
          [.connect, .tick]).host.log ∧
      ((Sys.init sampleConfig (sampleLinux (List.replicate 11 true ++ [false]))).run
          [.connect, .tick]).client.isInterfaceUp
        ((Sys.init sampleConfig (sampleLinux (List.replicate 11 true ++ [false]))).run
          [.connect, .tick]).host = true ∧
      ((Sys.init sampleConfig (sampleLinux (List.replicate 11 true ++ [false]))).run
          [.connect, .tick]).client.ksEngaged = true :=
  ⟨by decide, by decide, by decide, by decide,
    C3_interface_up_implies_engaged sampleConfig
      (sampleLinux (List.replicate 11 true ++ [false])) [.connect, .tick]
      (by decide) (by decide) (by decide) (by decide)⟩

/-! ## C5: the order of the component calls -/

theorem activateLinuxLoop_ok (rules : List String) (h : Host)
    (ok : (activateLinuxLoop rules h).2.allOk) : (activateLinuxLoop rules h).1 = none := by
  induction rules generalizing h with
  | nil => rfl
  | cons r rest ih =>
    rcases hx : h.exec (sudoRule r) with ⟨_ | out, h1⟩
    · have := exec_isSome_of_allOk h (sudoRule r) (by simpa [activateLinuxLoop, hx] using ok)
      simp [hx] at this
    · simp only [activateLinuxLoop, hx] at ok ⊢
      exact ih h1 ok

theorem activateMacOS_ok (k : KillSwitch) (h : Host) (ok : (k.activateMacOS h).2.2.allOk) :
    (k.activateMacOS h).1 = none := by
  unfold KillSwitch.activateMacOS at ok ⊢
  rcases hx : h.exec (.run ["sudo", "pfctl", "-f", "-"] (some pfConfig)) with ⟨_ | out, h1⟩
  · have := exec_isSome_of_allOk h (.run ["sudo", "pfctl", "-f", "-"] (some pfConfig))
      (by simpa [hx] using ok)
    simp [hx] at this
  · simp only [hx] at ok ⊢
    rcases hy : h1.exec (.run ["sudo", "pfctl", "-e"] none) with ⟨_ | out2, h2⟩
    · have := exec_isSome_of_allOk h1 (.run ["sudo", "pfctl", "-e"] none)
        (by simpa [hy] using ok)
      simp [hy] at this
    · rfl

theorem Activate_ok (k : KillSwitch) (h : Host) (hos : h.os = .linux ∨ h.os = .darwin)
    (ok : (k.Activate h).2.2.allOk) : (k.Activate h).1 = none := by
  unfold KillSwitch.Activate at ok ⊢
  dsimp only at ok ⊢
  split
  · rfl
  · rename_i hk
    simp only [hk, if_false] at ok
    have hos' : (h.call .ksActivate).os = .linux ∨ (h.call .ksActivate).os = .darwin := hos
    rcases hos' with ho | ho
    · simp only [ho] at ok ⊢
      have := activateLinuxLoop_ok activateLinuxRules (h.call .ksActivate)
      unfold KillSwitch.activateLinux at ok ⊢
      rcases hx : activateLinuxLoop activateLinuxRules (h.call .ksActivate) with ⟨_ | e, h1⟩
      · rfl
      · rw [hx] at this ok
        simpa using this ok
    · simp only [ho] at ok ⊢
      exact activateMacOS_ok k _ ok

/-- A function that issues two operations in a row and fails when one of them fails. -/
theorem two_ops_ok {α : Type} (h : Host) (c1 : Cmd) (c2 : String → Cmd)
    (r : Option Err × α × Host)
    (hr : ∃ (a1 : α) (a2 a3 : String → α) (e1 : Err) (e2 : String → Err),
      r = match h.exec c1 with
        | (none, h1) => (some e1, a1, h1)
        | (some out, h1) =>
          match h1.exec (c2 out) with
          | (none, h2) => (some (e2 out), a2 out, h2)
          | (some _, h2) => (none, a3 out, h2))
    (ok : r.2.2.allOk) : r.1 = none := by
  obtain ⟨a1, a2, a3, e1, e2, rfl⟩ := hr
  rcases hx : h.exec c1 with ⟨_ | out, h1⟩
  · have := exec_isSome_of_allOk h c1 (by simpa [hx] using ok)
    simp [hx] at this
  · simp only [hx] at ok ⊢
    rcases hy : h1.exec (c2 out) with ⟨_ | out2, h2⟩
    · have := exec_isSome_of_allOk h1 (c2 out) (by simpa [hy] using ok)
      simp [hy] at this
    · rfl

/-- A function that issues one operation and fails when it fails. -/
theorem one_op_ok {α : Type} (h : Host) (c1 : Cmd) (r : Option Err × α × Host)
    (hr : ∃ (a1 : α) (a2 : String → α) (e1 : Err),
      r = match h.exec c1 with
        | (none, h1) => (some e1, a1, h1)
        | (some out, h1) => (none, a2 out, h1))
    (ok : r.2.2.allOk) : r.1 = none := by
  obtain ⟨a1, a2, e1, rfl⟩ := hr
  rcases hx : h.exec c1 with ⟨_ | out, h1⟩
  · have := exec_isSome_of_allOk h c1 (by simpa [hx] using ok)
    simp [hx] at this
  · rfl

theorem backupDNS_ok (d : DNSManager) (h : Host) (hos : h.os = .linux ∨ h.os = .darwin)
    (ok : (d.backupDNS h).2.2.allOk) : (d.backupDNS h).1 = none := by
  unfold DNSManager.backupDNS at ok ⊢
  rcases hos with ho | ho
  · simp only [ho] at ok ⊢
    exact two_ops_ok h _ (fun _ => _) _ ⟨_, _, _, _, fun _ => _, rfl⟩ ok
  · simp only [ho] at ok ⊢
    exact one_op_ok h _ _ ⟨_, _, _, rfl⟩ ok

theorem setVPNDNS_ok (d : DNSManager) (h : Host) (hos : h.os = .linux ∨ h.os = .darwin)
    (ok : (d.setVPNDNS h).2.2.allOk) : (d.setVPNDNS h).1 = none := by
  unfold DNSManager.setVPNDNS at ok ⊢
  rcases hos with ho | ho
  · simp only [ho] at ok ⊢
    exact two_ops_ok h _ (fun _ => _) _ ⟨_, fun _ => _, fun _ => _, _, fun _ => _, rfl⟩ ok
  · simp only [ho] at ok ⊢
    exact one_op_ok h _ _ ⟨_, fun _ => _, _, rfl⟩ ok

theorem Configure_ok (d : DNSManager) (h : Host) (hos : h.os = .linux ∨ h.os = .darwin)
    (ok : (d.Configure h).2.2.allOk) : (d.Configure h).1 = none := by
  unfold DNSManager.Configure at ok ⊢
  dsimp only at ok ⊢
  split
  · rfl
  · rename_i hc
    simp only [hc, if_false] at ok
    have hb := backupDNS_ok d (h.call .dnsConfigure) hos
    rcases hx : d.backupDNS (h.call .dnsConfigure) with ⟨_ | e, d1, h1⟩
    · have hos1 : h1.os = .linux ∨ h1.os = .darwin := by
        have := (backupDNS_frame d (h.call .dnsConfigure)).1.1
        rw [hx] at this
        rw [this]
        exact hos
      have hs := setVPNDNS_ok d1 h1 hos1
      simp only [hx] at ok ⊢
      rcases hy : d1.setVPNDNS h1 with ⟨_ | e, d2, h2⟩
      · rfl
      · rw [hy] at hs ok
        simpa using hs ok
    · rw [hx] at hb ok
      simpa using hb ok

theorem applyLinuxConfig_ok (v : VPNClient) (c : String) (h : Host)
    (ok : (v.applyLinuxConfig c h).2.allOk) : (v.applyLinuxConfig c h).1 = none := by
  unfold VPNClient.applyLinuxConfig at ok ⊢
  dsimp only at ok ⊢
  rcases hx : h.exec
    (.run ["sudo", "ip", "link", "add", "dev", v.config.Network.Interface, "type", "wireguard"]
      none) with ⟨_ | out, h1⟩
  · have := exec_isSome_of_allOk h
      (.run ["sudo", "ip", "link", "add", "dev", v.config.Network.Interface, "type", "wireguard"]
        none) (by simpa [hx] using ok)
    simp [hx] at this
  · simp only [hx] at ok ⊢
    rcases hy : h1.exec (.run ["sudo", "wg-quick", "up", "/dev/stdin"] (some c))
      with ⟨_ | out2, h2⟩
    · have := exec_isSome_of_allOk h1 (.run ["sudo", "wg-quick", "up", "/dev/stdin"] (some c))
        (by simpa [hy] using ok)
      simp [hy] at this
    · rfl

theorem applyLinuxConfig_calls (v : VPNClient) (c : String) (h : Host) :
    (v.applyLinuxConfig c h).2.calls = h.calls := by
  unfold VPNClient.applyLinuxConfig
  dsimp only
  have e1 := exec_calls h
    (.run ["sudo", "ip", "link", "add", "dev", v.config.Network.Interface, "type", "wireguard"]
      none)
  rcases hx : h.exec
    (.run ["sudo", "ip", "link", "add", "dev", v.config.Network.Interface, "type", "wireguard"]
      none) with ⟨_ | out, h1⟩
  · simpa [hx] using e1
  · rw [hx] at e1
    have e2 := exec_calls h1 (.run ["sudo", "wg-quick", "up", "/dev/stdin"] (some c))
    rcases hy : h1.exec (.run ["sudo", "wg-quick", "up", "/dev/stdin"] (some c))
      with ⟨_ | out2, h2⟩
    · rw [hy] at e2; simpa [hy] using e2.trans e1
    · rw [hy] at e2; simpa [hy] using e2.trans e1

theorem applyWireGuardConfig_calls (v : VPNClient) (c : String) (h : Host) :
    (v.applyWireGuardConfig c h).2.calls = h.calls ++ [.tunnelApply] := by
  unfold VPNClient.applyWireGuardConfig
  dsimp only
  split
  · rfl
  · exact applyLinuxConfig_calls v c _
  · exact applyLinuxConfig_calls v c _
  · rfl

theorem applyWireGuardConfig_ok (v : VPNClient) (c : String) (h : Host)
    (hos : h.os = .linux ∨ h.os = .darwin) (ok : (v.applyWireGuardConfig c h).2.allOk) :
    (v.applyWireGuardConfig c h).1 = none := by
  unfold VPNClient.applyWireGuardConfig at ok ⊢
  dsimp only at ok ⊢
  have hos' : (h.call .tunnelApply).os = .linux ∨ (h.call .tunnelApply).os = .darwin := hos
  rcases hos' with ho | ho
  · simp only [ho] at ok ⊢
    exact applyLinuxConfig_ok v c _ ok
  · simp only [ho] at ok ⊢
    exact applyLinuxConfig_ok v c _ ok

theorem removeWireGuardInterface_calls (v : VPNClient) (h : Host) :
    (v.removeWireGuardInterface h).2.calls = h.calls ++ [.tunnelRemove] := by
  have key : ∀ r : Option String × Host,
      (h.call .tunnelRemove).exec (removalCmd v.config) = r →
      r.2.calls = h.calls ++ [.tunnelRemove] := by
    intro r hr
    rw [← hr, exec_calls]
    rfl
  unfold VPNClient.removeWireGuardInterface
  dsimp only
  split
  · rcases hx : (h.call .tunnelRemove).exec (removalCmd v.config) with ⟨_ | out, h1⟩
    · have := key _ hx
      simp only [removalCmd] at hx
      simp only [hx]
      exact this
    · have := key _ hx
      simp only [removalCmd] at hx
      simp only [hx]
      exact this
  · rcases hx : (h.call .tunnelRemove).exec (removalCmd v.config) with ⟨_ | out, h1⟩
    · have := key _ hx
      simp only [removalCmd] at hx
      simp only [hx]
      exact this
    · have := key _ hx
      simp only [removalCmd] at hx
      simp only [hx]
      exact this
  · rfl
  · rfl

theorem connectKillSwitch_ok (v : VPNClient) (h : Host) :
    (h.os = .linux ∨ h.os = .darwin → (v.connectKillSwitch h).2.2.allOk →
        (v.connectKillSwitch h).1 = none) ∧
      (v.killSwitch ≠ none → (v.connectKillSwitch h).2.2.calls = h.calls ++ [.ksActivate]) := by
  unfold VPNClient.connectKillSwitch
  cases v.killSwitch with
  | none => simp
  | some k =>
    dsimp only
    exact ⟨fun hos ok => Activate_ok k h hos ok, fun _ => (Activate_frame k h).2.2⟩

theorem connectDNS_ok (v : VPNClient) (h : Host) :
    (h.os = .linux ∨ h.os = .darwin → (v.connectDNS h).2.2.allOk →
        (v.connectDNS h).1 = none) ∧
      (v.dnsManager ≠ none → (v.connectDNS h).2.2.calls = h.calls ++ [.dnsConfigure]) := by
  unfold VPNClient.connectDNS
  cases v.dnsManager with
  | none => simp
  | some d =>
    dsimp only
    exact ⟨fun hos ok => Configure_ok d h hos ok, fun _ => (Configure_frame d h).2.2⟩

/-- On Linux and macOS, a `Connect` all of whose operations succeeded returns `nil`, and with
both guards present it has called the kill switch, the DNS manager and the tunnel, in this
order. -/
theorem Connect_ok (v : VPNClient) (h : Host) (hv : v.connected = false)
    (hos : h.os = .linux ∨ h.os = .darwin) (ok : (v.Connect h).2.2.allOk) :
    (v.Connect h).1 = none ∧
      (v.killSwitch ≠ none → v.dnsManager ≠ none →
        (v.Connect h).2.2.calls = h.calls ++ [.ksActivate, .dnsConfigure, .tunnelApply]) := by
  rw [Connect_eq v h hv] at ok ⊢
  obtain ⟨-, -, a3, -, -⟩ := connectKillSwitch_result v h
  obtain ⟨x1, -⟩ := connectKillSwitch_host v h
  obtain ⟨x3, x4⟩ := connectKillSwitch_ok v h
  generalize v.connectKillSwitch h = r1 at *
  obtain ⟨e1, v1, h1⟩ := r1
  dsimp only at a3 x1 x3 x4 ok ⊢
  have hos1 : h1.os = .linux ∨ h1.os = .darwin := by rw [x1.1]; exact hos
  obtain ⟨y1, -⟩ := connectDNS_host v1 h1
  obtain ⟨y3, y4⟩ := connectDNS_ok v1 h1
  generalize v1.connectDNS h1 = r2 at *
  obtain ⟨e2, v2, h2⟩ := r2
  dsimp only at y1 y3 y4 ok ⊢
  have hos2 : h2.os = .linux ∨ h2.os = .darwin := by rw [y1.1]; exact hos1
  have z1 := applyWireGuardConfig_ext v2 v2.generateWireGuardConfig h2
  have z3 := applyWireGuardConfig_ok v2 v2.generateWireGuardConfig h2 hos2
  have z4 := applyWireGuardConfig_calls v2 v2.generateWireGuardConfig h2
  generalize v2.applyWireGuardConfig v2.generateWireGuardConfig h2 = r3 at *
  obtain ⟨e3, h3⟩ := r3
  dsimp only at z1 z3 z4
  cases e1 with
  | some e =>
    dsimp only at ok
    have := x3 hos ok
    simp at this
  | none =>
    cases e2 with
    | some e =>
      dsimp only at ok
      have := y3 hos1 ok
      simp at this
    | none =>
      cases e3 with
      | some e =>
        dsimp only at ok
        have := z3 ok
        simp at this
      | none =>
        dsimp only at ok ⊢
        refine ⟨rfl, fun hk hd => ?_⟩
        rw [z4, y4 (by rw [a3]; exact hd), x4 hk]
        simp

/-- `Disconnect` on a connected client with both guards present calls the tunnel removal, the
DNS manager and the kill switch, in this order, whatever the outcomes of the commands. -/
theorem Disconnect_calls (v : VPNClient) (h : Host) (hv : v.connected = true)
    (hk : v.killSwitch ≠ none) (hd : v.dnsManager ≠ none) :
    (v.Disconnect h).2.2.calls = h.calls ++ [.tunnelRemove, .dnsRestore, .ksDeactivate] := by
  rw [Disconnect_eq v h hv]
  dsimp only
  have x := removeWireGuardInterface_calls v h
  generalize (v.removeWireGuardInterface h).2 = h1 at *
  obtain ⟨-, -, a3, -⟩ := disconnectDNS_fields v h1
  have y : (v.disconnectDNS h1).2.calls = h1.calls ++ [.dnsRestore] := by
    unfold VPNClient.disconnectDNS
    cases hd' : v.dnsManager with
    | none => exact absurd hd' hd
    | some d => exact (Restore_frame d h1).2.2
  generalize v.disconnectDNS h1 = r2 at *
  obtain ⟨v2, h2⟩ := r2
  dsimp only at a3 y ⊢
  have z : (v2.disconnectKillSwitch h2).2.calls = h2.calls ++ [.ksDeactivate] := by
    unfold VPNClient.disconnectKillSwitch
    cases hk' : v2.killSwitch with
    | none => rw [a3] at hk'; exact absurd hk' hk
    | some k => exact (Deactivate_frame k h2).2.2
  rw [z, y, x]
  simp

/-- C5, counterexample: on Windows, with the kill switch and DNS protection enabled and
every command succeeding, `Connect` calls the three components in order but returns the
error of the tunnel stage and ends not connected. -/
theorem C5_windows_counterexample :
    ((NewVPNClient sampleConfig).Connect (freshHost .windows [] none [] none)).2.2.allOk ∧
      ((NewVPNClient sampleConfig).Connect (freshHost .windows [] none [] none)).2.2.calls =
        [.ksActivate, .dnsConfigure, .tunnelApply] ∧
      ((NewVPNClient sampleConfig).Connect (freshHost .windows [] none [] none)).1 =
        some (.wrap "applying WireGuard config"
          (.msg "Windows implementation requires WireGuard service integration")) ∧
      ((NewVPNClient sampleConfig).Connect (freshHost .windows [] none [] none)).2.1.connected
        = false := by
  decide

/-- C5, amended: on Linux and macOS, for every profile with both kill switch and DNS
protection enabled, a `Connect` of the fresh client all of whose operations succeed returns
`nil`, has called exactly the kill-switch `Activate`, the DNS `Configure` and the tunnel
apply, in this order, and ends connected; a following `Disconnect` returns `nil`, calls
exactly the tunnel removal, the DNS `Restore` and the kill-switch `Deactivate`, in this
order, and ends disconnected. -/
theorem C5_call_order (cfg : Config) (h : Host) (hk : cfg.Security.KillSwitch = true)
    (hd : cfg.Security.DNSLeak = true) (hos : h.os = .linux ∨ h.os = .darwin)
    (ok : ((NewVPNClient cfg).Connect h).2.2.allOk) :
    ((NewVPNClient cfg).Connect h).1 = none ∧
      ((NewVPNClient cfg).Connect h).2.1.connected = true ∧
      ((NewVPNClient cfg).Connect h).2.2.calls =
        h.calls ++ [.ksActivate, .dnsConfigure, .tunnelApply] ∧
      (((NewVPNClient cfg).Connect h).2.1.Disconnect ((NewVPNClient cfg).Connect h).2.2).1
        = none ∧
      (((NewVPNClient cfg).Connect h).2.1.Disconnect
        ((NewVPNClient cfg).Connect h).2.2).2.1.connected = false ∧
      (((NewVPNClient cfg).Connect h).2.1.Disconnect
        ((NewVPNClient cfg).Connect h).2.2).2.2.calls =
        h.calls ++ [.ksActivate, .dnsConfigure, .tunnelApply] ++
          [.tunnelRemove, .dnsRestore, .ksDeactivate] := by
  have hks : (NewVPNClient cfg).killSwitch ≠ none := by simp [NewVPNClient, hk]
  have hdn : (NewVPNClient cfg).dnsManager ≠ none := by simp [NewVPNClient, hd]
  obtain ⟨a, b⟩ := Connect_ok (NewVPNClient cfg) h rfl hos ok
  have hc := Connect_connected_of_ok (NewVPNClient cfg) h a
  obtain ⟨c1, c2, -, -⟩ := Connect_outcome (NewVPNClient cfg) h rfl
  obtain ⟨d1, d2⟩ := Disconnect_result ((NewVPNClient cfg).Connect h).2.1
    ((NewVPNClient cfg).Connect h).2.2
  refine ⟨a, hc, b hks hdn, d1, d2, ?_⟩
  rw [Disconnect_calls _ _ hc (fun hn => hks (c1.1 hn)) (fun hn => hdn (c2.1 hn)), b hks hdn]

/-- C5, the amended statement at the sample profile on the sample Linux host with every
command succeeding. -/
theorem C5_call_order_witness :
    sampleConfig.Security.KillSwitch = true ∧ sampleConfig.Security.DNSLeak = true ∧
      ((sampleLinux []).os = .linux ∨ (sampleLinux []).os = .darwin) ∧
      ((NewVPNClient sampleConfig).Connect (sampleLinux [])).2.2.allOk ∧
      ((NewVPNClient sampleConfig).Connect (sampleLinux [])).2.2.calls =
        (sampleLinux []).calls ++ [.ksActivate, .dnsConfigure, .tunnelApply] :=
  ⟨by decide, by decide, by decide, by decide,
    (C5_call_order sampleConfig (sampleLinux []) (by decide) (by decide) (by decide)
      (by decide)).2.2.1⟩

/-! ## C10: the order of the kill-switch rules -/

theorem exec_success {h : Host} {c : Cmd} {out : String} {h' : Host}
    (hx : h.exec c = (some out, h')) :
    ∃ h1, effect c { h with oracle := h.oracle.tail } = some (out, h1) ∧
      h' = { h1 with log := h1.log ++ [(c, true)] } := by
  rcases exec_cases h c with ⟨out1, h1, he, -, hy⟩ | hy
  · rw [hy] at hx
    simp only [Prod.mk.injEq, Option.some.injEq] at hx
    obtain ⟨rfl, rfl⟩ := hx
    exact ⟨h1, he, rfl⟩
  · rw [hy] at hx
    simp at hx

theorem Fields_activateLinuxRules :
    activateLinuxRules.map Fields =
      [ "iptables" :: "-I" :: "OUTPUT" :: allowLoopback,
        "iptables" :: "-I" :: "OUTPUT" :: allowTunnel,
        "iptables" :: "-I" :: "OUTPUT" :: dropAll,
        "ip6tables" :: "-I" :: "OUTPUT" :: allowLoopback,
        "ip6tables" :: "-I" :: "OUTPUT" :: allowTunnel,
        "ip6tables" :: "-I" :: "OUTPUT" :: dropAll ] := by
  decide

/-- A successful `iptables -I OUTPUT` puts the rule at the head of the IPv4 chain. -/
theorem exec_iptables_insert {h : Host} {spec : List String} {out : String} {h' : Host}
    (hx : h.exec (.run ("sudo" :: "iptables" :: "-I" :: "OUTPUT" :: spec) none) = (some out, h')) :
    h'.chain4 = spec :: h.chain4 ∧ h'.chain6 = h.chain6 := by
  obtain ⟨h1, he, rfl⟩ := exec_success hx
  simp [effect, shellEffect, asFixedCmd, asIptables, iptablesEffect] at he
  obtain ⟨-, rfl⟩ := he
  simp

/-- A successful `ip6tables -I OUTPUT` puts the rule at the head of the IPv6 chain. -/
theorem exec_ip6tables_insert {h : Host} {spec : List String} {out : String} {h' : Host}
    (hx : h.exec (.run ("sudo" :: "ip6tables" :: "-I" :: "OUTPUT" :: spec) none) =
      (some out, h')) :
    h'.chain4 = h.chain4 ∧ h'.chain6 = spec :: h.chain6 := by
  obtain ⟨h1, he, rfl⟩ := exec_success hx
  simp [effect, shellEffect, asFixedCmd, asIptables, iptablesEffect] at he
  obtain ⟨-, rfl⟩ := he
  simp

theorem activateLinuxLoop_cons_ok {r : String} {rest : List String} {h : Host}
    (hok : (activateLinuxLoop (r :: rest) h).1 = none) :
    ∃ out h1, h.exec (sudoRule r) = (some out, h1) ∧
      activateLinuxLoop (r :: rest) h = activateLinuxLoop rest h1 := by
  rcases hx : h.exec (sudoRule r) with ⟨_ | out, h1⟩
  · simp [activateLinuxLoop, hx] at hok
  · exact ⟨out, h1, rfl, by simp [activateLinuxLoop, hx]⟩

/-- Whatever the chains were, a successful `activateLinux` leaves the drop-all rule first in
both chains, ahead of the two allow rules. -/
theorem activateLinuxLoop_chains (h : Host)
    (hok : (activateLinuxLoop activateLinuxRules h).1 = none) :
    (activateLinuxLoop activateLinuxRules h).2.chain4 =
        dropAll :: allowTunnel :: allowLoopback :: h.chain4 ∧
      (activateLinuxLoop activateLinuxRules h).2.chain6 =
        dropAll :: allowTunnel :: allowLoopback :: h.chain6 := by
  have hf := Fields_activateLinuxRules
  simp only [activateLinuxRules, List.map_cons, List.map_nil, List.cons.injEq, and_true] at hf
  obtain ⟨f1, f2, f3, f4, f5, f6⟩ := hf
  unfold activateLinuxRules at hok ⊢
  obtain ⟨o1, h1, x1, e1⟩ := activateLinuxLoop_cons_ok hok
  rw [e1] at hok ⊢
  obtain ⟨o2, h2, x2, e2⟩ := activateLinuxLoop_cons_ok hok
  rw [e2] at hok ⊢
  obtain ⟨o3, h3, x3, e3⟩ := activateLinuxLoop_cons_ok hok
  rw [e3] at hok ⊢
  obtain ⟨o4, h4, x4, e4⟩ := activateLinuxLoop_cons_ok hok
  rw [e4] at hok ⊢
  obtain ⟨o5, h5, x5, e5⟩ := activateLinuxLoop_cons_ok hok
  rw [e5] at hok ⊢
  obtain ⟨o6, h6, x6, e6⟩ := activateLinuxLoop_cons_ok hok
  rw [e6]
  simp only [sudoRule, f1] at x1
  simp only [sudoRule, f2] at x2
  simp only [sudoRule, f3] at x3
  simp only [sudoRule, f4] at x4
  simp only [sudoRule, f5] at x5
  simp only [sudoRule, f6] at x6
  obtain ⟨a1, b1⟩ := exec_iptables_insert x1
  obtain ⟨a2, b2⟩ := exec_iptables_insert x2
  obtain ⟨a3, b3⟩ := exec_iptables_insert x3
  obtain ⟨a4, b4⟩ := exec_ip6tables_insert x4
  obtain ⟨a5, b5⟩ := exec_ip6tables_insert x5
  obtain ⟨a6, b6⟩ := exec_ip6tables_insert x6
  simp only [activateLinuxLoop]
  exact ⟨by rw [a6, a5, a4, a3, a2, a1], by rw [b6, b5, b4, b3, b2, b1]⟩

/-- On Linux, whatever the chains were, a successful `Activate` of a disengaged kill switch
leaves the drop-all rule first in both chains. -/
theorem Activate_linux_chains (k : KillSwitch) (h : Host) (hos : h.os = .linux)
    (hk : k.active = false) (hok : (k.Activate h).1 = none) :
    (k.Activate h).2.2.chain4 = dropAll :: allowTunnel :: allowLoopback :: h.chain4 ∧
      (k.Activate h).2.2.chain6 = dropAll :: allowTunnel :: allowLoopback :: h.chain6 := by
  have hos' : (h.call .ksActivate).os = .linux := hos
  have hl := activateLinuxLoop_chains (h.call .ksActivate)
  simp only [KillSwitch.Activate, hk, Bool.false_eq_true, if_false, hos',
    KillSwitch.activateLinux] at hok ⊢
  rcases hx : activateLinuxLoop activateLinuxRules (h.call .ksActivate) with ⟨_ | e, h1⟩
  · rw [hx] at hl
    exact hl rfl
  · rw [hx] at hok
    simp at hok

/-- C10, the code at the failing input: on Linux, from empty `OUTPUT` chains and with every
command succeeding, `Activate` succeeds and leaves the drop-all rule first in both the IPv4
and the IPv6 chain, ahead of the allow-tunnel and allow-loopback rules, so that a packet
leaving through the tunnel interface or through loopback is dropped. -/
theorem C10_drop_rule_first :
    (NewKillSwitch.Activate freshLinux).1 = none ∧
      (NewKillSwitch.Activate freshLinux).2.2.chain4 = [dropAll, allowTunnel, allowLoopback] ∧
      (NewKillSwitch.Activate freshLinux).2.2.chain6 = [dropAll, allowTunnel, allowLoopback] ∧
      verdict (NewKillSwitch.Activate freshLinux).2.2.chain4 "kryptx0" = some "DROP" ∧
      verdict (NewKillSwitch.Activate freshLinux).2.2.chain4 "lo" = some "DROP" ∧
      verdict [allowLoopback, allowTunnel, dropAll] "kryptx0" = some "ACCEPT" ∧
      verdict [allowLoopback, allowTunnel, dropAll] "lo" = some "ACCEPT" ∧
      verdict [allowLoopback, allowTunnel, dropAll] "eth0" = some "DROP" := by
  decide

/-! ## C7: the DNS round trip -/

theorem fieldsAux_word (w : List Char) (hw : ∀ c ∈ w, isSpace c = false) (rest cur : List Char) :
    fieldsAux (w ++ rest) cur = fieldsAux rest (w.reverse ++ cur) := by
  induction w generalizing cur with
  | nil => rfl
  | cons c w ih =>
    have hc : isSpace c = false := hw c (List.mem_cons_self _ _)
    have := ih (fun x hx => hw x (List.mem_cons_of_mem _ hx)) (c :: cur)
    rw [List.cons_append, fieldsAux]
    simp only [hc, Bool.false_eq_true, if_false]
    rw [this]
    simp

/-- `Fields` of a text made of clean words, each followed by a newline, gives the words. -/
theorem fieldsAux_lines (l : List String)
    (hl : ∀ s ∈ l, s ≠ "" ∧ ∀ c ∈ s.toList, isSpace c = false) :
    fieldsAux (l.map (fun s => (s ++ "\n").data)).flatten [] = l := by
  induction l with
  | nil => rfl
  | cons s l ih =>
    obtain ⟨hne, hclean⟩ := hl s (List.mem_cons_self _ _)
    have hrest := ih (fun x hx => hl x (List.mem_cons_of_mem _ hx))
    have hdata : s.data ≠ [] := by
      intro hd
      apply hne
      cases s
      simp_all
    have hnl : isSpace '\n' = true := by decide
    simp only [List.map_cons, List.flatten_cons, String.data_append, List.append_assoc]
    rw [fieldsAux_word s.data hclean]
    show fieldsAux ('\n' :: (l.map (fun s => (s ++ "\n").data)).flatten) _ = _
    rw [fieldsAux]
    simp only [hnl, if_true, List.append_nil, List.isEmpty_eq_true,
      List.reverse_eq_nil_iff, hdata, if_false, List.reverse_reverse, hrest]

theorem Fields_getdnsserversOutput (l : List String) (hne : l ≠ [])
    (hl : ∀ s ∈ l, s ≠ "" ∧ ∀ c ∈ s.toList, isSpace c = false) :
    Fields (getdnsserversOutput l) = l := by
  have hemp : l.isEmpty = false := by
    cases l with
    | nil => exact absurd rfl hne
    | cons a b => rfl
  unfold Fields getdnsserversOutput
  simp only [hemp, Bool.false_eq_true, if_false, String.toList, String.data_join, List.map_map]
  exact fieldsAux_lines l hl

theorem exec_readResolvConf {h h' : Host} {out : String}
    (hx : h.exec (.readFile "/etc/resolv.conf") = (some out, h')) :
    h.resolvConf = some out ∧ h'.resolvConf = h.resolvConf ∧ h'.resolvBackup = h.resolvBackup := by
  obtain ⟨h1, he, rfl⟩ := exec_success hx
  simp [effect, Option.map_eq_some'] at he
  obtain ⟨a, ha, rfl, rfl⟩ := he
  simp [ha]

theorem exec_cpResolvConf {h h' : Host} {out : String}
    (hx : h.exec (.run ["sudo", "cp", "/etc/resolv.conf", "/etc/resolv.conf.kryptx.backup"] none)
      = (some out, h')) :
    h'.resolvBackup = h.resolvConf ∧ h.resolvConf ≠ none := by
  obtain ⟨h1, he, rfl⟩ := exec_success hx
  simp [effect, shellEffect, asFixedCmd, fixedEffect, Option.map_eq_some'] at he
  obtain ⟨c, hc, -, rfl⟩ := he
  simp [hc]

theorem exec_writeTmpFile {h h' : Host} {content out : String}
    (hx : h.exec (.writeFile "/tmp/resolv.conf.kryptx" content) = (some out, h')) :
    h'.resolvBackup = h.resolvBackup := by
  obtain ⟨h1, he, rfl⟩ := exec_success hx
  simp [effect] at he
  obtain ⟨-, rfl⟩ := he
  simp

theorem exec_mvTmpFile {h h' : Host} {out : String}
    (hx : h.exec (.run ["sudo", "mv", "/tmp/resolv.conf.kryptx", "/etc/resolv.conf"] none)
      = (some out, h')) :
    h'.resolvBackup = h.resolvBackup := by
  obtain ⟨h1, he, rfl⟩ := exec_success hx
  simp [effect, shellEffect, asFixedCmd, fixedEffect, Option.map_eq_some'] at he
  obtain ⟨c, hc, -, rfl⟩ := he
  simp

theorem exec_mvBackup {h h' : Host} {out : String}
    (hx : h.exec (.run ["sudo", "mv", "/etc/resolv.conf.kryptx.backup", "/etc/resolv.conf"] none)
      = (some out, h')) :
    h'.resolvConf = h.resolvBackup := by
  obtain ⟨h1, he, rfl⟩ := exec_success hx
  simp [effect, shellEffect, asFixedCmd, fixedEffect, Option.map_eq_some'] at he
  obtain ⟨c, hc, -, rfl⟩ := he
  simp [hc]

theorem exec_getdnsservers {h h' : Host} {out : String}
    (hx : h.exec (.run ["networksetup", "-getdnsservers", "Wi-Fi"] none) = (some out, h')) :
    out = getdnsserversOutput h.macDNS := by
  obtain ⟨h1, he, rfl⟩ := exec_success hx
  simp [effect, shellEffect, asFixedCmd, fixedEffect] at he
  exact he.1.symm

theorem shellEffect_setdnsservers (l : List String) (h : Host) :
    shellEffect ("networksetup" :: "-setdnsservers" :: "Wi-Fi" :: l) none h =
      setDNSServersEffect l h := by
  have h1 : asFixedCmd ("networksetup" :: "-setdnsservers" :: "Wi-Fi" :: l) = none := by
    simp [asFixedCmd]
  have h2 : asIptables ("networksetup" :: "-setdnsservers" :: "Wi-Fi" :: l) = none := by
    unfold asIptables
    split
    · rename_i heq
      simp only [List.cons.injEq] at heq
      obtain ⟨rfl, -⟩ := heq
      simp
    · rfl
  have h3 : asCmdC ("networksetup" :: "-setdnsservers" :: "Wi-Fi" :: l) = none := by
    unfold asCmdC
    split
    · rename_i heq
      simp only [List.cons.injEq] at heq
      obtain ⟨rfl, -⟩ := heq
      simp
    · rfl
  simp [shellEffect, h1, h2, h3, asSetDNSServers]

/-- A successful `networksetup -setdnsservers Wi-Fi` with a clean non-empty list sets it. -/
theorem exec_setdnsservers {h h' : Host} {l : List String} {out : String} (hl : l ≠ ["empty"])
    (hx : h.exec (.run ("networksetup" :: "-setdnsservers" :: "Wi-Fi" :: l) none) =
      (some out, h')) :
    h'.macDNS = l := by
  obtain ⟨h1, he, rfl⟩ := exec_success hx
  simp only [effect, shellEffect_setdnsservers, setDNSServersEffect, hl, if_false] at he
  split at he
  · simp at he
  · simp at he
    obtain ⟨-, rfl⟩ := he
    rfl

theorem exec_netshDHCP {h h' : Host} {out : String}
    (hx : h.exec (.run ["netsh", "interface", "ipv4", "set", "dns",
      "name=\"Local Area Connection\"", "source=dhcp"] none) = (some out, h')) :
    h'.winDNS = none := by
  obtain ⟨h1, he, rfl⟩ := exec_success hx
  simp [effect, shellEffect, asFixedCmd, fixedEffect] at he
  obtain ⟨-, rfl⟩ := he
  rfl

/-- On Linux a successful `Configure` of a disengaged guard leaves the original
`/etc/resolv.conf`, which exists, in the backup file. -/
theorem Configure_linux (d : DNSManager) (h : Host) (hos : h.os = .linux)
    (hd : d.configured = false) (hok : (d.Configure h).1 = none) :
    (d.Configure h).2.2.resolvBackup = h.resolvConf ∧ h.resolvConf ≠ none := by
  have hos' : (h.call .dnsConfigure).os = .linux := hos
  simp only [DNSManager.Configure, hd, Bool.false_eq_true, if_false, DNSManager.backupDNS, hos',
    DNSManager.backupLinuxDNS] at hok ⊢
  rcases x1 : (h.call .dnsConfigure).exec (.readFile "/etc/resolv.conf") with ⟨_ | data, h1⟩
  · simp [x1] at hok
  · simp only [x1] at hok ⊢
    obtain ⟨-, a2, a3⟩ := exec_readResolvConf x1
    rcases x2 : h1.exec
      (.run ["sudo", "cp", "/etc/resolv.conf", "/etc/resolv.conf.kryptx.backup"] none)
      with ⟨_ | o2, h2⟩
    · simp [x2] at hok
    · simp only [x2] at hok ⊢
      obtain ⟨b1, b2⟩ := exec_cpResolvConf x2
      have hos2 : h2.os = .linux := by
        have e1 := exec_os (h.call .dnsConfigure) (.readFile "/etc/resolv.conf")
        have e2 := exec_os h1
          (.run ["sudo", "cp", "/etc/resolv.conf", "/etc/resolv.conf.kryptx.backup"] none)
        rw [x1] at e1
        rw [x2] at e2
        exact e2.trans (e1.trans hos')
      simp only [DNSManager.setVPNDNS, hos2, DNSManager.setLinuxDNS] at hok ⊢
      rcases x3 : h2.exec (.writeFile "/tmp/resolv.conf.kryptx" (linuxDNSContent d.vpnDNS))
        with ⟨_ | o3, h3⟩
      · simp [x3] at hok
      · simp only [x3] at hok ⊢
        have c1 := exec_writeTmpFile x3
        rcases x4 : h3.exec
          (.run ["sudo", "mv", "/tmp/resolv.conf.kryptx", "/etc/resolv.conf"] none)
          with ⟨_ | o4, h4⟩
        · simp [x4] at hok
        · have d1 := exec_mvTmpFile x4
          refine ⟨?_, ?_⟩
          · show h4.resolvBackup = h.resolvConf
            rw [d1, c1, b1, a2]
            rfl
          · have : h1.resolvConf = h.resolvConf := a2
            rw [← this]
            exact b2

/-- On Linux a successful `Restore` of an engaged guard moves the backup file back. -/
theorem Restore_linux (d : DNSManager) (h : Host) (hos : h.os = .linux)
    (hd : d.configured = true) (hok : (d.Restore h).1 = none) :
    (d.Restore h).2.2.resolvConf = h.resolvBackup := by
  have hos' : (h.call .dnsRestore).os = .linux := hos
  simp only [DNSManager.Restore, hd, Bool.not_true, Bool.false_eq_true, if_false,
    DNSManager.restoreDNS, hos', DNSManager.restoreLinuxDNS] at hok ⊢
  rcases x1 : (h.call .dnsRestore).exec
    (.run ["sudo", "mv", "/etc/resolv.conf.kryptx.backup", "/etc/resolv.conf"] none)
    with ⟨_ | o1, h1⟩
  · simp [x1] at hok
  · have := exec_mvBackup x1
    simpa [x1] using this

/-- On macOS a successful `Configure` of a disengaged guard stores the fields of the
`networksetup -getdnsservers` output. -/
theorem Configure_darwin (d : DNSManager) (h : Host) (hos : h.os = .darwin)
    (hd : d.configured = false) (hok : (d.Configure h).1 = none) :
    (d.Configure h).2.1.originalDNS = Fields (getdnsserversOutput h.macDNS) := by
  have hos' : (h.call .dnsConfigure).os = .darwin := hos
  simp only [DNSManager.Configure, hd, Bool.false_eq_true, if_false, DNSManager.backupDNS, hos',
    DNSManager.backupMacOSDNS] at hok ⊢
  rcases x1 : (h.call .dnsConfigure).exec (.run ["networksetup", "-getdnsservers", "Wi-Fi"] none)
    with ⟨_ | out, h1⟩
  · simp [x1] at hok
  · simp only [x1] at hok ⊢
    have a1 := exec_getdnsservers x1
    have hos1 : h1.os = .darwin := by
      have e1 := exec_os (h.call .dnsConfigure)
        (.run ["networksetup", "-getdnsservers", "Wi-Fi"] none)
      rw [x1] at e1
      exact e1.trans hos'
    simp only [DNSManager.setVPNDNS, hos1, DNSManager.setMacOSDNS, List.cons_append,
      List.nil_append] at hok ⊢
    rcases x2 : h1.exec (.run ("networksetup" :: "-setdnsservers" :: "Wi-Fi" :: d.vpnDNS) none)
      with ⟨_ | o2, h2⟩
    · simp [x2] at hok
    · simp only [x2]
      rw [a1]
      rfl

/-- On macOS a successful `Restore` of an engaged guard with a clean non-empty backup sets
the backed-up servers. -/
theorem Restore_darwin (d : DNSManager) (h : Host) (hos : h.os = .darwin)
    (hd : d.configured = true) (hne : d.originalDNS ≠ []) (hl : d.originalDNS ≠ ["empty"])
    (hok : (d.Restore h).1 = none) :
    (d.Restore h).2.2.macDNS = d.originalDNS := by
  have hos' : (h.call .dnsRestore).os = .darwin := hos
  have hlen : ¬ d.originalDNS.length = 0 := by
    intro h0
    exact hne (List.length_eq_zero.mp h0)
  simp only [DNSManager.Restore, hd, Bool.not_true, Bool.false_eq_true, if_false,
    DNSManager.restoreDNS, hos', DNSManager.restoreMacOSDNS, hlen, List.cons_append,
    List.nil_append] at hok ⊢
  rcases x1 : (h.call .dnsRestore).exec
    (.run ("networksetup" :: "-setdnsservers" :: "Wi-Fi" :: d.originalDNS) none)
    with ⟨_ | o1, h1⟩
  · simp [x1] at hok
  · have := exec_setdnsservers hl x1
    simpa [x1] using this

/-- On Windows a successful `Restore` of an engaged guard switches to DHCP. -/
theorem Restore_windows (d : DNSManager) (h : Host) (hos : h.os = .windows)
    (hd : d.configured = true) (hok : (d.Restore h).1 = none) :
    (d.Restore h).2.2.winDNS = none := by
  have hos' : (h.call .dnsRestore).os = .windows := hos
  simp only [DNSManager.Restore, hd, Bool.not_true, Bool.false_eq_true, if_false,
    DNSManager.restoreDNS, hos', DNSManager.restoreWindowsDNS] at hok ⊢
  rcases x1 : (h.call .dnsRestore).exec (.run ["netsh", "interface", "ipv4", "set", "dns",
    "name=\"Local Area Connection\"", "source=dhcp"] none) with ⟨_ | o1, h1⟩
  · simp [x1] at hok
  · have := exec_netshDHCP x1
    simpa [x1] using this

/-- C7, counterexample on Windows: with the static resolvers `1.1.1.1` and `8.8.8.8` and
every command succeeding, `Configure` followed by `Restore` leaves the connection on DHCP,
not on the initial list. -/
theorem C7_windows_counterexample :
    ((NewDNSManager ["10.0.0.1"]).Configure windowsStatic).1 = none ∧
      (((NewDNSManager ["10.0.0.1"]).Configure windowsStatic).2.1.Restore
        ((NewDNSManager ["10.0.0.1"]).Configure windowsStatic).2.2).1 = none ∧
      windowsStatic.winDNS = some ["1.1.1.1", "8.8.8.8"] ∧
      (((NewDNSManager ["10.0.0.1"]).Configure windowsStatic).2.1.Restore
        ((NewDNSManager ["10.0.0.1"]).Configure windowsStatic).2.2).2.2.winDNS = none := by
  decide

/-- C7, amended: for a disengaged DNS manager, `Configure` followed by `Restore`, both
succeeding, leaves the host resolver state as it was on Linux (`/etc/resolv.conf`, which
existed, has its initial content again) and on macOS (for a non-empty list of non-empty,
white-space-free servers, the static servers of the service are the initial list again); on
Windows it leaves the connection on DHCP whatever the initial list was. -/
theorem C7_dns_round_trip (d : DNSManager) (h : Host) (hd : d.configured = false)
    (hc : (d.Configure h).1 = none)
    (hr : ((d.Configure h).2.1.Restore (d.Configure h).2.2).1 = none) :
    (h.os = .linux →
        ((d.Configure h).2.1.Restore (d.Configure h).2.2).2.2.resolvConf = h.resolvConf ∧
          h.resolvConf ≠ none) ∧
      (h.os = .darwin → h.macDNS ≠ [] → cleanResolvers h.macDNS →
        ((d.Configure h).2.1.Restore (d.Configure h).2.2).2.2.macDNS = h.macDNS) ∧
      (h.os = .windows →
        ((d.Configure h).2.1.Restore (d.Configure h).2.2).2.2.winDNS = none) := by
  have hconf : (d.Configure h).2.1.configured = true := by
    rcases Configure_result d h with ⟨-, b⟩ | ⟨a, -⟩
    · exact b
    · exact absurd hc a
  have hos : (d.Configure h).2.2.os = h.os := (Configure_frame d h).1.1
  refine ⟨fun ho => ?_, fun ho hne hclean => ?_, fun ho => ?_⟩
  · obtain ⟨a, b⟩ := Configure_linux d h ho hd hc
    exact ⟨(Restore_linux _ _ (hos.trans ho) hconf hr).trans a, b⟩
  · have a := Configure_darwin d h ho hd hc
    rw [Fields_getdnsserversOutput _ hne hclean.1] at a
    have := Restore_darwin _ _ (hos.trans ho) hconf (by rw [a]; exact hne)
      (by rw [a]; exact hclean.2) hr
    rw [this, a]
  · exact Restore_windows _ _ (hos.trans ho) hconf hr

/-- C7, the amended statement on macOS with the static resolvers `1.1.1.1` and `8.8.8.8`. -/
theorem C7_dns_round_trip_witness :
    (NewDNSManager ["10.0.0.1"]).configured = false ∧
      ((NewDNSManager ["10.0.0.1"]).Configure darwinStatic).1 = none ∧
      (((NewDNSManager ["10.0.0.1"]).Configure darwinStatic).2.1.Restore
        ((NewDNSManager ["10.0.0.1"]).Configure darwinStatic).2.2).1 = none ∧
      (((NewDNSManager ["10.0.0.1"]).Configure darwinStatic).2.1.Restore
        ((NewDNSManager ["10.0.0.1"]).Configure darwinStatic).2.2).2.2.macDNS =
        ["1.1.1.1", "8.8.8.8"] :=
  ⟨by decide, by decide, by decide,
    (C7_dns_round_trip (NewDNSManager ["10.0.0.1"]) darwinStatic (by decide) (by decide)
      (by decide)).2.1 (by decide) (by decide) (by decide)⟩

/-! ## C8: restoring an empty backup -/

/-- `Restore` of an engaged guard issues the one command of `restoreDNS` and succeeds exactly
when the command does. -/
theorem Restore_single (d : DNSManager) (h : Host) (c : Cmd) (hd : d.configured = true)
    (hr : d.restoreDNS (h.call .dnsRestore) =
      match (h.call .dnsRestore).exec c with
      | (none, h1) => (some (.os c), d, h1)
      | (some _, h1) => (none, d, h1)) :
    (d.Restore h).2.2 = ((h.call .dnsRestore).exec c).2 ∧
      ((d.Restore h).1 = none ↔ ∃ out, ((h.call .dnsRestore).exec c).1 = some out) := by
  simp only [DNSManager.Restore, hd, Bool.not_true, Bool.false_eq_true, if_false, hr]
  rcases (h.call .dnsRestore).exec c with ⟨_ | out, h1⟩ <;> simp

theorem Restore_single_log (d : DNSManager) (h : Host) (c : Cmd) (hd : d.configured = true)
    (hr : d.restoreDNS (h.call .dnsRestore) =
      match (h.call .dnsRestore).exec c with
      | (none, h1) => (some (.os c), d, h1)
      | (some _, h1) => (none, d, h1)) :
    (d.Restore h).2.2.log = h.log ++ [(c, decide ((d.Restore h).1 = none))] := by
  obtain ⟨a, b⟩ := Restore_single d h c hd hr
  rw [a, exec_log]
  have : ((h.call .dnsRestore).exec c).1.isSome = decide ((d.Restore h).1 = none) := by
    cases hx : ((h.call .dnsRestore).exec c).1 with
    | none =>
      have : ¬ (d.Restore h).1 = none := fun hn => by
        obtain ⟨out, ho⟩ := b.1 hn
        rw [hx] at ho
        cases ho
      simp [this]
    | some out =>
      have : (d.Restore h).1 = none := b.2 ⟨out, hx⟩
      simp [this]
  rw [this]
  rfl

theorem exec_setdnsservers_empty {h h' : Host} {out : String}
    (hx : h.exec restoreAutomaticCmd = (some out, h')) : h'.macDNS = [] := by
  obtain ⟨h1, he, rfl⟩ := exec_success hx
  have : effect restoreAutomaticCmd { h with oracle := h.oracle.tail } =
      setDNSServersEffect ["empty"] { h with oracle := h.oracle.tail } :=
    shellEffect_setdnsservers ["empty"] _
  rw [this] at he
  simp [setDNSServersEffect] at he
  obtain ⟨-, rfl⟩ := he
  rfl

/-- The empty branch of `Restore`: when the DNS guard is engaged with an empty backup,
`Restore` issues no command writing an empty static resolver list: on macOS its only command is
`networksetup -setdnsservers Wi-Fi empty`, which on success leaves the service without
static servers (automatic); on Windows its only command switches the connection to DHCP; on
Linux its only command moves the backup of `/etc/resolv.conf` back. -/
theorem Restore_empty_backup (d : DNSManager) (h : Host) (hc : d.configured = true)
    (he : d.originalDNS = []) :
    (∃ l, (d.Restore h).2.2.log = h.log ++ l ∧ ∀ e ∈ l, e.1 ≠ emptyStaticCmd) ∧
      (h.os = .darwin →
        (d.Restore h).2.2.log = h.log ++ [(restoreAutomaticCmd, decide ((d.Restore h).1 = none))] ∧
          ((d.Restore h).1 = none → (d.Restore h).2.2.macDNS = [])) ∧
      (h.os = .windows →
        (d.Restore h).2.2.log = h.log ++ [(restoreDHCPCmd, decide ((d.Restore h).1 = none))] ∧
          ((d.Restore h).1 = none → (d.Restore h).2.2.winDNS = none)) ∧
      (h.os = .linux →
        (d.Restore h).2.2.log = h.log ++ [(restoreBackupCmd, decide ((d.Restore h).1 = none))] ∧
          ((d.Restore h).1 = none → (d.Restore h).2.2.resolvConf = h.resolvBackup)) := by
  have hmac : h.os = .darwin →
      (d.Restore h).2.2.log = h.log ++ [(restoreAutomaticCmd, decide ((d.Restore h).1 = none))] ∧
        ((d.Restore h).1 = none → (d.Restore h).2.2.macDNS = []) := by
    intro ho
    have ho' : (h.call .dnsRestore).os = .darwin := ho
    have hr : d.restoreDNS (h.call .dnsRestore) =
        match (h.call .dnsRestore).exec restoreAutomaticCmd with
        | (none, h1) => (some (.os restoreAutomaticCmd), d, h1)
        | (some _, h1) => (none, d, h1) := by
      simp only [DNSManager.restoreDNS, ho', DNSManager.restoreMacOSDNS, he, List.length_nil,
        if_true, restoreAutomaticCmd]
    refine ⟨Restore_single_log d h _ hc hr, fun hok => ?_⟩
    obtain ⟨a, b⟩ := Restore_single d h _ hc hr
    obtain ⟨out, ho⟩ := b.1 hok
    rw [a]
    have hx : (h.call .dnsRestore).exec restoreAutomaticCmd =
        (some out, ((h.call .dnsRestore).exec restoreAutomaticCmd).2) := Prod.ext ho rfl
    exact exec_setdnsservers_empty hx
  have hwin : h.os = .windows →
      (d.Restore h).2.2.log = h.log ++ [(restoreDHCPCmd, decide ((d.Restore h).1 = none))] ∧
        ((d.Restore h).1 = none → (d.Restore h).2.2.winDNS = none) := by
    intro ho
    have hr : d.restoreDNS (h.call .dnsRestore) =
        match (h.call .dnsRestore).exec restoreDHCPCmd with
        | (none, h1) => (some (.os restoreDHCPCmd), d, h1)
        | (some _, h1) => (none, d, h1) := by
      have ho' : (h.call .dnsRestore).os = .windows := ho
      simp only [DNSManager.restoreDNS, ho', DNSManager.restoreWindowsDNS, restoreDHCPCmd]
    exact ⟨Restore_single_log d h _ hc hr, fun hok => Restore_windows d h ho hc hok⟩
  have hlin : h.os = .linux →
      (d.Restore h).2.2.log = h.log ++ [(restoreBackupCmd, decide ((d.Restore h).1 = none))] ∧
        ((d.Restore h).1 = none → (d.Restore h).2.2.resolvConf = h.resolvBackup) := by
    intro ho
    have hr : d.restoreDNS (h.call .dnsRestore) =
        match (h.call .dnsRestore).exec restoreBackupCmd with
        | (none, h1) => (some (.os restoreBackupCmd), d, h1)
        | (some _, h1) => (none, d, h1) := by
      have ho' : (h.call .dnsRestore).os = .linux := ho
      simp only [DNSManager.restoreDNS, ho', DNSManager.restoreLinuxDNS, restoreBackupCmd]
    exact ⟨Restore_single_log d h _ hc hr, fun hok => Restore_linux d h ho hc hok⟩
  refine ⟨?_, hmac, hwin, hlin⟩
  cases ho : h.os with
  | darwin => exact ⟨_, (hmac ho).1, by simp [restoreAutomaticCmd, emptyStaticCmd]⟩
  | windows => exact ⟨_, (hwin ho).1, by simp [restoreDHCPCmd, emptyStaticCmd]⟩
  | linux => exact ⟨_, (hlin ho).1, by simp [restoreBackupCmd, emptyStaticCmd]⟩
  | other =>
    refine ⟨[], ?_, by simp⟩
    have ho' : (h.call .dnsRestore).os = .other := ho
    simp only [DNSManager.Restore, hc, Bool.not_true, Bool.false_eq_true, if_false,
      DNSManager.restoreDNS, ho', List.append_nil]
    rfl

/-! ## C9: the DNS backup and the engaged flag -/

/-- C9, counterexample to invariant I2, in states reached from `NewDNSManager`: on Linux
after a successful `Configure` and a successful `Restore` the guard is disengaged with the
backup still populated; on Linux after a `Configure` whose backup step succeeds and whose
write of the new resolvers fails the guard is disengaged with the backup populated; on
Windows after a successful `Configure` the guard is engaged with an empty backup. -/
theorem C9_backup_flag_counterexample :
    (((NewDNSManager ["10.0.0.1"]).Configure (sampleLinux [])).2.1.Restore
        ((NewDNSManager ["10.0.0.1"]).Configure (sampleLinux [])).2.2).1 = none ∧
      (((NewDNSManager ["10.0.0.1"]).Configure (sampleLinux [])).2.1.Restore
        ((NewDNSManager ["10.0.0.1"]).Configure (sampleLinux [])).2.2).2.1 =
        { vpnDNS := ["10.0.0.1"], originalDNS := ["1.1.1.1", "8.8.8.8"], configured := false } ∧
      ((NewDNSManager ["10.0.0.1"]).Configure (sampleLinux [true, true, false])).1 ≠ none ∧
      ((NewDNSManager ["10.0.0.1"]).Configure (sampleLinux [true, true, false])).2.1 =
        { vpnDNS := ["10.0.0.1"], originalDNS := ["1.1.1.1", "8.8.8.8"], configured := false } ∧
      ((NewDNSManager ["10.0.0.1"]).Configure windowsStatic).2.1 =
        { vpnDNS := ["10.0.0.1"], originalDNS := [], configured := true } := by
  decide

/-! ## C15: the monitor tick -/

/-- C15, counterexample: on a connected client whose tunnel interface has been lost, one
tick of the monitor changes the connection state from connected to not connected. -/
theorem C15_tick_clears_connected_counterexample :
    connectedThenLost.client.connected = true ∧
      connectedThenLost.client.isInterfaceUp connectedThenLost.host = false ∧
      (connectedThenLost.client.monitorTick connectedThenLost.host).connected = false := by
  decide

/-- C15, amended: for every client state and host, one tick of the connection monitor
leaves the profile and both guards (flags and backup data) unchanged; when the interface is
up it leaves the client unchanged; when the interface is lost it sets `connected` to false
and changes nothing else. -/
theorem C15_tick_frame (v : VPNClient) (h : Host) :
    (v.monitorTick h).config = v.config ∧
      (v.monitorTick h).killSwitch = v.killSwitch ∧
      (v.monitorTick h).dnsManager = v.dnsManager ∧
      (v.isInterfaceUp h = true → v.monitorTick h = v) ∧
      (v.isInterfaceUp h = false → v.monitorTick h = { v with connected := false }) := by
  unfold VPNClient.monitorTick
  cases hu : v.isInterfaceUp h <;> simp

/-! ## C13: the native configuration -/

theorem intercalate_go_comma (l : List String) (a acc : String) :
    String.intercalate.go (acc ++ a) ", " l = acc ++ specJoined (a :: l) := by
  induction l generalizing a acc with
  | nil => rfl
  | cons b l ih =>
    have e : acc ++ a ++ ", " ++ b = (acc ++ a ++ ", ") ++ b := rfl
    rw [String.intercalate.go, e, ih b (acc ++ a ++ ", ")]
    simp only [specJoined, String.append_assoc]

/-- Go `strings.Join` with the separator `", "` gives the entries joined as the
specification words it. -/
theorem Join_comma (l : List String) : Join l ", " = specJoined l := by
  cases l with
  | nil => rfl
  | cons a l =>
    have h := intercalate_go_comma l a ""
    simp only [String.empty_append] at h
    exact h

/-- C13, native configuration rendering: for every profile, `generateWireGuardConfig` is
exactly the text of the specification: `[Interface]`, `PrivateKey = <key>`,
`Address = <address>`, `DNS = <entries joined by ", ">`, `MTU = <mtu in decimal>`, a blank
line, `[Peer]`, `PublicKey = <server key>`, `Endpoint = <host>:<port>`,
`AllowedIPs = <routes joined by ", ">`, `PersistentKeepalive = 25`, each line terminated by
a newline, in this order, and nothing else. -/
theorem C13_config_rendering (v : VPNClient) :
    v.generateWireGuardConfig = specRenderedConfig v.config := by
  unfold VPNClient.generateWireGuardConfig specRenderedConfig specConfigLines
  rw [← Join_comma, ← Join_comma]
  apply String.ext
  simp [String.join, String.data_append, List.append_assoc]

/-! ## C12: the order of the removals -/

theorem deactivateLinuxLoop_log (rules : List String) (h : Host) :
    (deactivateLinuxLoop rules h).log.map Prod.fst = h.log.map Prod.fst ++ rules.map sudoRule := by
  induction rules generalizing h with
  | nil => simp [deactivateLinuxLoop]
  | cons r rest ih =>
    rw [deactivateLinuxLoop, ih, exec_log]
    simp

theorem deactivateWindowsLoop_log (rules : List String) (h : Host) :
    (deactivateWindowsLoop rules h).log.map Prod.fst =
      h.log.map Prod.fst ++ rules.map cmdRule := by
  induction rules generalizing h with
  | nil => simp [deactivateWindowsLoop]
  | cons r rest ih =>
    rw [deactivateWindowsLoop, ih, exec_log]
    simp

theorem activateLinuxLoop_log (rules : List String) (h : Host)
    (hok : (activateLinuxLoop rules h).1 = none) :
    (activateLinuxLoop rules h).2.log = h.log ++ rules.map (fun r => (sudoRule r, true)) := by
  induction rules generalizing h with
  | nil => simp [activateLinuxLoop]
  | cons r rest ih =>
    obtain ⟨out, h1, hx, he⟩ := activateLinuxLoop_cons_ok hok
    rw [he] at hok ⊢
    rw [ih h1 hok]
    have hl := exec_log h (sudoRule r)
    rw [hx] at hl
    simp only [Option.isSome_some] at hl
    rw [hl]
    simp

theorem activateWindowsLoop_log (rules : List String) (h : Host)
    (hok : (activateWindowsLoop rules h).1 = none) :
    (activateWindowsLoop rules h).2.log = h.log ++ rules.map (fun r => (cmdRule r, true)) := by
  induction rules generalizing h with
  | nil => simp [activateWindowsLoop]
  | cons r rest ih =>
    rcases hx : h.exec (cmdRule r) with ⟨_ | out, h1⟩
    · simp [activateWindowsLoop, hx] at hok
    · have he : activateWindowsLoop (r :: rest) h = activateWindowsLoop rest h1 := by
        simp [activateWindowsLoop, hx]
      rw [he] at hok ⊢
      rw [ih h1 hok]
      have hl := exec_log h (cmdRule r)
      rw [hx] at hl
      simp only [Option.isSome_some] at hl
      rw [hl]
      simp

/-- The commands a successful `Activate` of a disengaged switch issues on Linux and on
Windows: one per rule of the list, in the order of the list. -/
theorem Activate_log (k : KillSwitch) (h : Host) (hk : k.active = false)
    (hok : (k.Activate h).1 = none) :
    (h.os = .linux →
        (k.Activate h).2.2.log = h.log ++ activateLinuxRules.map (fun r => (sudoRule r, true))) ∧
      (h.os = .windows →
        (k.Activate h).2.2.log =
          h.log ++ activateWindowsRules.map (fun r => (cmdRule r, true))) := by
  refine ⟨fun hos => ?_, fun hos => ?_⟩
  · have hos' : (h.call .ksActivate).os = .linux := hos
    have hl := activateLinuxLoop_log activateLinuxRules (h.call .ksActivate)
    simp only [KillSwitch.Activate, hk, Bool.false_eq_true, if_false, hos',
      KillSwitch.activateLinux] at hok ⊢
    rcases hx : activateLinuxLoop activateLinuxRules (h.call .ksActivate) with ⟨_ | e, h1⟩
    · rw [hx] at hl
      exact hl rfl
    · rw [hx] at hok
      simp at hok
  · have hos' : (h.call .ksActivate).os = .windows := hos
    have hl := activateWindowsLoop_log activateWindowsRules (h.call .ksActivate)
    simp only [KillSwitch.Activate, hk, Bool.false_eq_true, if_false, hos',
      KillSwitch.activateWindows] at hok ⊢
    rcases hx : activateWindowsLoop activateWindowsRules (h.call .ksActivate) with ⟨_ | e, h1⟩
    · rw [hx] at hl
      exact hl rfl
    · rw [hx] at hok
      simp at hok

/-- The commands `Deactivate` of an engaged switch issues on Linux and on Windows, whatever
their outcomes: one per rule of the list, in the order of the list. -/
theorem Deactivate_log (k : KillSwitch) (h : Host) (hk : k.active = true) :
    (h.os = .linux →
        (k.Deactivate h).2.2.log.map Prod.fst =
          h.log.map Prod.fst ++ deactivateLinuxRules.map sudoRule) ∧
      (h.os = .windows →
        (k.Deactivate h).2.2.log.map Prod.fst =
          h.log.map Prod.fst ++ deactivateWindowsRules.map cmdRule) := by
  refine ⟨fun hos => ?_, fun hos => ?_⟩
  · have hos' : (h.call .ksDeactivate).os = .linux := hos
    simp only [KillSwitch.Deactivate, hk, Bool.not_true, Bool.false_eq_true, if_false, hos',
      KillSwitch.deactivateLinux]
    exact deactivateLinuxLoop_log _ _
  · have hos' : (h.call .ksDeactivate).os = .windows := hos
    simp only [KillSwitch.Deactivate, hk, Bool.not_true, Bool.false_eq_true, if_false, hos',
      KillSwitch.deactivateWindows]
    exact deactivateWindowsLoop_log _ _

/-- C12, counterexample: the rules are not removed in the exact reverse of the order of
installation. On Linux the six rules are installed IPv4 first and removed IPv4 first (the
reverse order would remove the IPv6 rules first); on Windows the three rules are removed in
the order they were installed. The lists are read off the commands issued by `Activate` and
by the following `Deactivate` on a fresh host with every command succeeding. -/
theorem C12_removal_order_counterexample :
    (NewKillSwitch.Activate freshLinux).2.2.log.filterMap (fun e => installsRule e.1) =
        [["iptables", "-o", "lo", "-j", "ACCEPT"], ["iptables", "-o", "kryptx+", "-j", "ACCEPT"],
          ["iptables", "-j", "DROP"], ["ip6tables", "-o", "lo", "-j", "ACCEPT"],
          ["ip6tables", "-o", "kryptx+", "-j", "ACCEPT"], ["ip6tables", "-j", "DROP"]] ∧
      ((NewKillSwitch.Activate freshLinux).2.1.Deactivate
          (NewKillSwitch.Activate freshLinux).2.2).2.2.log.filterMap (fun e => removesRule e.1) =
        [["iptables", "-j", "DROP"], ["iptables", "-o", "kryptx+", "-j", "ACCEPT"],
          ["iptables", "-o", "lo", "-j", "ACCEPT"], ["ip6tables", "-j", "DROP"],
          ["ip6tables", "-o", "kryptx+", "-j", "ACCEPT"], ["ip6tables", "-o", "lo", "-j", "ACCEPT"]] ∧
      removedLinux ≠ installedLinux.reverse ∧
      (NewKillSwitch.Activate freshWindows).2.2.log.filterMap (fun e => installsRule e.1) =
        [["KryptX_Block_All"], ["KryptX_Allow_Loopback"], ["KryptX_Allow_VPN"]] ∧
      ((NewKillSwitch.Activate freshWindows).2.1.Deactivate
          (NewKillSwitch.Activate freshWindows).2.2).2.2.log.filterMap
            (fun e => removesRule e.1) =
        [["KryptX_Block_All"], ["KryptX_Allow_Loopback"], ["KryptX_Allow_VPN"]] ∧
      removedWindows ≠ installedWindows.reverse := by
  decide

/-- C12, amended: when the kill switch is engaged, `Deactivate` issues, whatever the
outcomes, exactly the commands of its rule list in order (six on Linux, three on Windows),
each removing one rule, and the rules removed are exactly the rules `Activate` installs, each
once. On Linux the removals are in reverse installation order within the IPv4 rules and
within the IPv6 rules, the IPv4 rules first; on Windows the removals are in installation
order. -/
theorem C12_removal_order (k : KillSwitch) (h : Host) (hk : k.active = true) :
    (h.os = .linux →
        (k.Deactivate h).2.2.log.map Prod.fst =
          h.log.map Prod.fst ++ deactivateLinuxRules.map sudoRule) ∧
      (h.os = .windows →
        (k.Deactivate h).2.2.log.map Prod.fst =
          h.log.map Prod.fst ++ deactivateWindowsRules.map cmdRule) ∧
      removedLinux.length = deactivateLinuxRules.length ∧
      removedLinux = (installedLinux.take 3).reverse ++ (installedLinux.drop 3).reverse ∧
      installedLinux.Nodup ∧
      removedWindows.length = deactivateWindowsRules.length ∧
      removedWindows = installedWindows ∧
      installedWindows.Nodup := by
  obtain ⟨a, b⟩ := Deactivate_log k h hk
  exact ⟨a, b, by decide, by decide, by decide, by decide, by decide, by decide⟩

/-- C12, the amended statement at an engaged kill switch on a fresh Linux host. -/
theorem C12_removal_order_witness :
    engagedSwitch.active = true ∧
      (engagedSwitch.Deactivate freshLinux).2.2.log.map Prod.fst =
        deactivateLinuxRules.map sudoRule :=
  ⟨by decide, by
    have := (C12_removal_order engagedSwitch freshLinux (by decide)).1 (by decide)
    simpa [freshLinux, freshHost] using this⟩

/-! ## C11: a failing rule command -/

theorem exec_iptables_insert_eq (h : Host) (spec : List String) :
    h.exec (.run ("sudo" :: "iptables" :: "-I" :: "OUTPUT" :: spec) none) =
      if h.oracle.headD true = true then
        (some "", { h with oracle := h.oracle.tail, chain4 := spec :: h.chain4,
                           log := h.log ++
                             [(.run ("sudo" :: "iptables" :: "-I" :: "OUTPUT" :: spec) none, true)] })
      else
        (none, { h with oracle := h.oracle.tail,
                        log := h.log ++
                          [(.run ("sudo" :: "iptables" :: "-I" :: "OUTPUT" :: spec) none, false)] }) := by
  unfold Host.exec
  simp [effect, shellEffect, asFixedCmd, asIptables, iptablesEffect]

theorem exec_ip6tables_insert_eq (h : Host) (spec : List String) :
    h.exec (.run ("sudo" :: "ip6tables" :: "-I" :: "OUTPUT" :: spec) none) =
      if h.oracle.headD true = true then
        (some "", { h with oracle := h.oracle.tail, chain6 := spec :: h.chain6,
                           log := h.log ++
                             [(.run ("sudo" :: "ip6tables" :: "-I" :: "OUTPUT" :: spec) none, true)] })
      else
        (none, { h with oracle := h.oracle.tail,
                        log := h.log ++
                          [(.run ("sudo" :: "ip6tables" :: "-I" :: "OUTPUT" :: spec) none, false)] }) := by
  unfold Host.exec
  simp [effect, shellEffect, asFixedCmd, asIptables, iptablesEffect]

theorem exec_netsh_add_eq (h : Host) (r n : String) (hn : netshAddName r = some n) :
    h.exec (cmdRule r) =
      if h.oracle.headD true = true then
        (some "", { h with oracle := h.oracle.tail, winRules := h.winRules ++ [n],
                           log := h.log ++ [(cmdRule r, true)] })
      else
        (none, { h with oracle := h.oracle.tail, log := h.log ++ [(cmdRule r, false)] }) := by
  unfold Host.exec
  simp [effect, cmdRule, shellEffect, asFixedCmd, asIptables, asCmdC, netshRuleEffect, hn]

/-- The loop of `activateLinux` when the first `n` rule commands succeed and the next one
fails: it returns the error of that rule and leaves the rules installed so far in the
chains. -/
theorem activateLinuxLoop_partial (h : Host) (n : Nat) (rest : List Bool) (hn : n < 6)
    (ho : h.oracle = List.replicate n true ++ false :: rest) :
    (activateLinuxLoop activateLinuxRules h).1 =
        some (.wrap ("failed to apply rule " ++ activateLinuxRules.getD n "")
          (.os (sudoRule (activateLinuxRules.getD n "")))) ∧
      (activateLinuxLoop activateLinuxRules h).2.chain4 =
        ([allowLoopback, allowTunnel, dropAll].take n).reverse ++ h.chain4 ∧
      (activateLinuxLoop activateLinuxRules h).2.chain6 =
        ([allowLoopback, allowTunnel, dropAll].take (n - 3)).reverse ++ h.chain6 := by
  have hf := Fields_activateLinuxRules
  simp only [activateLinuxRules, List.map_cons, List.map_nil, List.cons.injEq, and_true] at hf
  obtain ⟨f1, f2, f3, f4, f5, f6⟩ := hf
  interval_cases n
  all_goals
    simp only [List.replicate, List.nil_append, List.cons_append] at ho
    simp [activateLinuxRules, activateLinuxLoop, sudoRule, f1, f2, f3, f4, f5, f6,
      exec_iptables_insert_eq, exec_ip6tables_insert_eq, ho, allowLoopback, allowTunnel, dropAll]

/-- The loop of `activateWindows` when the first `n` rule commands succeed and the next one
fails: it returns an error and leaves the rules added so far in the firewall. -/
theorem activateWindowsLoop_partial (h : Host) (n : Nat) (rest : List Bool) (hn : n < 3)
    (ho : h.oracle = List.replicate n true ++ false :: rest) :
    (activateWindowsLoop activateWindowsRules h).1 =
        some (.wrap "failed to apply rule" (.os (cmdRule (activateWindowsRules.getD n "")))) ∧
      (activateWindowsLoop activateWindowsRules h).2.winRules =
        h.winRules ++
          ["KryptX_Block_All", "KryptX_Allow_Loopback", "KryptX_Allow_VPN"].take n := by
  have e1 := fun g : Host => exec_netsh_add_eq g
    "netsh advfirewall firewall add rule name=\"KryptX_Block_All\" dir=out action=block"
    "KryptX_Block_All" (by decide)
  have e2 := fun g : Host => exec_netsh_add_eq g
    "netsh advfirewall firewall add rule name=\"KryptX_Allow_Loopback\" dir=out action=allow localip=127.0.0.1"
    "KryptX_Allow_Loopback" (by decide)
  have e3 := fun g : Host => exec_netsh_add_eq g
    "netsh advfirewall firewall add rule name=\"KryptX_Allow_VPN\" dir=out action=allow interface=\"kryptx\""
    "KryptX_Allow_VPN" (by decide)
  interval_cases n
  all_goals
    simp only [List.replicate, List.nil_append, List.cons_append] at ho
    simp [activateWindowsRules, activateWindowsLoop, e1, e2, e3, ho]

/-- C11, counterexample to the rollback of a partial failure: on Linux, from empty chains,
when the first rule command succeeds and the second fails, `Activate` returns the error of
the second rule with the engaged flag false and leaves the first rule installed. -/
theorem C11_rule_rollback_counterexample :
    (NewKillSwitch.Activate secondRuleFails).1 =
        some (.wrap "failed to apply rule iptables -I OUTPUT -o kryptx+ -j ACCEPT"
          (.os (.run ["sudo", "iptables", "-I", "OUTPUT", "-o", "kryptx+", "-j", "ACCEPT"] none))) ∧
      (NewKillSwitch.Activate secondRuleFails).2.1.active = false ∧
      secondRuleFails.chain4 = [] ∧
      (NewKillSwitch.Activate secondRuleFails).2.2.chain4 = [allowLoopback] := by
  decide

/-- C11, amended: when the first `n` rule commands of `Activate` succeed and the next one
fails (on Linux `n < 6`, on Windows `n < 3`), `Activate` returns the error of the failed
rule and leaves the kill switch as it was, the engaged flag false, and it removes nothing:
the `n` rules installed by this call remain, on Linux at the head of the IPv4 and IPv6
chains, on Windows behind the rules that were there. -/
theorem C11_partial_failure_keeps_rules (k : KillSwitch) (h : Host) (n : Nat)
    (rest : List Bool) (hk : k.active = false)
    (ho : h.oracle = List.replicate n true ++ false :: rest) :
    (h.os = .linux → n < 6 →
        (k.Activate h).1 =
          some (.wrap ("failed to apply rule " ++ activateLinuxRules.getD n "")
            (.os (sudoRule (activateLinuxRules.getD n "")))) ∧
        (k.Activate h).2.1 = k ∧
        (k.Activate h).2.2.chain4 =
          ([allowLoopback, allowTunnel, dropAll].take n).reverse ++ h.chain4 ∧
        (k.Activate h).2.2.chain6 =
          ([allowLoopback, allowTunnel, dropAll].take (n - 3)).reverse ++ h.chain6) ∧
      (h.os = .windows → n < 3 →
        (k.Activate h).1 =
          some (.wrap "failed to apply rule" (.os (cmdRule (activateWindowsRules.getD n "")))) ∧
        (k.Activate h).2.1 = k ∧
        (k.Activate h).2.2.winRules =
          h.winRules ++
            ["KryptX_Block_All", "KryptX_Allow_Loopback", "KryptX_Allow_VPN"].take n) := by
  refine ⟨fun hos hn => ?_, fun hos hn => ?_⟩
  · have hos' : (h.call .ksActivate).os = .linux := hos
    obtain ⟨a, b, c⟩ := activateLinuxLoop_partial (h.call .ksActivate) n rest hn ho
    simp only [KillSwitch.Activate, hk, Bool.false_eq_true, if_false, hos',
      KillSwitch.activateLinux]
    rcases hx : activateLinuxLoop activateLinuxRules (h.call .ksActivate) with ⟨_ | e, h1⟩
    · rw [hx] at a
      simp at a
    · rw [hx] at a b c
      exact ⟨a, rfl, b, c⟩
  · have hos' : (h.call .ksActivate).os = .windows := hos
    obtain ⟨a, b⟩ := activateWindowsLoop_partial (h.call .ksActivate) n rest hn ho
    simp only [KillSwitch.Activate, hk, Bool.false_eq_true, if_false, hos',
      KillSwitch.activateWindows]
    rcases hx : activateWindowsLoop activateWindowsRules (h.call .ksActivate) with ⟨_ | e, h1⟩
    · rw [hx] at a
      simp at a
    · rw [hx] at a b
      exact ⟨a, rfl, b⟩

/-- C11, the amended statement on Linux with the second rule command failing. -/
theorem C11_partial_failure_keeps_rules_witness :
    NewKillSwitch.active = false ∧
      secondRuleFails.oracle = List.replicate 1 true ++ false :: [] ∧
      (NewKillSwitch.Activate secondRuleFails).2.1 = NewKillSwitch ∧
      (NewKillSwitch.Activate secondRuleFails).2.2.chain4 =
        ([allowLoopback, allowTunnel, dropAll].take 1).reverse ++ secondRuleFails.chain4 :=
  ⟨by decide, by decide,
    ((C11_partial_failure_keeps_rules NewKillSwitch secondRuleFails 1 [] (by decide)
      (by decide)).1 (by decide) (by decide)).2.1,
    ((C11_partial_failure_keeps_rules NewKillSwitch secondRuleFails 1 [] (by decide)
      (by decide)).1 (by decide) (by decide)).2.2.1⟩

/-! ## C14: the resolvers written by `Configure` -/

theorem linuxDNSContent_fold (l : List String) (acc : String) :
    (l.foldl (fun content dns => content ++ ("nameserver " ++ dns ++ "\n")) acc).data =
      acc.data ++ (l.map (fun d => ("nameserver " ++ d).data ++ ['\n'])).flatten := by
  induction l generalizing acc with
  | nil => simp
  | cons d l ih =>
    rw [List.foldl_cons, ih]
    simp [String.data_append, List.append_assoc]

theorem splitAux_line (w : List Char) (hw : ∀ c ∈ w, c ≠ '\n') (rest cur : List Char) :
    splitAux (w ++ '\n' :: rest) cur = String.mk (cur.reverse ++ w) :: splitAux rest [] := by
  induction w generalizing cur with
  | nil => simp [splitAux]
  | cons c w ih =>
    have hc : c ≠ '\n' := hw c (List.mem_cons_self _ _)
    rw [List.cons_append, splitAux]
    simp only [hc, if_false]
    rw [ih (fun x hx => hw x (List.mem_cons_of_mem _ hx))]
    simp

theorem splitAux_lines (l : List String) (hl : ∀ s ∈ l, ∀ c ∈ s.data, c ≠ '\n') :
    splitAux (l.map (fun s => s.data ++ ['\n'])).flatten [] = l ++ [""] := by
  induction l with
  | nil => rfl
  | cons s l ih =>
    simp only [List.map_cons, List.flatten_cons, List.append_assoc, List.singleton_append]
    rw [splitAux_line s.data (hl s (List.mem_cons_self _ _))]
    rw [ih (fun x hx => hl x (List.mem_cons_of_mem _ hx))]
    simp

theorem isSpace_newline : isSpace '\n' = true := by decide

theorem ne_newline_of_not_space {c : Char} (hc : isSpace c = false) : c ≠ '\n' := by
  intro h
  rw [h, isSpace_newline] at hc
  cases hc

/-- The lines of the text built by `setLinuxDNS`. -/
theorem SplitLines_linuxDNSContent (l : List String)
    (hl : ∀ s ∈ l, s ≠ "" ∧ ∀ c ∈ s.toList, isSpace c = false) :
    SplitLines (linuxDNSContent l) =
      "# KryptX VPN DNS" :: (l.map (fun d => "nameserver " ++ d) ++ [""]) := by
  unfold SplitLines linuxDNSContent
  rw [String.toList, linuxDNSContent_fold]
  have key : ∀ rest : List Char, ("# KryptX VPN DNS\n" : String).data ++ rest =
      ("# KryptX VPN DNS" : String).data ++ '\n' :: rest := fun _ => rfl
  rw [key, splitAux_line _ (by decide)]
  have := splitAux_lines (l.map (fun d => "nameserver " ++ d)) (by
    intro s hs c hc
    simp only [List.mem_map] at hs
    obtain ⟨d, hd, rfl⟩ := hs
    simp only [String.data_append, List.mem_append] at hc
    rcases hc with hc | hc
    · have : ∀ x ∈ ("nameserver " : String).data, x ≠ '\n' := by decide
      exact this c hc
    · exact ne_newline_of_not_space ((hl d hd).2 c hc))
  rw [List.map_map] at this
  simp only [List.reverse_nil, List.nil_append]
  congr 1

theorem TrimSpace_nameserver_line (d : String) (hne : d ≠ "")
    (hd : ∀ c ∈ d.toList, isSpace c = false) :
    TrimSpace ("nameserver " ++ d) = "nameserver " ++ d := by
  have hdata : d.data ≠ [] := by
    intro h0
    apply hne
    cases d
    simp_all
  have hrev : d.data.reverse ≠ [] := by simpa using hdata
  obtain ⟨x, xs, hx⟩ := List.exists_cons_of_ne_nil hrev
  have hxmem : x ∈ d.data := by
    have : x ∈ d.data.reverse := by rw [hx]; exact List.mem_cons_self _ _
    simpa using this
  have hxs : isSpace x = false := hd x hxmem
  have hn : isSpace 'n' = false := by decide
  have e1 : ("nameserver " ++ d).data = 'n' :: ("ameserver " : String).data ++ d.data := rfl
  unfold TrimSpace
  apply String.ext
  simp only [String.toList, e1, List.cons_append, List.dropWhile_cons, hn, Bool.false_eq_true,
    if_false, List.reverse_cons, List.reverse_append, hx, hxs, List.append_assoc]
  simp only [← hx, List.reverse_append, List.reverse_reverse, List.reverse_cons, List.reverse_nil,
    List.nil_append, List.append_assoc, List.singleton_append]
  have hd2 : d.data = xs.reverse ++ [x] := by
    have := congrArg List.reverse hx
    simpa using this
  rw [hd2]

theorem HasPrefix_nameserver_line (d : String) :
    HasPrefix ("nameserver " ++ d) "nameserver" = true := by
  have e1 : ("nameserver " ++ d).data = ("nameserver" : String).data ++ (' ' :: d.data) := rfl
  unfold HasPrefix
  rw [String.toList, String.toList, e1]
  simp

theorem Fields_nameserver_line (d : String) (hne : d ≠ "")
    (hd : ∀ c ∈ d.toList, isSpace c = false) :
    Fields ("nameserver " ++ d) = ["nameserver", d] := by
  have hdata : d.data ≠ [] := by
    intro h0
    apply hne
    cases d
    simp_all
  have e1 : ("nameserver " ++ d).data = ("nameserver" : String).data ++ (' ' :: d.data) := rfl
  have hsp : isSpace ' ' = true := by decide
  unfold Fields
  rw [String.toList, e1, fieldsAux_word _ (by decide), fieldsAux]
  simp only [hsp, if_true, List.append_nil]
  have h2 := fieldsAux_word d.data hd [] []
  rw [List.append_nil] at h2
  rw [h2, fieldsAux]
  simp [hdata]

/-- The parser of `backupLinuxDNS` reads back the servers written by `setLinuxDNS`. -/
theorem parseNameservers_linuxDNSContent (l : List String)
    (hl : ∀ s ∈ l, s ≠ "" ∧ ∀ c ∈ s.toList, isSpace c = false) :
    parseNameservers (SplitLines (linuxDNSContent l)) = l := by
  rw [SplitLines_linuxDNSContent l hl]
  have h0 : HasPrefix (TrimSpace "# KryptX VPN DNS") "nameserver" = false := by decide
  have h1 : HasPrefix (TrimSpace "") "nameserver" = false := by decide
  rw [parseNameservers]
  simp only [h0, Bool.false_eq_true, if_false]
  induction l with
  | nil =>
    simp only [List.map_nil, List.nil_append]
    rw [parseNameservers]
    simp only [h1, Bool.false_eq_true, if_false]
    rfl
  | cons d l ih =>
    obtain ⟨hne, hd⟩ := hl d (List.mem_cons_self _ _)
    simp only [List.map_cons, List.cons_append]
    rw [parseNameservers]
    simp only [TrimSpace_nameserver_line d hne hd, HasPrefix_nameserver_line, if_true,
      Fields_nameserver_line d hne hd]
    rw [ih (fun x hx => hl x (List.mem_cons_of_mem _ hx))]

theorem exec_writeTmpFile_tmp {h h' : Host} {content out : String}
    (hx : h.exec (.writeFile "/tmp/resolv.conf.kryptx" content) = (some out, h')) :
    h'.tmpFile = some content := by
  obtain ⟨h1, he, rfl⟩ := exec_success hx
  simp [effect] at he
  obtain ⟨-, rfl⟩ := he
  simp

theorem exec_mvTmpFile_conf {h h' : Host} {out : String}
    (hx : h.exec (.run ["sudo", "mv", "/tmp/resolv.conf.kryptx", "/etc/resolv.conf"] none)
      = (some out, h')) :
    h'.resolvConf = h.tmpFile := by
  obtain ⟨h1, he, rfl⟩ := exec_success hx
  simp [effect, shellEffect, asFixedCmd, fixedEffect, Option.map_eq_some'] at he
  obtain ⟨c, hc, -, rfl⟩ := he
  simp [hc]

theorem drop_addr (x : String) : ("addr=" ++ x).drop 5 = x := by
  rw [String.drop_eq]
  apply String.ext
  rfl

theorem exec_netsh_set_static {h h' : Host} {x out : String}
    (hx : h.exec (.run ["netsh", "interface", "ipv4", "set", "dns",
      "name=\"Local Area Connection\"", "source=static", "addr=" ++ x] none) = (some out, h')) :
    h'.winDNS = some [x] := by
  obtain ⟨h1, he, rfl⟩ := exec_success hx
  simp [effect, shellEffect, asFixedCmd, asIptables, asCmdC, asSetDNSServers, asNetshDNS,
    netshDNSEffect, drop_addr] at he
  obtain ⟨-, rfl⟩ := he
  rfl

theorem exec_netsh_add_dns {h h' : Host} {x out : String}
    (hx : h.exec (.run ["netsh", "interface", "ipv4", "add", "dns",
      "name=\"Local Area Connection\"", "addr=" ++ x] none) = (some out, h')) :
    h'.winDNS = some (h.winDNS.getD [] ++ [x]) := by
  obtain ⟨h1, he, rfl⟩ := exec_success hx
  simp [effect, shellEffect, asFixedCmd, asIptables, asCmdC, asSetDNSServers, asNetshDNS,
    netshDNSEffect, drop_addr] at he
  obtain ⟨-, rfl⟩ := he
  rfl

/-- A successful `setLinuxDNS` leaves its text in `/etc/resolv.conf`. -/
theorem setLinuxDNS_written (d : DNSManager) (h : Host) (hok : (d.setLinuxDNS h).1 = none) :
    (d.setLinuxDNS h).2.2.resolvConf = some (linuxDNSContent d.vpnDNS) := by
  simp only [DNSManager.setLinuxDNS] at hok ⊢
  rcases x3 : h.exec (.writeFile "/tmp/resolv.conf.kryptx" (linuxDNSContent d.vpnDNS))
    with ⟨_ | o3, h3⟩
  · simp [x3] at hok
  · simp only [x3] at hok ⊢
    have c1 := exec_writeTmpFile_tmp x3
    rcases x4 : h3.exec (.run ["sudo", "mv", "/tmp/resolv.conf.kryptx", "/etc/resolv.conf"] none)
      with ⟨_ | o4, h4⟩
    · simp [x4] at hok
    · have d1 := exec_mvTmpFile_conf x4
      show h4.resolvConf = _
      rw [d1, c1]

/-- A successful `setMacOSDNS` with a list other than the word `empty` sets the list. -/
theorem setMacOSDNS_written (d : DNSManager) (h : Host) (hl : d.vpnDNS ≠ ["empty"])
    (hok : (d.setMacOSDNS h).1 = none) : (d.setMacOSDNS h).2.2.macDNS = d.vpnDNS := by
  simp only [DNSManager.setMacOSDNS, List.cons_append, List.nil_append] at hok ⊢
  rcases x1 : h.exec (.run ("networksetup" :: "-setdnsservers" :: "Wi-Fi" :: d.vpnDNS) none)
    with ⟨_ | o1, h1⟩
  · simp [x1] at hok
  · exact exec_setdnsservers hl x1

/-- A successful `setWindowsDNS` sets the first two servers of the list and no other. -/
theorem setWindowsDNS_written (d : DNSManager) (h : Host) (hok : (d.setWindowsDNS h).1 = none) :
    (d.vpnDNS = [] → (d.setWindowsDNS h).2.2.winDNS = h.winDNS) ∧
      (d.vpnDNS ≠ [] → (d.setWindowsDNS h).2.2.winDNS = some (d.vpnDNS.take 2)) := by
  cases hv : d.vpnDNS with
  | nil =>
    simp [DNSManager.setWindowsDNS, DNSManager.setWindowsSecondary, hv]
  | cons a l =>
    refine ⟨fun hn => (by cases hn), fun _ => ?_⟩
    simp only [DNSManager.setWindowsDNS, hv] at hok ⊢
    rcases x1 : h.exec (.run ["netsh", "interface", "ipv4", "set", "dns",
      "name=\"Local Area Connection\"", "source=static", "addr=" ++ a] none) with ⟨_ | o1, h1⟩
    · simp [x1] at hok
    · simp only [x1] at hok ⊢
      have a1 := exec_netsh_set_static x1
      cases l with
      | nil =>
        simp only [DNSManager.setWindowsSecondary, hv]
        simpa using a1
      | cons b l2 =>
        simp only [DNSManager.setWindowsSecondary, hv] at hok ⊢
        rcases x2 : h1.exec (.run ["netsh", "interface", "ipv4", "add", "dns",
          "name=\"Local Area Connection\"", "addr=" ++ b] none) with ⟨_ | o2, h2⟩
        · simp [x2] at hok
        · have a2 := exec_netsh_add_dns x2
          rw [a1] at a2
          simpa using a2

/-- What a successful `Configure` of a disengaged guard has run: the backup step, then the
step setting the VPN resolvers, both succeeding. -/
theorem Configure_steps (d : DNSManager) (h : Host) (hd : d.configured = false)
    (hok : (d.Configure h).1 = none) :
    (d.backupDNS (h.call .dnsConfigure)).1 = none ∧
      ((d.backupDNS (h.call .dnsConfigure)).2.1.setVPNDNS
        (d.backupDNS (h.call .dnsConfigure)).2.2).1 = none ∧
      (d.Configure h).2.2 = ((d.backupDNS (h.call .dnsConfigure)).2.1.setVPNDNS
        (d.backupDNS (h.call .dnsConfigure)).2.2).2.2 := by
  simp only [DNSManager.Configure, hd, Bool.false_eq_true, if_false] at hok ⊢
  rcases hx : d.backupDNS (h.call .dnsConfigure) with ⟨_ | e, d1, h1⟩
  · simp only [hx] at hok ⊢
    rcases hy : d1.setVPNDNS h1 with ⟨_ | e, d2, h2⟩
    · simp
    · simp [hy] at hok
  · simp [hx] at hok

/-- C14, counterexample on Windows: with three resolvers in the profile and every command
succeeding, `Configure` succeeds and the connection has the first two resolvers only. -/
theorem C14_windows_counterexample :
    threeResolvers.vpnDNS = ["10.0.0.1", "10.0.0.2", "10.0.0.3"] ∧
      (threeResolvers.Configure freshWindows).1 = none ∧
      (threeResolvers.Configure freshWindows).2.2.winDNS = some ["10.0.0.1", "10.0.0.2"] := by
  decide

/-- C14, amended: for every profile DNS list of non-empty, white-space-free addresses,
after a successful `Configure` of a disengaged guard the host's resolvers are the profile
list on Linux (`/etc/resolv.conf` holds the text of `setLinuxDNS`, from which the parser of
`backupLinuxDNS` reads the list back, same entries in the same order) and on macOS (the
static servers of the service are the list); on Windows, for a non-empty list, they are the
first two entries of the list only. -/
theorem C14_configured_resolvers (d : DNSManager) (h : Host) (hd : d.configured = false)
    (hclean : cleanResolvers d.vpnDNS) (hok : (d.Configure h).1 = none) :
    (h.os = .linux →
        (d.Configure h).2.2.resolvConf = some (linuxDNSContent d.vpnDNS) ∧
          parseNameservers (SplitLines (linuxDNSContent d.vpnDNS)) = d.vpnDNS) ∧
      (h.os = .darwin → (d.Configure h).2.2.macDNS = d.vpnDNS) ∧
      (h.os = .windows → d.vpnDNS ≠ [] →
        (d.Configure h).2.2.winDNS = some (d.vpnDNS.take 2)) := by
  obtain ⟨-, sok, e⟩ := Configure_steps d h hd hok
  have hos1 : (d.backupDNS (h.call .dnsConfigure)).2.2.os = h.os :=
    (backupDNS_frame d (h.call .dnsConfigure)).1.1
  have hv := (backupDNS_fields d (h.call .dnsConfigure)).2
  rw [e]
  generalize (d.backupDNS (h.call .dnsConfigure)).2.1 = d1 at *
  refine ⟨fun ho => ⟨?_, parseNameservers_linuxDNSContent _ hclean.1⟩, fun ho => ?_,
    fun ho => ?_⟩
  · rw [ho] at hos1
    simp only [DNSManager.setVPNDNS, hos1] at sok ⊢
    rw [setLinuxDNS_written d1 _ sok, hv]
  · rw [ho] at hos1
    simp only [DNSManager.setVPNDNS, hos1] at sok ⊢
    rw [setMacOSDNS_written d1 _ (by rw [hv]; exact hclean.2) sok, hv]
  · rw [ho] at hos1
    simp only [DNSManager.setVPNDNS, hos1] at sok ⊢
    obtain ⟨-, b⟩ := setWindowsDNS_written d1 _ sok
    rw [hv] at b
    exact b

/-- C14, the amended statement on Linux at the sample profile's resolver list. -/
theorem C14_configured_resolvers_witness :
    (NewDNSManager ["10.0.0.1"]).configured = false ∧
      cleanResolvers (NewDNSManager ["10.0.0.1"]).vpnDNS ∧
      ((NewDNSManager ["10.0.0.1"]).Configure (sampleLinux [])).1 = none ∧
      ((NewDNSManager ["10.0.0.1"]).Configure (sampleLinux [])).2.2.resolvConf =
        some (linuxDNSContent (NewDNSManager ["10.0.0.1"]).vpnDNS) ∧
      parseNameservers (SplitLines (linuxDNSContent (NewDNSManager ["10.0.0.1"]).vpnDNS)) =
        (NewDNSManager ["10.0.0.1"]).vpnDNS :=
  ⟨by decide, by decide, by decide,
    (C14_configured_resolvers (NewDNSManager ["10.0.0.1"]) (sampleLinux []) (by decide)
      (by decide) (by decide)).1 (by decide)⟩

/-! ## C9, continued: what the backup step stores -/

/-- What `backupLinuxDNS` stores: when `/etc/resolv.conf` can be read, the nameserver entries
of its content are appended to `originalDNS`, whether or not the copy of the file that
follows succeeds; when it cannot be read, the manager is unchanged. -/
theorem backupLinuxDNS_stores (d : DNSManager) (g : Host) :
    (∀ content, (g.exec (.readFile "/etc/resolv.conf")).1 = some content →
        g.resolvConf = some content ∧
          (d.backupLinuxDNS g).2.1.originalDNS =
            d.originalDNS ++ parseNameservers (SplitLines content)) ∧
      ((g.exec (.readFile "/etc/resolv.conf")).1 = none → (d.backupLinuxDNS g).2.1 = d) := by
  unfold DNSManager.backupLinuxDNS
  dsimp only
  rcases hx : g.exec (.readFile "/etc/resolv.conf") with ⟨_ | data, g1⟩
  · simp
  · refine ⟨fun content hc => ?_, fun hn => by simp at hn⟩
    simp only [Option.some.injEq] at hc
    subst hc
    refine ⟨(exec_readResolvConf hx).1, ?_⟩
    dsimp only
    rcases h2 : g1.exec
      (.run ["sudo", "cp", "/etc/resolv.conf", "/etc/resolv.conf.kryptx.backup"] none)
      with ⟨_ | o2, g2⟩ <;> rfl

/-- What `backupMacOSDNS` stores: when the query succeeds, `originalDNS` is replaced by the
fields of its output; when it fails, the manager is unchanged. -/
theorem backupMacOSDNS_stores (d : DNSManager) (g : Host) :
    (∀ output, (g.exec (.run ["networksetup", "-getdnsservers", "Wi-Fi"] none)).1 = some output →
        output = getdnsserversOutput g.macDNS ∧
          (d.backupMacOSDNS g).2.1.originalDNS = Fields output) ∧
      ((g.exec (.run ["networksetup", "-getdnsservers", "Wi-Fi"] none)).1 = none →
        (d.backupMacOSDNS g).2.1 = d) := by
  unfold DNSManager.backupMacOSDNS
  dsimp only
  rcases hx : g.exec (.run ["networksetup", "-getdnsservers", "Wi-Fi"] none) with ⟨_ | out, g1⟩
  · simp
  · refine ⟨fun output hc => ?_, fun hn => by simp at hn⟩
    simp only [Option.some.injEq] at hc
    subst hc
    exact ⟨exec_getdnsservers hx, rfl⟩

/-- The Windows backup step stores nothing. -/
theorem backupWindowsDNS_stores (d : DNSManager) (g : Host) :
    (d.backupWindowsDNS g).2.1 = d := by
  unfold DNSManager.backupWindowsDNS
  dsimp only
  rcases hx : g.exec (.run ["netsh", "interface", "ipv4", "show", "dnsservers"] none)
    with ⟨_ | out, g1⟩ <;> rfl

/-- What a `Configure` of a disengaged guard leaves in the manager: the backup as its backup
step stored it, and the engaged flag set exactly when it succeeded. -/
theorem Configure_keeps_backup (d : DNSManager) (h : Host) (hd : d.configured = false) :
    (d.Configure h).2.1.originalDNS = (d.backupDNS (h.call .dnsConfigure)).2.1.originalDNS ∧
      (d.Configure h).2.1.vpnDNS = d.vpnDNS ∧
      ((d.Configure h).1 = none → (d.Configure h).2.1.configured = true) ∧
      ((d.Configure h).1 ≠ none → (d.Configure h).2.1.configured = false) := by
  have hb := backupDNS_fields d (h.call .dnsConfigure)
  simp only [DNSManager.Configure, hd, Bool.false_eq_true, if_false]
  rcases hx : d.backupDNS (h.call .dnsConfigure) with ⟨_ | e, d1, h1⟩
  · rw [hx] at hb
    have hs := setVPNDNS_self d1 h1
    simp only []
    rcases hy : d1.setVPNDNS h1 with ⟨_ | e, d2, h2⟩
    · rw [hy] at hs
      simp only [] at hs hb
      subst hs
      exact ⟨rfl, hb.2, fun _ => rfl, fun hn => absurd rfl hn⟩
    · rw [hy] at hs
      simp only [] at hs hb
      subst hs
      exact ⟨rfl, hb.2, fun hn => by simp at hn, fun _ => hb.1.trans hd⟩
  · rw [hx] at hb
    simp only [] at hb
    exact ⟨rfl, hb.2, fun hn => by simp at hn, fun _ => hb.1.trans hd⟩

/-- What the backup step of a successful `Configure` has stored. -/
theorem backupDNS_stores_of_ok (d : DNSManager) (g : Host) (hok : (d.backupDNS g).1 = none) :
    (g.os = .linux → ∃ content, g.resolvConf = some content ∧
        (d.backupDNS g).2.1.originalDNS =
          d.originalDNS ++ parseNameservers (SplitLines content)) ∧
      (g.os = .darwin →
        (d.backupDNS g).2.1.originalDNS = Fields (getdnsserversOutput g.macDNS)) ∧
      (g.os = .windows → (d.backupDNS g).2.1.originalDNS = d.originalDNS) := by
  refine ⟨fun ho => ?_, fun ho => ?_, fun ho => ?_⟩
  · simp only [DNSManager.backupDNS, ho] at hok ⊢
    obtain ⟨a, -⟩ := backupLinuxDNS_stores d g
    cases hx : (g.exec (.readFile "/etc/resolv.conf")).1 with
    | none =>
      exfalso
      unfold DNSManager.backupLinuxDNS at hok
      dsimp only at hok
      rcases hy : g.exec (.readFile "/etc/resolv.conf") with ⟨_ | data, g1⟩
      · rw [hy] at hok
        simp at hok
      · rw [hy] at hx
        simp at hx
    | some content => exact ⟨content, a content hx⟩
  · simp only [DNSManager.backupDNS, ho] at hok ⊢
    obtain ⟨a, -⟩ := backupMacOSDNS_stores d g
    cases hx : (g.exec (.run ["networksetup", "-getdnsservers", "Wi-Fi"] none)).1 with
    | none =>
      exfalso
      unfold DNSManager.backupMacOSDNS at hok
      dsimp only at hok
      rcases hy : g.exec (.run ["networksetup", "-getdnsservers", "Wi-Fi"] none)
        with ⟨_ | out, g1⟩
      · rw [hy] at hok
        simp at hok
      · rw [hy] at hx
        simp at hx
    | some output =>
      obtain ⟨b, c⟩ := a output hx
      rw [c, b]
  · simp only [DNSManager.backupDNS, ho]
    rw [backupWindowsDNS_stores]

/-- C9, amended: the backup is not tied to the engaged flag. `NewDNSManager` starts
disengaged with an empty backup. The backup step of `Configure` stores the resolvers it
reads: on Linux, once `/etc/resolv.conf` is read, the nameserver entries of its content are
appended to `originalDNS` (also when the copy of the file then fails); on macOS a successful
query replaces `originalDNS` by the fields of its output; on Windows nothing is stored; a
failed read or query stores nothing. Nothing clears the backup: a `Configure` of a
disengaged guard, successful or not, leaves `originalDNS` as its backup step stored it, with
`configured` set exactly when it succeeded; `Restore` never changes `originalDNS`, and when
it succeeds it only clears `configured`; a `Configure` of an engaged guard changes
nothing. -/
theorem C9_backup_never_cleared (d : DNSManager) (h : Host) :
    ((NewDNSManager d.vpnDNS).originalDNS = [] ∧ (NewDNSManager d.vpnDNS).configured = false) ∧
      ((d.Restore h).2.1.originalDNS = d.originalDNS ∧
        (d.Restore h).2.1.vpnDNS = d.vpnDNS ∧
        ((d.Restore h).1 = none → (d.Restore h).2.1.configured = false) ∧
        ((d.Restore h).1 ≠ none → (d.Restore h).2.1.configured = d.configured)) ∧
      (d.configured = false →
        (d.Configure h).2.1.originalDNS =
            (d.backupDNS (h.call .dnsConfigure)).2.1.originalDNS ∧
          ((d.Configure h).1 = none → (d.Configure h).2.1.configured = true) ∧
          ((d.Configure h).1 ≠ none → (d.Configure h).2.1.configured = false)) ∧
      (d.configured = false → (d.Configure h).1 = none →
        (h.os = .linux → ∃ content, h.resolvConf = some content ∧
            (d.Configure h).2.1.originalDNS =
              d.originalDNS ++ parseNameservers (SplitLines content)) ∧
          (h.os = .darwin →
            (d.Configure h).2.1.originalDNS = Fields (getdnsserversOutput h.macDNS)) ∧
          (h.os = .windows → (d.Configure h).2.1.originalDNS = d.originalDNS)) ∧
      (∀ g : Host,
        (g.os = .linux →
            (∀ content, (g.exec (.readFile "/etc/resolv.conf")).1 = some content →
              g.resolvConf = some content ∧
                (d.backupDNS g).2.1.originalDNS =
                  d.originalDNS ++ parseNameservers (SplitLines content)) ∧
              ((g.exec (.readFile "/etc/resolv.conf")).1 = none →
                (d.backupDNS g).2.1.originalDNS = d.originalDNS)) ∧
          (g.os = .darwin →
            (∀ output,
              (g.exec (.run ["networksetup", "-getdnsservers", "Wi-Fi"] none)).1 = some output →
                output = getdnsserversOutput g.macDNS ∧
                  (d.backupDNS g).2.1.originalDNS = Fields output) ∧
              ((g.exec (.run ["networksetup", "-getdnsservers", "Wi-Fi"] none)).1 = none →
                (d.backupDNS g).2.1.originalDNS = d.originalDNS)) ∧
          (g.os = .windows → (d.backupDNS g).2.1.originalDNS = d.originalDNS) ∧
          (g.os = .other → (d.backupDNS g).2.1.originalDNS = d.originalDNS)) ∧
      (d.configured = true → (d.Configure h).2.1 = d) := by
  refine ⟨⟨rfl, rfl⟩, ?_, ?_, ?_, ?_, ?_⟩
  · rcases Restore_result d h with ⟨a, b⟩ | ⟨a, b⟩
    · rw [b]
      exact ⟨rfl, rfl, fun _ => rfl, fun hn => absurd a hn⟩
    · rw [b]
      exact ⟨rfl, rfl, fun hok => absurd hok a, fun _ => rfl⟩
  · intro hd
    obtain ⟨a, -, b, c⟩ := Configure_keeps_backup d h hd
    exact ⟨a, b, c⟩
  · intro hd hok
    obtain ⟨a, -, -, -⟩ := Configure_keeps_backup d h hd
    obtain ⟨bok, -, -⟩ := Configure_steps d h hd hok
    rw [a]
    exact backupDNS_stores_of_ok d (h.call .dnsConfigure) bok
  · intro g
    refine ⟨fun ho => ?_, fun ho => ?_, fun ho => ?_, fun ho => ?_⟩
    · simp only [DNSManager.backupDNS, ho]
      obtain ⟨a, b⟩ := backupLinuxDNS_stores d g
      exact ⟨a, fun hn => by rw [b hn]⟩
    · simp only [DNSManager.backupDNS, ho]
      obtain ⟨a, b⟩ := backupMacOSDNS_stores d g
      exact ⟨a, fun hn => by rw [b hn]⟩
    · simp only [DNSManager.backupDNS, ho]
      rw [backupWindowsDNS_stores]
    · simp only [DNSManager.backupDNS, ho]
  · intro hd
    rw [Configure_of_configured h hd]

/-! ## C8: the backup of a host without static servers -/

/-- C8, the code at the failing input: on macOS, on a host whose `Wi-Fi` service has no
static DNS server (automatic resolution), with every command succeeding, `Configure` stores
the eight words of the message of `networksetup -getdnsservers` as the backup, so that the
guard is engaged with a backup that is not empty although the resolver list of the host was;
`Restore` then takes the branch for a non-empty backup: it issues
`networksetup -setdnsservers Wi-Fi` followed by these words, not
`networksetup -setdnsservers Wi-Fi empty`, and leaves the service with these words as static
servers instead of automatic resolution. -/
theorem C8_macos_message_backup :
    darwinAutomatic.macDNS = [] ∧
      ((NewDNSManager ["10.0.0.1"]).Configure darwinAutomatic).1 = none ∧
      ((NewDNSManager ["10.0.0.1"]).Configure darwinAutomatic).2.1 =
        { vpnDNS := ["10.0.0.1"], originalDNS := messageWords, configured := true } ∧
      (((NewDNSManager ["10.0.0.1"]).Configure darwinAutomatic).2.1.Restore
        ((NewDNSManager ["10.0.0.1"]).Configure darwinAutomatic).2.2).1 = none ∧
      (((NewDNSManager ["10.0.0.1"]).Configure darwinAutomatic).2.1.Restore
        ((NewDNSManager ["10.0.0.1"]).Configure darwinAutomatic).2.2).2.2.log.getLast? =
        some (.run ("networksetup" :: "-setdnsservers" :: "Wi-Fi" :: messageWords) none, true) ∧
      (restoreAutomaticCmd, true) ∉
        (((NewDNSManager ["10.0.0.1"]).Configure darwinAutomatic).2.1.Restore
          ((NewDNSManager ["10.0.0.1"]).Configure darwinAutomatic).2.2).2.2.log ∧
      (((NewDNSManager ["10.0.0.1"]).Configure darwinAutomatic).2.1.Restore
        ((NewDNSManager ["10.0.0.1"]).Configure darwinAutomatic).2.2).2.2.macDNS =
        messageWords := by
  decide

/-! ## C6, continued: a second `Connect` after monitor ticks -/

end KryptX
